import Mathlib

/-!
# IS31FL3731 / IS31FL3733 LED-driver layer

A shallow embedding of `drivers/avr/is31fl3731.c`, `drivers/is31fl3733.c` and the
board constants of `keyboards/planck/rev5/config.h`.

Conventions of the embedding

* `uint8_t` values are natural numbers below 256; a store of a computed `int`
  into a `uint8_t` object is written with an explicit `% 256`.
* C arrays are lists.  Every array access is checked against the length of the
  list: an access outside the array is undefined behaviour in C and makes the
  embedded function return `none`.
* The global variables of the driver are the fields of `State`.  The frames
  handed to the bus primitive are appended to the field `wire`.
* The bus primitive is a parameter `bus`; `while` loops that wait for the bus
  take a bound `fuel` on the number of attempts and return `none` when it is
  exhausted.
-/

namespace IS31FL

/-! ## Board configuration (`keyboards/planck/rev5/config.h`) -/

def DRIVER_ADDR_1 : Nat := 0b1110100
def DRIVER_ADDR_2 : Nat := 0b1110110

def DRIVER_COUNT : Nat := 2
def DRIVER_1_LED_TOTAL : Nat := 25
def DRIVER_2_LED_TOTAL : Nat := 24
def DRIVER_LED_TOTAL : Nat := DRIVER_1_LED_TOTAL + DRIVER_2_LED_TOTAL

/-! ## Types (`drivers/is31fl3733.h`) -/

/-- The struct `Point`. -/
structure Point where
  x : Nat
  y : Nat
deriving DecidableEq, Repr

/-- The struct `is31_led`: `driver` is a 2-bit field, `matrix` and `modifier` are
1-bit fields, `control_index` and `matrix_co` (the raw byte of the union) are bytes. -/
structure is31_led where
  driver : Nat
  matrix : Nat
  modifier : Nat
  control_index : Nat
  matrix_co : Nat
  point : Point
deriving DecidableEq, Repr

/-- The values an `is31_led` object can hold, given the widths of its fields. -/
def is31_led.representable (l : is31_led) : Prop :=
  l.driver < 4 ∧ l.matrix < 2 ∧ l.modifier < 2 ∧ l.control_index < 256 ∧
  l.matrix_co < 256 ∧ l.point.x < 256 ∧ l.point.y < 256

/-- The invariant of an LED descriptor: it names a chip of the board and one of the
18 cells of a sub-matrix. -/
def is31_led.valid (l : is31_led) : Prop :=
  l.driver < DRIVER_COUNT ∧ l.matrix < 2 ∧ l.control_index < 18

instance (l : is31_led) : Decidable l.valid := by
  unfold is31_led.valid; exact inferInstance

/-- The board table `g_is31_leds[DRIVER_LED_TOTAL]` is declared `extern` and defined by
the keyboard; the driver functions take it as the parameter `leds`.  A table is
well formed when it has `DRIVER_LED_TOTAL` entries, all of them valid. -/
def leds_valid (leds : List is31_led) : Prop :=
  leds.length = DRIVER_LED_TOTAL ∧ ∀ l ∈ leds, l.valid

instance (leds : List is31_led) : Decidable (leds_valid leds) := by
  unfold leds_valid; exact inferInstance

/-- The struct `led_control_bitmask`. -/
structure led_control_bitmask where
  red_register : Nat
  red_bit : Nat
  green_register : Nat
  green_bit : Nat
  blue_register : Nat
  blue_bit : Nat
deriving DecidableEq, Repr

/-! ## Constants of `is31fl3731.c` -/

def ISSI_REG_CONFIG : Nat := 0x00
def ISSI_REG_CONFIG_PICTUREMODE : Nat := 0x00
def ISSI_REG_PICTUREFRAME : Nat := 0x01
def ISSI_REG_SHUTDOWN : Nat := 0x0A
def ISSI_REG_AUDIOSYNC : Nat := 0x06
def ISSI_COMMANDREGISTER : Nat := 0xFD
def ISSI_BANK_FUNCTIONREG : Nat := 0x0B

/-- Modelled from the spec: `TXMAXBUFLEN` of the absent `TWIlib.h`, the size of the
transfer buffer; the source comments say the buffer has 20 bytes. -/
def TXMAXBUFLEN : Nat := 20

/-- Modelled from the spec: `TWI_NO_RELEVANT_INFO` of the absent `TWIlib.h`, the
status sentinel stored before each attempt; it differs from the completion
status `0xFF`. -/
def TWI_NO_RELEVANT_INFO : Nat := 0xF8

/-- The table `g_led_control_bitmask[18]`. -/
def g_led_control_bitmask : List led_control_bitmask :=
  [ ⟨0x02, 0, 0x04, 0, 0x06, 0⟩,
    ⟨0x00, 0, 0x04, 1, 0x06, 1⟩,
    ⟨0x00, 1, 0x02, 1, 0x06, 2⟩,
    ⟨0x00, 2, 0x02, 2, 0x04, 2⟩,
    ⟨0x00, 3, 0x02, 3, 0x04, 3⟩,
    ⟨0x00, 4, 0x02, 4, 0x04, 4⟩,
    ⟨0x00, 5, 0x02, 5, 0x04, 5⟩,
    ⟨0x00, 6, 0x02, 6, 0x04, 6⟩,
    ⟨0x00, 7, 0x02, 7, 0x04, 7⟩,
    ⟨0x10, 0, 0x0E, 0, 0x0C, 0⟩,
    ⟨0x10, 1, 0x0E, 1, 0x0C, 1⟩,
    ⟨0x10, 2, 0x0E, 2, 0x0C, 2⟩,
    ⟨0x10, 3, 0x0E, 3, 0x0C, 3⟩,
    ⟨0x10, 4, 0x0E, 4, 0x0C, 4⟩,
    ⟨0x10, 5, 0x0E, 5, 0x0C, 5⟩,
    ⟨0x10, 6, 0x0E, 6, 0x0A, 5⟩,
    ⟨0x10, 7, 0x0C, 6, 0x0A, 6⟩,
    ⟨0x0E, 7, 0x0C, 7, 0x0A, 7⟩ ]

/-- The table `g_map_control_index_to_register[2][18][3]`. -/
def g_map_control_index_to_register : List (List (List Nat)) :=
  [ [ [0x34, 0x44, 0x54],
      [0x24, 0x45, 0x55],
      [0x25, 0x35, 0x56],
      [0x26, 0x36, 0x46],
      [0x27, 0x37, 0x47],
      [0x28, 0x38, 0x48],
      [0x29, 0x39, 0x49],
      [0x2a, 0x3a, 0x4a],
      [0x2b, 0x3b, 0x4b],
      [0xa4, 0x94, 0x84],
      [0xa5, 0x95, 0x85],
      [0xa6, 0x96, 0x86],
      [0xa7, 0x97, 0x87],
      [0xa8, 0x98, 0x88],
      [0xa9, 0x99, 0x89],
      [0xaa, 0x9a, 0x79],
      [0xab, 0x8a, 0x7a],
      [0x9b, 0x8b, 0x7b] ],
    [ [0x34 + 8, 0x44 + 8, 0x54 + 8],
      [0x24 + 8, 0x45 + 8, 0x55 + 8],
      [0x25 + 8, 0x35 + 8, 0x56 + 8],
      [0x26 + 8, 0x36 + 8, 0x46 + 8],
      [0x27 + 8, 0x37 + 8, 0x47 + 8],
      [0x28 + 8, 0x38 + 8, 0x48 + 8],
      [0x29 + 8, 0x39 + 8, 0x49 + 8],
      [0x2a + 8, 0x3a + 8, 0x4a + 8],
      [0x2b + 8, 0x3b + 8, 0x4b + 8],
      [0xa4 + 8, 0x94 + 8, 0x84 + 8],
      [0xa5 + 8, 0x95 + 8, 0x85 + 8],
      [0xa6 + 8, 0x96 + 8, 0x86 + 8],
      [0xa7 + 8, 0x97 + 8, 0x87 + 8],
      [0xa8 + 8, 0x98 + 8, 0x88 + 8],
      [0xa9 + 8, 0x99 + 8, 0x89 + 8],
      [0xaa + 8, 0x9a + 8, 0x79 + 8],
      [0xab + 8, 0x8a + 8, 0x7a + 8],
      [0x9b + 8, 0x8b + 8, 0x7b + 8] ] ]

/-! ## Global state -/

/-- The bus primitive seen from the driver: given all frames handed to it so far
(the last one is the current attempt) it leaves a status in `TWIInfo.errorCode`. -/
abbrev Bus := List (List Nat) → Nat

/-- The global variables of the driver, `TWIInfo.errorCode`, and the frames that
were handed to `TWITransmitData`, oldest first. -/
structure State where
  g_twi_transfer_buffer : List Nat
  g_pwm_buffer : List (List Nat)
  g_pwm_buffer_update_required : Bool
  g_led_control_registers : List (List Nat)
  g_led_control_registers_update_required : Bool
  errorCode : Nat
  wire : List (List Nat)
deriving DecidableEq, Repr

/-- The arrays of the state have their declared sizes:
`g_twi_transfer_buffer[TXMAXBUFLEN]`, `g_pwm_buffer[DRIVER_COUNT][144]`,
`g_led_control_registers[DRIVER_COUNT][18]`. -/
def State.WF (s : State) : Prop :=
  s.g_twi_transfer_buffer.length = TXMAXBUFLEN ∧
  s.g_pwm_buffer.map List.length = List.replicate DRIVER_COUNT 144 ∧
  s.g_led_control_registers.map List.length = List.replicate DRIVER_COUNT 18

instance (s : State) : Decidable s.WF := by
  unfold State.WF; exact inferInstance

/-- The state at program start: static storage is zero-initialised, both flags
are `false`, nothing has been sent. -/
def initial_state : State where
  g_twi_transfer_buffer := List.replicate TXMAXBUFLEN 0
  g_pwm_buffer := List.replicate DRIVER_COUNT (List.replicate 144 0)
  g_pwm_buffer_update_required := false
  g_led_control_registers := List.replicate DRIVER_COUNT (List.replicate 18 0)
  g_led_control_registers_update_required := false
  errorCode := 0
  wire := []

/-! ## Array access -/

/-- The store `a[i] = v`; `none` when `i` is outside the array. -/
def arr_set {α : Type} (a : List α) (i : Nat) (v : α) : Option (List α) :=
  if i < a.length then some (a.set i v) else none

/-- The read `a[d][k]` of a two-dimensional array. -/
def arr2_get (a : List (List Nat)) (d k : Nat) : Option Nat :=
  match a[d]? with
  | some row => row[k]?
  | none => none

/-- The store `a[d][k] = v` into a two-dimensional array. -/
def arr2_set (a : List (List Nat)) (d k : Nat) (v : Nat) : Option (List (List Nat)) :=
  match a[d]? with
  | some row =>
    match arr_set row k v with
    | some row2 => some (a.set d row2)
    | none => none
  | none => none

/-- The loop `for (i = ...; ...; ...) body(i)` over the successive values of `i`. -/
def for_each {σ : Type} (body : Nat → σ → Option σ) : List Nat → σ → Option σ
  | [], s => some s
  | i :: rest, s =>
    match body i s with
    | some s2 => for_each body rest s2
    | none => none

/-! ## `is31fl3731.c` -/

/-- Modelled from the spec: the bus transaction primitive `TWITransmitData` of the
absent `TWIlib`: it is handed the first `len` bytes of the transfer buffer and
reports a status in `TWIInfo.errorCode`. -/
def TWITransmitData (bus : Bus) (len : Nat) (s : State) : State :=
  { s with
    wire := s.wire ++ [s.g_twi_transfer_buffer.take len],
    errorCode := bus (s.wire ++ [s.g_twi_transfer_buffer.take len]) }

/-- The loop `while ( TWIInfo.errorCode != 0xFF ) TWITransmitData( buffer, len, 0 );`
with at most `fuel` attempts. -/
def transmit_until_done (bus : Bus) (len : Nat) : Nat → State → Option State
  | fuel, s =>
    if s.errorCode = 0xFF then some s
    else
      match fuel with
      | 0 => none
      | f + 1 => transmit_until_done bus len f (TWITransmitData bus len s)

/-- The three stores into `g_twi_transfer_buffer[0..2]` shared by both
`write_register` functions. -/
def fill_register_frame (addr reg data : Nat) (s : State) : Option State :=
  match arr_set s.g_twi_transfer_buffer 0 (((addr <<< 1) ||| 0x00) % 256) with
  | none => none
  | some t0 =>
    match arr_set t0 1 reg with
    | none => none
    | some t1 =>
      match arr_set t1 2 data with
      | none => none
      | some t2 => some { s with g_twi_transfer_buffer := t2 }

/-- `IS31FL3731_write_register`: the retry loop is commented out in the source, so
the primitive is invoked once. -/
def IS31FL3731_write_register (bus : Bus) (addr reg data : Nat) (s : State) : Option State :=
  match fill_register_frame addr reg data s with
  | none => none
  | some s1 =>
    some (TWITransmitData bus 3 { s1 with errorCode := TWI_NO_RELEVANT_INFO })

/-- The inner loop `for ( int j = 0; j < 16; j++ )` of `write_pwm_buffer`:
`g_twi_transfer_buffer[2 + j] = pwm_buffer[i + j]`. -/
def copy_chunk (pwm_buffer : List Nat) (i : Nat) (t : List Nat) : Option (List Nat) :=
  for_each (fun j t =>
    match pwm_buffer[i + j]? with
    | some v => arr_set t (2 + j) v
    | none => none) (List.range 16) t

/-- One iteration of the outer loop of `write_pwm_buffer`, for the loop variable `i`. -/
def write_pwm_chunk (bus : Bus) (fuel : Nat) (pwm_buffer : List Nat) (i : Nat) (s : State) :
    Option State :=
  match arr_set s.g_twi_transfer_buffer 1 ((0x24 + i) % 256) with
  | none => none
  | some t1 =>
    match copy_chunk pwm_buffer i t1 with
    | none => none
    | some t2 =>
      transmit_until_done bus (16 + 2) fuel
        { s with g_twi_transfer_buffer := t2, errorCode := TWI_NO_RELEVANT_INFO }

/-- `IS31FL3731_write_pwm_buffer`: the loop `for ( int i = 0; i < 144; i += 16 )`
runs for `i = 0, 16, ..., 128`. -/
def IS31FL3731_write_pwm_buffer (bus : Bus) (fuel : Nat) (addr : Nat) (pwm_buffer : List Nat)
    (s : State) : Option State :=
  match arr_set s.g_twi_transfer_buffer 0 (((addr <<< 1) ||| 0x00) % 256) with
  | none => none
  | some t0 =>
    for_each (write_pwm_chunk bus fuel pwm_buffer) ((List.range 9).map (fun n => 16 * n))
      { s with g_twi_transfer_buffer := t0 }

/-- `IS31FL3731_init`; the delay `_delay_ms( 10 )` has no effect on the state. -/
def IS31FL3731_init (bus : Bus) (addr : Nat) (s : State) : Option State := do
  let s ← IS31FL3731_write_register bus addr ISSI_COMMANDREGISTER ISSI_BANK_FUNCTIONREG s
  let s ← IS31FL3731_write_register bus addr ISSI_REG_SHUTDOWN 0x00 s
  let s ← IS31FL3731_write_register bus addr ISSI_REG_CONFIG ISSI_REG_CONFIG_PICTUREMODE s
  let s ← IS31FL3731_write_register bus addr ISSI_REG_PICTUREFRAME 0x00 s
  let s ← IS31FL3731_write_register bus addr ISSI_REG_AUDIOSYNC 0x00 s
  let s ← IS31FL3731_write_register bus addr ISSI_COMMANDREGISTER 0 s
  let s ← for_each (fun i s => IS31FL3731_write_register bus addr i 0x00 s)
    (List.range' 0x00 (0x11 + 1 - 0x00)) s
  let s ← for_each (fun i s => IS31FL3731_write_register bus addr i 0x00 s)
    (List.range' 0x12 (0x23 + 1 - 0x12)) s
  let s ← for_each (fun i s => IS31FL3731_write_register bus addr i 0x00 s)
    (List.range' 0x24 (0xB3 + 1 - 0x24)) s
  let s ← IS31FL3731_write_register bus addr ISSI_COMMANDREGISTER ISSI_BANK_FUNCTIONREG s
  let s ← IS31FL3731_write_register bus addr ISSI_REG_SHUTDOWN 0x01 s
  IS31FL3731_write_register bus addr ISSI_COMMANDREGISTER 0 s

/-- The read `pgm_read_byte(&g_map_control_index_to_register[m][ci][c])`. -/
def pgm_read_map (m ci c : Nat) : Option Nat :=
  match g_map_control_index_to_register[m]? with
  | some plane =>
    match plane[ci]? with
    | some entry => entry[c]?
    | none => none
  | none => none

/-- One of the three stores of `set_color`:
`g_pwm_buffer[led.driver][ pgm_read_byte(&map[led.matrix][led.control_index][c]) - 0x24 ] = v`.
The subscript is an `int`; a negative one is outside the array. -/
def store_pwm (led : is31_led) (c v : Nat) (s : State) : Option State :=
  match pgm_read_map led.matrix led.control_index c with
  | none => none
  | some reg =>
    if reg < 0x24 then none
    else
      match arr2_set s.g_pwm_buffer led.driver (reg - 0x24) v with
      | some buf => some { s with g_pwm_buffer := buf }
      | none => none

/-- `IS31FL3731_set_color`; `index` is a signed `int`. -/
def IS31FL3731_set_color (leds : List is31_led) (index : Int) (red green blue : Nat)
    (s : State) : Option State :=
  if 0 ≤ index ∧ index < (DRIVER_LED_TOTAL : Int) then
    match leds[index.toNat]? with
    | none => none
    | some led =>
      match store_pwm led 0 red s with
      | none => none
      | some s1 =>
        match store_pwm led 1 green s1 with
        | none => none
        | some s2 =>
          match store_pwm led 2 blue s2 with
          | none => none
          | some s3 => some { s3 with g_pwm_buffer_update_required := true }
  else some s

/-- `IS31FL3731_set_color_all`. -/
def IS31FL3731_set_color_all (leds : List is31_led) (red green blue : Nat) (s : State) :
    Option State :=
  for_each (fun i s => IS31FL3731_set_color leds (i : Int) red green blue s)
    (List.range DRIVER_LED_TOTAL) s

/-- The value stored by `x |= (1<<bit)` when `enable` holds and by `x &= ~(1<<bit)`
otherwise, for a byte `x` whose value before is `old`.  The operation is computed on
`int` (two bytes in two-complement on AVR, so `~(1<<bit)` is `0xFFFF ^ (1<<bit)`) and
stored into a byte. -/
def bit_update (old bit : Nat) (enable : Bool) : Nat :=
  if enable then (old ||| (1 <<< bit)) % 256
  else (old &&& (0xFFFF ^^^ (1 <<< bit))) % 256

/-- One read-modify-write of `set_led_control_register` on
`g_led_control_registers[driver][reg]`. -/
def update_control_bit (driver reg bit : Nat) (enable : Bool) (s : State) : Option State :=
  match arr2_get s.g_led_control_registers driver reg with
  | none => none
  | some old =>
    match arr2_set s.g_led_control_registers driver reg (bit_update old bit enable) with
    | some regs => some { s with g_led_control_registers := regs }
    | none => none

/-- `IS31FL3731_set_led_control_register`; `index` is a `uint8_t` and is not checked
against the size of the table. -/
def IS31FL3731_set_led_control_register (leds : List is31_led) (index : Nat)
    (red green blue : Bool) (s : State) : Option State :=
  match leds[index]? with
  | none => none
  | some led =>
    match g_led_control_bitmask[led.control_index]? with
    | none => none
    | some bitmask =>
      match update_control_bit led.driver (bitmask.red_register + led.matrix)
          bitmask.red_bit red s with
      | none => none
      | some s1 =>
        match update_control_bit led.driver (bitmask.green_register + led.matrix)
            bitmask.green_bit green s1 with
        | none => none
        | some s2 =>
          match update_control_bit led.driver (bitmask.blue_register + led.matrix)
              bitmask.blue_bit blue s2 with
          | none => none
          | some s3 => some { s3 with g_led_control_registers_update_required := true }

/-- `IS31FL3731_update_pwm_buffers`. -/
def IS31FL3731_update_pwm_buffers (bus : Bus) (fuel : Nat) (addr1 addr2 : Nat) (s : State) :
    Option State :=
  if s.g_pwm_buffer_update_required then
    match s.g_pwm_buffer[0]? with
    | none => none
    | some b0 =>
      match IS31FL3731_write_pwm_buffer bus fuel addr1 b0 s with
      | none => none
      | some s1 =>
        match s1.g_pwm_buffer[1]? with
        | none => none
        | some b1 =>
          match IS31FL3731_write_pwm_buffer bus fuel addr2 b1 s1 with
          | none => none
          | some s2 => some { s2 with g_pwm_buffer_update_required := false }
  else some { s with g_pwm_buffer_update_required := false }

/-- The body of the loop of `update_led_control_registers`. -/
def update_led_control_step (bus : Bus) (addr1 addr2 : Nat) (i : Nat) (s : State) :
    Option State :=
  match arr2_get s.g_led_control_registers 0 i with
  | none => none
  | some v0 =>
    match IS31FL3731_write_register bus addr1 i v0 s with
    | none => none
    | some s1 =>
      match arr2_get s1.g_led_control_registers 1 i with
      | none => none
      | some v1 => IS31FL3731_write_register bus addr2 i v1 s1

/-- `IS31FL3731_update_led_control_registers`. -/
def IS31FL3731_update_led_control_registers (bus : Bus) (addr1 addr2 : Nat) (s : State) :
    Option State :=
  if s.g_led_control_registers_update_required then
    for_each (update_led_control_step bus addr1 addr2) (List.range 18) s
  else some s

/-! ## Observations of the state -/

/-- The byte `g_pwm_buffer[d][k]`. -/
def pwm_byte (s : State) (d k : Nat) : Option Nat := arr2_get s.g_pwm_buffer d k

/-- The byte `g_led_control_registers[d][k]`. -/
def control_byte (s : State) (d k : Nat) : Option Nat :=
  arr2_get s.g_led_control_registers d k

/-- The register `g_map_control_index_to_register[m][ci][c]` as a number (0 outside
the table). -/
def map_reg (m ci c : Nat) : Nat := (pgm_read_map m ci c).getD 0

/-- The offset in the PWM shadow buffer of channel `c` of a descriptor. -/
def pwm_offset (led : is31_led) (c : Nat) : Nat :=
  map_reg led.matrix led.control_index c - 0x24

/-- An example of a board table with 25 LEDs on chip 0 and 24 LEDs on chip 1: the LEDs of
a chip take the cells of matrix A in order, then those of matrix B. -/
def example_leds : List is31_led :=
  (List.range DRIVER_LED_TOTAL).map (fun i =>
    if i < DRIVER_1_LED_TOTAL then ⟨0, i / 18, 0, i % 18, 0, ⟨0, 0⟩⟩
    else ⟨1, (i - DRIVER_1_LED_TOTAL) / 18, 0, (i - DRIVER_1_LED_TOTAL) % 18, 0, ⟨0, 0⟩⟩)

/-- The bus reports completion (status 0xFF) at the first attempt of every transfer. -/
def Bus.succeeds (bus : Bus) : Prop := ∀ t, bus t = 0xFF

/-- A bus that reports completion at every attempt. -/
def good_bus : Bus := fun _ => 0xFF

/-- A bus that never reports completion. -/
def dead_bus : Bus := fun _ => 0x00

/-- The wire format of chunk `n` of a bulk transfer, in the words of the spec:
device address shifted left with the write bit clear, start register
`0x24 + 16 * n`, sixteen data bytes. -/
def pwm_frame (addr : Nat) (buf : List Nat) (n : Nat) : List Nat :=
  [(addr <<< 1) % 256, 0x24 + 16 * n] ++ (buf.drop (16 * n)).take 16

/-- The nine frames of a bulk transfer of `buf` to the chip at `addr`. -/
def pwm_frames (addr : Nat) (buf : List Nat) : List (List Nat) :=
  (List.range 9).map (pwm_frame addr buf)

/-- The shadow state of `s2` is that of `s`: PWM buffers, control buffers and both
dirty flags. -/
def same_shadow (s s2 : State) : Prop :=
  s2.g_pwm_buffer = s.g_pwm_buffer ∧
  s2.g_pwm_buffer_update_required = s.g_pwm_buffer_update_required ∧
  s2.g_led_control_registers = s.g_led_control_registers ∧
  s2.g_led_control_registers_update_required = s.g_led_control_registers_update_required

/-- A sequence of `IS31FL3731_set_color` calls, each given as (index, red, green, blue). -/
def set_color_seq (leds : List is31_led) : List (Int × Nat × Nat × Nat) → State → Option State
  | [], s => some s
  | c :: rest, s =>
    match IS31FL3731_set_color leds c.1 c.2.1 c.2.2.1 c.2.2.2 s with
    | some s2 => set_color_seq leds rest s2
    | none => none

/-- The chips touched by a sequence of `set_color` calls: the chips of the descriptors
of the calls whose index is in range, each chip listed once. -/
def chips_touched (leds : List is31_led) (calls : List (Int × Nat × Nat × Nat)) : List Nat :=
  ((calls.filterMap (fun c =>
    if 0 ≤ c.1 ∧ c.1 < (DRIVER_LED_TOTAL : Int) then leds[c.1.toNat]? else none)).map
      is31_led.driver).dedup

/-- Bit `k` of the byte `g_led_control_registers[d][reg]`. -/
def control_bit (s : State) (d reg k : Nat) : Option Bool :=
  (control_byte s d reg).map (fun v => v.testBit k)

/-- The position (register, bit) in the control shadow buffer of channel `c` (0 red,
1 green, 2 blue) of cell `ci` of matrix `m`, read from `g_led_control_bitmask` the way
`set_led_control_register` does (register of matrix A plus `m`). -/
def control_pos (m ci c : Nat) : Nat × Nat :=
  match g_led_control_bitmask[ci]? with
  | some bitmask =>
    match c with
    | 0 => (bitmask.red_register + m, bitmask.red_bit)
    | 1 => (bitmask.green_register + m, bitmask.green_bit)
    | _ => (bitmask.blue_register + m, bitmask.blue_bit)
  | none => (0, 0)

/-- The 144 data bytes sent to chip `d` in the frames `w` emitted by one call of
`IS31FL3731_update_pwm_buffers`: the frames of chip 0 are the first nine, those of chip 1
the next nine; the data bytes of a frame follow its two header bytes. -/
def chip_payload (w : List (List Nat)) (d : Nat) : List Nat :=
  (((w.drop (9 * d)).take 9).map (List.drop 2)).flatten

/-- A call of the public API of the IS31FL3731 driver. -/
inductive Call where
  | init (addr : Nat)
  | set_color (index : Int) (red green blue : Nat)
  | set_color_all (red green blue : Nat)
  | set_led_control_register (index : Nat) (red green blue : Bool)
  | update_pwm_buffers (addr1 addr2 : Nat)
  | update_led_control_registers (addr1 addr2 : Nat)
deriving DecidableEq, Repr

/-- The effect of one API call. -/
def run_call (leds : List is31_led) (bus : Bus) (fuel : Nat) : Call → State → Option State
  | .init addr, s => IS31FL3731_init bus addr s
  | .set_color index red green blue, s => IS31FL3731_set_color leds index red green blue s
  | .set_color_all red green blue, s => IS31FL3731_set_color_all leds red green blue s
  | .set_led_control_register index red green blue, s =>
    IS31FL3731_set_led_control_register leds index red green blue s
  | .update_pwm_buffers addr1 addr2, s => IS31FL3731_update_pwm_buffers bus fuel addr1 addr2 s
  | .update_led_control_registers addr1 addr2, s =>
    IS31FL3731_update_led_control_registers bus addr1 addr2 s

/-- The effect of a sequence of API calls, in order. -/
def run_calls (leds : List is31_led) (bus : Bus) (fuel : Nat) :
    List Call → State → Option State
  | [], s => some s
  | c :: rest, s =>
    match run_call leds bus fuel c s with
    | some s2 => run_calls leds bus fuel rest s2
    | none => none

/-- The states the driver can be in: those reached from the state at program start by a
sequence of API calls, each of which returned. -/
def Reachable (leds : List is31_led) (bus : Bus) (fuel : Nat) (s : State) : Prop :=
  ∃ calls, run_calls leds bus fuel calls initial_state = some s

/-- The shadow buffers of `s2` are those of `s` and the transfer buffer has kept its
size. -/
def same_buffers (s s2 : State) : Prop :=
  s2.g_pwm_buffer = s.g_pwm_buffer ∧
  s2.g_led_control_registers = s.g_led_control_registers ∧
  s2.g_twi_transfer_buffer.length = s.g_twi_transfer_buffer.length

/-- Byte `k` of the PWM shadow buffer of chip `d` is the byte of a channel of a
descriptor of the table. -/
def pwm_mapped (leds : List is31_led) (d k : Nat) : Prop :=
  ∃ led ∈ leds, ∃ c, c < 3 ∧ led.driver = d ∧ pwm_offset led c = k

/-- The arrays have their declared sizes and every PWM shadow byte that is not 0 is
the byte of a channel of a descriptor of the table. -/
def pwm_invariant (leds : List is31_led) (s : State) : Prop :=
  s.WF ∧ ∀ d k v, pwm_byte s d k = some v → v ≠ 0 → pwm_mapped leds d k

/-! ## `is31fl3733.c` -/

def ISSI_COMMAND_REGISTER : Nat := 0xFD
def ISSI_COMMAND_REGISTER_LOCK : Nat := 0xFE
def ISSI_COMMAND_REGISTER_WRITE_DISABLE : Nat := 0x00
def ISSI_COMMAND_REGISTER_WRITE_ONCE : Nat := 0xC5

def ISSI_CONTROL_REGISTER : Nat := 0x00
def ISSI_PWM_REGISTER : Nat := 0x01
def ISSI_ABM_REGISTER : Nat := 0x02
def ISSI_FUNCTION_REGISTER : Nat := 0x03

def ISSI_CONFIGURATION_REGISTER : Nat := 0x00
def ISSI_SYNC_MASTER : Nat := 0b01000000
def ISSI_SYNC_SLAVE : Nat := 0b10000000
def ISSI_OSD_TRIGGER : Nat := 0b00000100
def ISSI_ABM_MODE : Nat := 0b00000010
def ISSI_PWM_MODE : Nat := 0b00000000
def ISSI_NORMAL_OP : Nat := 0b00000010
def ISSI_SSD_MODE : Nat := 0b00000000
def ISSI_GLOBAL_CURRENT : Nat := 0x01

/-- `IS31FL3733_write_register`: as in the other driver, the retry loop is commented out
in the source, so the primitive is invoked once. -/
def IS31FL3733_write_register (bus : Bus) (addr reg data : Nat) (s : State) : Option State :=
  match fill_register_frame addr reg data s with
  | none => none
  | some s1 =>
    some (TWITransmitData bus 3 { s1 with errorCode := TWI_NO_RELEVANT_INFO })

/-- `IS31FL3733_write_pwm_buffer`: the body is that of `IS31FL3731_write_pwm_buffer`, the
first register of a chunk being `0x24 + i` here too. -/
def IS31FL3733_write_pwm_buffer (bus : Bus) (fuel : Nat) (addr : Nat) (pwm_buffer : List Nat)
    (s : State) : Option State :=
  match arr_set s.g_twi_transfer_buffer 0 (((addr <<< 1) ||| 0x00) % 256) with
  | none => none
  | some t0 =>
    for_each (write_pwm_chunk bus fuel pwm_buffer) ((List.range 9).map (fun n => 16 * n))
      { s with g_twi_transfer_buffer := t0 }

/-- `IS31FL3733_init`; the delay `_delay_ms( 10 )` has no effect on the state. -/
def IS31FL3733_init (bus : Bus) (addr : Nat) (s : State) : Option State := do
  let s ← IS31FL3733_write_register bus addr ISSI_COMMAND_REGISTER_LOCK
    ISSI_COMMAND_REGISTER_WRITE_ONCE s
  let s ← IS31FL3733_write_register bus addr ISSI_COMMAND_REGISTER ISSI_FUNCTION_REGISTER s
  let s ← IS31FL3733_write_register bus addr ISSI_CONFIGURATION_REGISTER ISSI_SSD_MODE s
  let s ← IS31FL3733_write_register bus addr ISSI_COMMAND_REGISTER ISSI_CONTROL_REGISTER s
  let s ← for_each (fun i s => IS31FL3733_write_register bus addr i 0x00 s)
    (List.range' 0x00 (0x17 + 1 - 0x00)) s
  let s ← IS31FL3733_write_register bus addr ISSI_COMMAND_REGISTER ISSI_PWM_REGISTER s
  let s ← for_each (fun i s => IS31FL3733_write_register bus addr i 0x00 s)
    (List.range' 0x00 (0xBF + 1 - 0x00)) s
  let s ← IS31FL3733_write_register bus addr ISSI_COMMAND_REGISTER ISSI_FUNCTION_REGISTER s
  let s ← IS31FL3733_write_register bus addr ISSI_CONFIGURATION_REGISTER
    (ISSI_NORMAL_OP ||| ISSI_PWM_MODE) s
  IS31FL3733_write_register bus addr ISSI_COMMAND_REGISTER ISSI_PWM_REGISTER s

/-! ## The wire format of register writes -/

/-- The wire format of a single-register write `w` = (register, data) to the chip at
`addr`, in the words of the spec: device address shifted left with the write bit clear,
register address, data byte. -/
def register_frame (addr : Nat) (w : Nat × Nat) : List Nat :=
  [(addr <<< 1) % 256, w.1, w.2]

/-- The register writes (register, data) of `IS31FL3731_init`, in program order. -/
def IS31FL3731_init_writes : List (Nat × Nat) :=
  [(0xFD, 0x0B), (0x0A, 0x00), (0x00, 0x00), (0x01, 0x00), (0x06, 0x00), (0xFD, 0x00)] ++
  (List.range' 0x00 18).map (fun i => (i, 0x00)) ++
  (List.range' 0x12 18).map (fun i => (i, 0x00)) ++
  (List.range' 0x24 144).map (fun i => (i, 0x00)) ++
  [(0xFD, 0x0B), (0x0A, 0x01), (0xFD, 0x00)]

/-- The register writes (register, data) of `IS31FL3733_init`, in program order. -/
def IS31FL3733_init_writes : List (Nat × Nat) :=
  [(0xFE, 0xC5), (0xFD, 0x03), (0x00, 0x00), (0xFD, 0x00)] ++
  (List.range' 0x00 0x18).map (fun i => (i, 0x00)) ++
  [(0xFD, 0x01)] ++
  (List.range' 0x00 0xC0).map (fun i => (i, 0x00)) ++
  [(0xFD, 0x03), (0x00, 0x02), (0xFD, 0x01)]

/-- The frames of a flush of the control registers, in the words of the spec: for
`i = 0..17` ascending, register `i` of `addr1` with byte `i` of the control shadow buffer
`c0` of chip 0, then register `i` of `addr2` with byte `i` of that of chip 1. -/
def control_frames (addr1 addr2 : Nat) (c0 c1 : List Nat) : List (List Nat) :=
  ((List.range 18).map (fun i =>
    [register_frame addr1 (i, c0.getD i 0), register_frame addr2 (i, c1.getD i 0)])).flatten

/-- Modelled from the spec: the paging of the chips. A write to the command register
0xFD selects the register page in which the writes that follow land;
`selected_page ws` is the page selected after the register writes `ws`, `none` before
the first page select. -/
def selected_page (ws : List (Nat × Nat)) : Option Nat :=
  ws.foldl (fun p w => if w.1 = 0xFD then some w.2 else p) none

/-- Running `f` on a state whose transfer buffer has its declared size returns, appends
to the wire the frames of the register writes `ws` to the chip at `addr` and nothing
else, and leaves the shadow state alone. -/
def emits_writes (addr : Nat) (f : State → Option State) (ws : List (Nat × Nat)) : Prop :=
  ∀ s, s.g_twi_transfer_buffer.length = TXMAXBUFLEN →
    ∃ s2, f s = some s2 ∧ s2.wire = s.wire ++ ws.map (register_frame addr) ∧
      same_shadow s s2 ∧ s2.g_twi_transfer_buffer.length = TXMAXBUFLEN

/-- The control dirty flag of `s2` is that of `s`. -/
def control_flag_kept (s s2 : State) : Prop :=
  s2.g_led_control_registers_update_required = s.g_led_control_registers_update_required

/-! ## Cells, and the registers a chip receives -/

/-- The cell of a descriptor: (driver, matrix, control index). -/
def is31_led.cell (l : is31_led) : Nat × Nat × Nat :=
  (l.driver, l.matrix, l.control_index)

/-- The entries of `g_map_control_index_to_register`, matrix by matrix, control index by
control index, channel by channel. -/
def all_map_registers : List Nat :=
  g_map_control_index_to_register.flatten.flatten

/-- The call `call` = (index, red, green, blue) of `set_color` does not address the cell of
`led`: its index is out of range, or its descriptor has another cell. -/
def other_cell (leds : List is31_led) (led : is31_led) (call : Int × Nat × Nat × Nat) :
    Prop :=
  ¬ (0 ≤ call.1 ∧ call.1 < (DRIVER_LED_TOTAL : Int)) ∨
  ∃ lj, leds[call.1.toNat]? = some lj ∧ lj.cell ≠ led.cell

/-- Modelled from the spec: the auto-increment rule of the device. A frame carries the
device address, a start register and data bytes; data byte `k` goes to register
start register + `k`. The result lists the (register, value) writes of the frame. -/
def frame_register_writes (f : List Nat) : List (Nat × Nat) :=
  (List.range (f.length - 2)).map (fun k => (f.getD 1 0 + k, f.getD (2 + k) 0))

/-- The (register, value) writes chip `d` receives from the frames `w` emitted by one call
of `IS31FL3731_update_pwm_buffers`: the frames of chip 0 are the first nine, those of
chip 1 the next nine. -/
def chip_register_writes (w : List (List Nat)) (d : Nat) : List (Nat × Nat) :=
  (((w.drop (9 * d)).take 9).map frame_register_writes).flatten

/-! ## Theorems: arrays -/

theorem shape_row {a : List (List Nat)} {n w d : Nat}
    (h : a.map List.length = List.replicate n w) (hd : d < n) :
    ∃ row, a[d]? = some row ∧ row.length = w := by
  have hlen : a.length = n := by
    have := congrArg List.length h
    simpa using this
  have hd2 : d < a.length := by omega
  refine ⟨a[d], List.getElem?_eq_getElem hd2, ?_⟩
  have h2 := congrArg (fun l => l[d]?) h
  simp only [List.getElem?_map, List.getElem?_eq_getElem hd2, Option.map_some] at h2
  rw [List.getElem?_replicate] at h2
  simp [hd] at h2
  exact h2

theorem arr2_set_some {a : List (List Nat)} {n w d k : Nat} (v : Nat)
    (h : a.map List.length = List.replicate n w) (hd : d < n) (hk : k < w) :
    ∃ a2, arr2_set a d k v = some a2 := by
  obtain ⟨row, hrow, hlen⟩ := shape_row h hd
  simp [arr2_set, hrow, arr_set, hlen, hk]

theorem arr2_set_shape {a a2 : List (List Nat)} {d k v : Nat}
    (h : arr2_set a d k v = some a2) : a2.map List.length = a.map List.length := by
  unfold arr2_set at h
  cases hrow : a[d]? with
  | none => simp [hrow] at h
  | some row =>
    simp only [hrow, arr_set] at h
    split_ifs at h with hk
    simp only [Option.some.injEq] at h
    subst h
    apply List.ext_getElem?
    intro i
    simp only [List.getElem?_map, List.getElem?_set]
    by_cases hi : d = i
    · subst hi
      have hd : d < a.length := by
        by_contra hcon
        rw [List.getElem?_eq_none (by omega)] at hrow
        cases hrow
      simp [hd, hrow]
    · simp [hi]

theorem arr2_get_set {a a2 : List (List Nat)} {d k v : Nat}
    (h : arr2_set a d k v = some a2) (d2 k2 : Nat) :
    arr2_get a2 d2 k2 = if d2 = d ∧ k2 = k then some v else arr2_get a d2 k2 := by
  unfold arr2_set at h
  cases hrow : a[d]? with
  | none => simp [hrow] at h
  | some row =>
    simp only [hrow, arr_set] at h
    split_ifs at h with hk
    simp only [Option.some.injEq] at h
    subst h
    have hd : d < a.length := by
      by_contra hcon
      rw [List.getElem?_eq_none (by omega)] at hrow
      cases hrow
    unfold arr2_get
    by_cases hdd : d2 = d
    · subst hdd
      by_cases hkk : k2 = k
      · subst hkk
        simp [List.getElem?_set, hd, hk]
      · have hkk2 : ¬ k = k2 := fun e => hkk e.symm
        simp [List.getElem?_set, hd, hkk, hkk2, hrow]
    · have hdd2 : ¬ d = d2 := fun e => hdd e.symm
      simp [List.getElem?_set, hdd, hdd2]

theorem initial_state_WF : initial_state.WF := by
  simp [State.WF, initial_state]

/-! ## Theorems: the register map -/

theorem map_reg_range : ∀ m < 2, ∀ ci < 18, ∀ c < 3,
    pgm_read_map m ci c = some (map_reg m ci c) ∧
    0x24 ≤ map_reg m ci c ∧ map_reg m ci c ≤ 0xB3 := by
  decide

theorem map_reg_channels_distinct : ∀ m < 2, ∀ ci < 18,
    map_reg m ci 0 ≠ map_reg m ci 1 ∧ map_reg m ci 0 ≠ map_reg m ci 2 ∧
    map_reg m ci 1 ≠ map_reg m ci 2 := by
  decide

theorem pwm_offset_lt {led : is31_led} (hv : led.valid) {c : Nat} (hc : c < 3) :
    pwm_offset led c < 144 := by
  obtain ⟨_, hm, hci⟩ := hv
  have := (map_reg_range led.matrix hm led.control_index hci c hc).2
  unfold pwm_offset
  omega

theorem pwm_offset_distinct {led : is31_led} (hv : led.valid) :
    pwm_offset led 0 ≠ pwm_offset led 1 ∧ pwm_offset led 0 ≠ pwm_offset led 2 ∧
    pwm_offset led 1 ≠ pwm_offset led 2 := by
  obtain ⟨_, hm, hci⟩ := hv
  have h0 := (map_reg_range led.matrix hm led.control_index hci 0 (by decide)).2
  have h1 := (map_reg_range led.matrix hm led.control_index hci 1 (by decide)).2
  have h2 := (map_reg_range led.matrix hm led.control_index hci 2 (by decide)).2
  have hd := map_reg_channels_distinct led.matrix hm led.control_index hci
  unfold pwm_offset
  omega

/-! ## Theorems: `set_color` -/

theorem store_pwm_spec {led : is31_led} (hv : led.valid) {c : Nat} (hc : c < 3) (v : Nat)
    {s : State} (hs : s.g_pwm_buffer.map List.length = List.replicate DRIVER_COUNT 144) :
    ∃ buf, store_pwm led c v s = some { s with g_pwm_buffer := buf } ∧
      buf.map List.length = List.replicate DRIVER_COUNT 144 ∧
      ∀ d k, arr2_get buf d k =
        if d = led.driver ∧ k = pwm_offset led c then some v else pwm_byte s d k := by
  have hoff := pwm_offset_lt hv hc
  obtain ⟨hd, hm, hci⟩ := hv
  obtain ⟨hread, hlo, _⟩ := map_reg_range led.matrix hm led.control_index hci c hc
  obtain ⟨buf, hbuf⟩ := arr2_set_some v hs hd hoff
  refine ⟨buf, ?_, ?_, ?_⟩
  · unfold pwm_offset at hbuf
    simp [store_pwm, hread, Nat.not_lt.mpr hlo, hbuf]
  · rw [arr2_set_shape hbuf, hs]
  · intro d k
    exact arr2_get_set hbuf d k

theorem set_color_spec {leds : List is31_led} {index : Int} {led : is31_led}
    (h0 : 0 ≤ index) (h1 : index < (DRIVER_LED_TOTAL : Int))
    (hled : leds[index.toNat]? = some led) (hv : led.valid) (r g b : Nat)
    {s : State} (hs : s.g_pwm_buffer.map List.length = List.replicate DRIVER_COUNT 144) :
    ∃ buf, IS31FL3731_set_color leds index r g b s
        = some { s with g_pwm_buffer := buf, g_pwm_buffer_update_required := true } ∧
      buf.map List.length = List.replicate DRIVER_COUNT 144 ∧
      ∀ d k, arr2_get buf d k =
        if d = led.driver ∧ k = pwm_offset led 2 then some b
        else if d = led.driver ∧ k = pwm_offset led 1 then some g
        else if d = led.driver ∧ k = pwm_offset led 0 then some r
        else pwm_byte s d k := by
  obtain ⟨buf1, e1, sh1, g1⟩ := store_pwm_spec hv (by decide : 0 < 3) r hs
  obtain ⟨buf2, e2, sh2, g2⟩ :=
    store_pwm_spec hv (by decide : 1 < 3) g (s := { s with g_pwm_buffer := buf1 }) sh1
  obtain ⟨buf3, e3, sh3, g3⟩ :=
    store_pwm_spec hv (by decide : 2 < 3) b (s := { s with g_pwm_buffer := buf2 }) sh2
  refine ⟨buf3, ?_, sh3, ?_⟩
  · simp only [IS31FL3731_set_color, h0, h1, and_self, if_true, hled, e1, e2, e3]
  · intro d k
    rw [g3, pwm_byte, g2, pwm_byte, g1]

/-- C1: for an index in range whose descriptor names a chip of the board (driver below 2),
a sub-matrix (0 or 1) and a cell below 18, and the arrays of the state having their
declared sizes, `IS31FL3731_set_color` returns; the three registers it reads from the map
are at least 0x24; afterwards the PWM shadow buffer of the chip of the LED holds `r`, `g`,
`b` at the offsets register - 0x24 of the three channels, every other byte of both PWM
buffers is the one of before, the control shadow buffers, the control dirty flag, the
transfer buffer, the bus status and the frames on the wire are those of before (no frame
is emitted), and the PWM dirty flag is true whatever the state before was. -/
theorem C1_set_color_stores_rgb (leds : List is31_led) (index : Int) (led : is31_led)
    (r g b : Nat) (s : State) (hs : s.WF)
    (h0 : 0 ≤ index) (h1 : index < (DRIVER_LED_TOTAL : Int))
    (hled : leds[index.toNat]? = some led)
    (hd : led.driver < 2) (hm : led.matrix < 2) (hci : led.control_index < 18) :
    ∃ a0 a1 a2 s2,
      pgm_read_map led.matrix led.control_index 0 = some a0 ∧
      pgm_read_map led.matrix led.control_index 1 = some a1 ∧
      pgm_read_map led.matrix led.control_index 2 = some a2 ∧
      0x24 ≤ a0 ∧ 0x24 ≤ a1 ∧ 0x24 ≤ a2 ∧
      IS31FL3731_set_color leds index r g b s = some s2 ∧
      pwm_byte s2 led.driver (a0 - 0x24) = some r ∧
      pwm_byte s2 led.driver (a1 - 0x24) = some g ∧
      pwm_byte s2 led.driver (a2 - 0x24) = some b ∧
      (∀ d k, ¬ (d = led.driver ∧ (k = a0 - 0x24 ∨ k = a1 - 0x24 ∨ k = a2 - 0x24)) →
        pwm_byte s2 d k = pwm_byte s d k) ∧
      s2.g_led_control_registers = s.g_led_control_registers ∧
      s2.g_led_control_registers_update_required = s.g_led_control_registers_update_required ∧
      s2.g_twi_transfer_buffer = s.g_twi_transfer_buffer ∧
      s2.errorCode = s.errorCode ∧
      s2.wire = s.wire ∧
      s2.g_pwm_buffer_update_required = true := by
  have hv : led.valid := ⟨hd, hm, hci⟩
  obtain ⟨buf, e, _, hget⟩ := set_color_spec h0 h1 hled hv r g b hs.2.1
  obtain ⟨d01, d02, d12⟩ := pwm_offset_distinct hv
  have r0 := map_reg_range led.matrix hm led.control_index hci 0 (by decide)
  have r1 := map_reg_range led.matrix hm led.control_index hci 1 (by decide)
  have r2 := map_reg_range led.matrix hm led.control_index hci 2 (by decide)
  refine ⟨_, _, _, _, r0.1, r1.1, r2.1, r0.2.1, r1.2.1, r2.2.1, e, ?_, ?_, ?_, ?_,
    rfl, rfl, rfl, rfl, rfl, rfl⟩
  · simp only [pwm_byte, hget, pwm_offset]
    simp only [pwm_offset] at d01 d02
    simp [d01, d02]
  · simp only [pwm_byte, hget, pwm_offset]
    simp only [pwm_offset] at d12
    simp [d12]
  · simp only [pwm_byte, hget, pwm_offset]
    simp
  · intro d k hne
    simp only [pwm_byte, hget, pwm_offset]
    simp only [not_and, not_or] at hne
    by_cases hdd : d = led.driver
    · obtain ⟨n0, n1, n2⟩ := hne hdd
      simp [n0, n1, n2]
    · simp [hdd]

/-- Witness of C1: LED 0 of the example table, on the state at program start. -/
theorem C1_set_color_stores_rgb_witness :
    initial_state.WF ∧ example_leds[(0 : Int).toNat]? = some ⟨0, 0, 0, 0, 0, ⟨0, 0⟩⟩ ∧
    ∃ s2, IS31FL3731_set_color example_leds 0 7 8 9 initial_state = some s2 ∧
      pwm_byte s2 0 0x10 = some 7 ∧ pwm_byte s2 0 0x20 = some 8 ∧
      pwm_byte s2 0 0x30 = some 9 ∧ s2.g_pwm_buffer_update_required = true := by
  have hwf : initial_state.WF := initial_state_WF
  have hl : example_leds[(0 : Int).toNat]? = some ⟨0, 0, 0, 0, 0, ⟨0, 0⟩⟩ := by decide
  obtain ⟨a0, a1, a2, s2, e0, e1, e2, _, _, _, hs, hr, hg, hb, _, _, _, _, _, _, hf⟩ :=
    C1_set_color_stores_rgb example_leds 0 ⟨0, 0, 0, 0, 0, ⟨0, 0⟩⟩ 7 8 9 initial_state hwf
      (by decide) (by decide) hl (by decide) (by decide) (by decide)
  have f0 : a0 = 0x34 := by
    have : pgm_read_map 0 0 0 = some 0x34 := by decide
    exact Option.some.inj (e0.symm.trans this)
  have f1 : a1 = 0x44 := by
    have : pgm_read_map 0 0 1 = some 0x44 := by decide
    exact Option.some.inj (e1.symm.trans this)
  have f2 : a2 = 0x54 := by
    have : pgm_read_map 0 0 2 = some 0x54 := by decide
    exact Option.some.inj (e2.symm.trans this)
  subst f0 f1 f2
  exact ⟨hwf, hl, s2, hs, hr, hg, hb, hf⟩

/-- C2: for a signed index below 0 or at least `DRIVER_LED_TOTAL` (49),
`IS31FL3731_set_color` returns the state it was given: PWM and control shadow buffers,
both dirty flags and the frames on the wire are unchanged. -/
theorem C2_set_color_out_of_range (leds : List is31_led) (index : Int) (r g b : Nat)
    (s : State) (h : index < 0 ∨ (DRIVER_LED_TOTAL : Int) ≤ index) :
    IS31FL3731_set_color leds index r g b s = some s := by
  unfold IS31FL3731_set_color
  have : ¬ (0 ≤ index ∧ index < (DRIVER_LED_TOTAL : Int)) := by
    rintro ⟨h0, h1⟩
    rcases h with h | h <;> omega
  simp only [this, if_false]

/-- Witness of C2: the indices -1 and 49 on the example board. -/
theorem C2_set_color_out_of_range_witness :
    ((-1 : Int) < 0 ∨ (DRIVER_LED_TOTAL : Int) ≤ -1) ∧
    ((49 : Int) < 0 ∨ (DRIVER_LED_TOTAL : Int) ≤ 49) ∧
    IS31FL3731_set_color example_leds (-1) 255 255 255 initial_state = some initial_state ∧
    IS31FL3731_set_color example_leds 49 255 255 255 initial_state = some initial_state :=
  ⟨by decide, by decide,
    C2_set_color_out_of_range example_leds (-1) 255 255 255 initial_state (by decide),
    C2_set_color_out_of_range example_leds 49 255 255 255 initial_state (by decide)⟩

/-! ## Theorems: the bulk transfer -/

theorem transmit_until_done_first {bus : Bus} (hbus : bus.succeeds) (len : Nat)
    {fuel : Nat} (hfuel : 1 ≤ fuel) {s : State} (hs : s.errorCode ≠ 0xFF) :
    transmit_until_done bus len fuel s = some (TWITransmitData bus len s) := by
  obtain ⟨f, rfl⟩ : ∃ f, fuel = f + 1 := ⟨fuel - 1, by omega⟩
  have hdone : (TWITransmitData bus len s).errorCode = 0xFF := hbus _
  unfold transmit_until_done
  simp only [hs, if_false]
  unfold transmit_until_done
  simp only [hdone, if_true]

theorem copy_loop_spec (buf : List Nat) (i : Nat) :
    ∀ (n j0 : Nat) (t : List Nat), 2 + j0 + n ≤ t.length → i + j0 + n ≤ buf.length →
    ∃ t2, for_each (fun j t =>
        match buf[i + j]? with
        | some v => arr_set t (2 + j) v
        | none => none) (List.range' j0 n) t = some t2 ∧
      t2.length = t.length ∧
      ∀ k, t2[k]? = if 2 + j0 ≤ k ∧ k < 2 + j0 + n then buf[i + (k - 2)]? else t[k]? := by
  intro n
  induction n with
  | zero =>
    intro j0 t _ _
    refine ⟨t, by simp [for_each], rfl, ?_⟩
    intro k
    have : ¬ (2 + j0 ≤ k ∧ k < 2 + j0 + 0) := by omega
    rw [if_neg this]
  | succ n ih =>
    intro j0 t ht hb
    have hb2 : i + j0 < buf.length := by omega
    have ht2 : 2 + j0 < t.length := by omega
    obtain ⟨t2, e2, l2, g2⟩ := ih (j0 + 1) (t.set (2 + j0) buf[i + j0])
      (by simp only [List.length_set]; omega) (by omega)
    refine ⟨t2, ?_, ?_, ?_⟩
    · simp only [List.range'_succ, for_each, List.getElem?_eq_getElem hb2, arr_set, ht2,
        if_true]
      exact e2
    · simpa using l2
    · intro k
      rw [g2 k, List.getElem?_set]
      by_cases hk : 2 + j0 = k
      · subst hk
        have h1 : ¬ (2 + (j0 + 1) ≤ 2 + j0 ∧ 2 + j0 < 2 + (j0 + 1) + n) := by omega
        have h2 : 2 + j0 ≤ 2 + j0 ∧ 2 + j0 < 2 + j0 + (n + 1) := by omega
        have h3 : i + (2 + j0 - 2) = i + j0 := by omega
        simp only [h1, h2, h3, if_true, if_false, ht2, and_self,
          List.getElem?_eq_getElem hb2]
      · by_cases hr : 2 + (j0 + 1) ≤ k ∧ k < 2 + (j0 + 1) + n
        · have h2 : 2 + j0 ≤ k ∧ k < 2 + j0 + (n + 1) := by omega
          simp only [hr, h2, and_self, if_true]
        · have h2 : ¬ (2 + j0 ≤ k ∧ k < 2 + j0 + (n + 1)) := by omega
          simp only [hr, h2, hk, if_false]

theorem chunk_frame {buf t t1 t2 : List Nat} {i a : Nat}
    (ht : t.length = TXMAXBUFLEN) (h0 : t[0]? = some a)
    (h1 : t1 = t.set 1 (0x24 + i))
    (hl : t2.length = t1.length)
    (hg : ∀ k, t2[k]? = if 2 + 0 ≤ k ∧ k < 2 + 0 + 16 then buf[i + (k - 2)]? else t1[k]?) :
    t2.take (16 + 2) = [a, 0x24 + i] ++ (buf.drop i).take 16 := by
  subst h1
  have ht1 : 1 < t.length := by rw [ht]; decide
  apply List.ext_getElem?
  intro k
  rw [List.getElem?_take, hg k, List.getElem?_set]
  rcases Nat.lt_or_ge k 2 with hk | hk
  · have hk2 : ¬ (2 + 0 ≤ k ∧ k < 2 + 0 + 16) := by omega
    have hk3 : k < 16 + 2 := by omega
    interval_cases k
    · simp [h0]
    · simp [ht1]
  · rw [List.getElem?_append_right (by simpa using hk)]
    simp only [List.length_cons, List.length_nil, List.getElem?_take, List.getElem?_drop]
    by_cases hk2 : k < 18
    · have e1 : 2 + 0 ≤ k ∧ k < 2 + 0 + 16 := by omega
      have e2 : k - (0 + 1 + 1) < 16 := by omega
      have e3 : k < 16 + 2 := by omega
      have e4 : k - (0 + 1 + 1) = k - 2 := by omega
      simp only [e1, e2, e3, e4, and_self, if_true]
    · have e2 : ¬ k - (0 + 1 + 1) < 16 := by omega
      have e3 : ¬ k < 16 + 2 := by omega
      simp only [e2, e3, if_false]

theorem write_pwm_chunk_spec {bus : Bus} (hbus : bus.succeeds) {fuel : Nat} (hfuel : 1 ≤ fuel)
    {buf : List Nat} (hbuf : buf.length = 144) {n : Nat} (hn : n < 9) {s : State} {a : Nat}
    (ht : s.g_twi_transfer_buffer.length = TXMAXBUFLEN)
    (h0 : s.g_twi_transfer_buffer[0]? = some a) :
    ∃ t2, write_pwm_chunk bus fuel buf (16 * n) s
        = some { s with
            g_twi_transfer_buffer := t2, errorCode := 0xFF,
            wire := s.wire ++ [[a, 0x24 + 16 * n] ++ (buf.drop (16 * n)).take 16] } ∧
      t2.length = TXMAXBUFLEN ∧ t2[0]? = some a := by
  have ht1 : 1 < s.g_twi_transfer_buffer.length := by rw [ht]; decide
  have hmod : (0x24 + 16 * n) % 256 = 0x24 + 16 * n := Nat.mod_eq_of_lt (by omega)
  obtain ⟨t2, e2, l2, g2⟩ := copy_loop_spec buf (16 * n) 16 0
    (s.g_twi_transfer_buffer.set 1 (0x24 + 16 * n))
    (by simp only [List.length_set, ht]; decide) (by omega)
  have hframe := chunk_frame ht h0 rfl l2 g2
  refine ⟨t2, ?_, ?_, ?_⟩
  · have hne : State.errorCode
        { s with g_twi_transfer_buffer := t2, errorCode := TWI_NO_RELEVANT_INFO } ≠ 0xFF := by
      simp [TWI_NO_RELEVANT_INFO]
    have hcopy : copy_chunk buf (16 * n) (s.g_twi_transfer_buffer.set 1 (0x24 + 16 * n))
        = some t2 := by
      unfold copy_chunk
      rw [List.range_eq_range']
      exact e2
    simp only [write_pwm_chunk, arr_set, ht1, if_true, hmod, hcopy]
    rw [transmit_until_done_first hbus _ hfuel hne]
    simp only [TWITransmitData, hframe, hbus _]
  · rw [l2, List.length_set, ht]
  · rw [g2 0]
    simp [h0]

theorem write_pwm_loop_spec {bus : Bus} (hbus : bus.succeeds) {fuel : Nat} (hfuel : 1 ≤ fuel)
    {buf : List Nat} (hbuf : buf.length = 144) (a : Nat) :
    ∀ (ns : List Nat), (∀ n ∈ ns, n < 9) → ∀ (s : State),
      s.g_twi_transfer_buffer.length = TXMAXBUFLEN → s.g_twi_transfer_buffer[0]? = some a →
    ∃ s2, for_each (write_pwm_chunk bus fuel buf) (ns.map (fun n => 16 * n)) s = some s2 ∧
      s2.wire = s.wire ++ ns.map (fun n => [a, 0x24 + 16 * n] ++ (buf.drop (16 * n)).take 16) ∧
      same_shadow s s2 ∧ s2.g_twi_transfer_buffer.length = TXMAXBUFLEN ∧
      s2.g_twi_transfer_buffer[0]? = some a := by
  intro ns
  induction ns with
  | nil =>
    intro _ s ht h0
    exact ⟨s, by simp [for_each], by simp, ⟨rfl, rfl, rfl, rfl⟩, ht, h0⟩
  | cons n rest ih =>
    intro hns s ht h0
    obtain ⟨t2, e2, l2, g2⟩ :=
      write_pwm_chunk_spec hbus hfuel hbuf (hns n (List.mem_cons_self _ _)) ht h0
    obtain ⟨s3, e3, w3, sh3, l3, g3⟩ :=
      ih (fun m hm => hns m (List.mem_cons_of_mem _ hm))
        { s with
            g_twi_transfer_buffer := t2, errorCode := 0xFF,
            wire := s.wire ++ [[a, 0x24 + 16 * n] ++ (buf.drop (16 * n)).take 16] } l2 g2
    refine ⟨s3, ?_, ?_, ?_, l3, g3⟩
    · simp only [List.map_cons, for_each, e2]
      exact e3
    · rw [w3]
      simp
    · exact sh3

theorem write_pwm_buffer_spec {bus : Bus} (hbus : bus.succeeds) {fuel : Nat} (hfuel : 1 ≤ fuel)
    (addr : Nat) {buf : List Nat} (hbuf : buf.length = 144) {s : State}
    (ht : s.g_twi_transfer_buffer.length = TXMAXBUFLEN) :
    ∃ s2, IS31FL3731_write_pwm_buffer bus fuel addr buf s = some s2 ∧
      s2.wire = s.wire ++ pwm_frames addr buf ∧
      same_shadow s s2 ∧ s2.g_twi_transfer_buffer.length = TXMAXBUFLEN := by
  have ht0 : 0 < s.g_twi_transfer_buffer.length := by rw [ht]; decide
  obtain ⟨s2, e2, w2, sh2, l2, _⟩ :=
    write_pwm_loop_spec hbus hfuel hbuf ((addr <<< 1) % 256) (List.range 9)
      (fun n hn => List.mem_range.mp hn)
      { s with g_twi_transfer_buffer := s.g_twi_transfer_buffer.set 0 ((addr <<< 1) % 256) }
      (by simp only [List.length_set, ht])
      (by simp [ht0])
  refine ⟨s2, ?_, ?_, sh2, l2⟩
  · simp only [IS31FL3731_write_pwm_buffer, arr_set, ht0, if_true, Nat.or_zero]
    exact e2
  · rw [w2]
    rfl

theorem chunks_flatten (buf : List Nat) (hbuf : buf.length = 144) :
    ((List.range 9).map (fun n => (buf.drop (16 * n)).take 16)).flatten = buf := by
  have hr : List.range 9 = [0, 1, 2, 3, 4, 5, 6, 7, 8] := by decide
  have e : ∀ k, buf.drop k = (buf.drop k).take 16 ++ buf.drop (k + 16) := by
    intro k
    rw [← List.drop_drop, List.take_append_drop]
  have hend : buf.drop 144 = [] := List.drop_eq_nil_of_le (by omega)
  rw [hr]
  simp only [List.map_cons, List.map_nil, List.flatten_cons, List.flatten_nil,
    List.append_nil]
  conv_rhs => rw [← List.drop_zero buf, e 0, e 16, e 32, e 48, e 64, e 80, e 96, e 112,
    e 128]
  simp [hend]

theorem pwm_frames_length (addr : Nat) (buf : List Nat) : (pwm_frames addr buf).length = 9 := by
  simp [pwm_frames]

theorem pwm_frame_length (addr : Nat) {buf : List Nat} (hbuf : buf.length = 144) :
    ∀ f ∈ pwm_frames addr buf, f.length = 18 := by
  intro f hf
  simp only [pwm_frames, List.mem_map, List.mem_range] at hf
  obtain ⟨n, hn, rfl⟩ := hf
  simp only [pwm_frame, List.length_append, List.length_cons, List.length_nil,
    List.length_take, List.length_drop, hbuf]
  omega

theorem pwm_frames_payload (addr : Nat) {buf : List Nat} (hbuf : buf.length = 144) :
    ((pwm_frames addr buf).map (List.drop 2)).flatten = buf := by
  have : (pwm_frames addr buf).map (List.drop 2)
      = (List.range 9).map (fun n => (buf.drop (16 * n)).take 16) := by
    simp [pwm_frames, pwm_frame, Function.comp_def]
  rw [this]
  exact chunks_flatten buf hbuf

/-- C4: with a bus that reports completion at the first attempt (and at least one
attempt allowed), for every address and every 144-byte buffer,
`IS31FL3731_write_pwm_buffer` returns and appends to the wire exactly 9 frames of 18
bytes, in the order n = 0..8, frame n being the byte (addr << 1) mod 256, the start
register 0x24 + 16 n and the bytes 16 n .. 16 n + 15 of the buffer; the start register
never exceeds 8 bits (the stored value (0x24 + 16 n) mod 256 is 0x24 + 16 n), and the
data bytes of the 9 frames concatenated in order are the buffer. The shadow state is
not modified. -/
theorem C4_write_pwm_buffer_frames (bus : Bus) (fuel addr : Nat) (buf : List Nat) (s : State)
    (hbus : bus.succeeds) (hfuel : 1 ≤ fuel) (hbuf : buf.length = 144) (hs : s.WF) :
    ∃ s2 frames,
      IS31FL3731_write_pwm_buffer bus fuel addr buf s = some s2 ∧
      s2.wire = s.wire ++ frames ∧
      frames = (List.range 9).map (fun n =>
        [(addr <<< 1) % 256, 0x24 + 16 * n] ++ (buf.drop (16 * n)).take 16) ∧
      frames.length = 9 ∧
      (∀ f ∈ frames, f.length = 18) ∧
      (∀ n < 9, (0x24 + 16 * n) % 256 = 0x24 + 16 * n ∧ 0x24 + 16 * n < 256) ∧
      (frames.map (List.drop 2)).flatten = buf ∧
      same_shadow s s2 := by
  obtain ⟨s2, e, w, sh, _⟩ := write_pwm_buffer_spec hbus hfuel addr hbuf hs.1
  refine ⟨s2, pwm_frames addr buf, e, w, rfl, pwm_frames_length addr buf,
    pwm_frame_length addr hbuf, ?_, pwm_frames_payload addr hbuf, sh⟩
  intro n hn
  constructor
  · exact Nat.mod_eq_of_lt (by omega)
  · omega

/-- Witness of C4: the buffer 0, 1, ..., 143 sent to `DRIVER_ADDR_1` from the state at
program start. -/
theorem C4_write_pwm_buffer_frames_witness :
    good_bus.succeeds ∧ 1 ≤ 1 ∧ (List.range 144).length = 144 ∧ initial_state.WF ∧
    ∃ s2, IS31FL3731_write_pwm_buffer good_bus 1 DRIVER_ADDR_1 (List.range 144) initial_state
        = some s2 ∧
      s2.wire.length = 9 ∧
      s2.wire[1]? = some [0xE8, 0x34, 16, 17, 18, 19, 20, 21, 22, 23, 24, 25, 26, 27, 28, 29,
        30, 31] := by
  have hb : good_bus.succeeds := fun _ => rfl
  have hl : (List.range 144).length = 144 := List.length_range 144
  obtain ⟨s2, frames, e, w, hf, _, _, _, _, _⟩ :=
    C4_write_pwm_buffer_frames good_bus 1 DRIVER_ADDR_1 (List.range 144) initial_state
      hb (Nat.le_refl 1) hl initial_state_WF
  refine ⟨hb, Nat.le_refl 1, hl, initial_state_WF, s2, e, ?_, ?_⟩
  · rw [w, hf]
    simp [initial_state]
  · rw [w, hf]
    decide

/-! ## Theorems: flushing the PWM buffers -/

theorem pwm_rows {s : State} (hs : s.WF) :
    ∃ b0 b1, s.g_pwm_buffer = [b0, b1] ∧ b0.length = 144 ∧ b1.length = 144 := by
  have h := hs.2.1
  match hb : s.g_pwm_buffer with
  | [] => rw [hb] at h; simp [DRIVER_COUNT, List.replicate] at h
  | [_] => rw [hb] at h; simp [DRIVER_COUNT, List.replicate] at h
  | [b0, b1] =>
    rw [hb] at h
    simp [DRIVER_COUNT, List.replicate] at h
    exact ⟨b0, b1, rfl, h.1, h.2⟩
  | _ :: _ :: _ :: _ => rw [hb] at h; simp [DRIVER_COUNT, List.replicate] at h

theorem update_pwm_buffers_clean (bus : Bus) (fuel addr1 addr2 : Nat) {s : State}
    (hflag : s.g_pwm_buffer_update_required = false) :
    IS31FL3731_update_pwm_buffers bus fuel addr1 addr2 s = some s := by
  cases s
  simp only at hflag
  subst hflag
  simp [IS31FL3731_update_pwm_buffers]

theorem update_pwm_buffers_dirty {bus : Bus} (hbus : bus.succeeds) {fuel : Nat}
    (hfuel : 1 ≤ fuel) (addr1 addr2 : Nat) {s : State} (hs : s.WF)
    (hflag : s.g_pwm_buffer_update_required = true) :
    ∃ b0 b1 s2, s.g_pwm_buffer = [b0, b1] ∧ b0.length = 144 ∧ b1.length = 144 ∧
      IS31FL3731_update_pwm_buffers bus fuel addr1 addr2 s = some s2 ∧
      s2.wire = s.wire ++ pwm_frames addr1 b0 ++ pwm_frames addr2 b1 ∧
      s2.g_pwm_buffer = s.g_pwm_buffer ∧
      s2.g_pwm_buffer_update_required = false ∧
      s2.g_led_control_registers = s.g_led_control_registers ∧
      s2.g_led_control_registers_update_required
        = s.g_led_control_registers_update_required ∧
      s2.WF := by
  obtain ⟨b0, b1, hb, l0, l1⟩ := pwm_rows hs
  obtain ⟨s1, e1, w1, sh1, t1⟩ := write_pwm_buffer_spec hbus hfuel addr1 l0 hs.1
  obtain ⟨s2, e2, w2, sh2, t2⟩ := write_pwm_buffer_spec hbus hfuel addr2 l1 t1
  obtain ⟨p1, _, c1, f1⟩ := sh1
  obtain ⟨p2, _, c2, f2⟩ := sh2
  refine ⟨b0, b1, { s2 with g_pwm_buffer_update_required := false }, hb, l0, l1, ?_, ?_,
    ?_, rfl, ?_, ?_, ?_⟩
  · have h0 : s.g_pwm_buffer[0]? = some b0 := by rw [hb]; rfl
    have h1 : s1.g_pwm_buffer[1]? = some b1 := by rw [p1, hb]; rfl
    simp only [IS31FL3731_update_pwm_buffers, hflag, if_true, h0, e1, h1, e2]
  · show s2.wire = _
    rw [w2, w1]
  · show s2.g_pwm_buffer = _
    rw [p2, p1]
  · show s2.g_led_control_registers = _
    rw [c2, c1]
  · show s2.g_led_control_registers_update_required = _
    rw [f2, f1]
  · refine ⟨t2, ?_, ?_⟩
    · show s2.g_pwm_buffer.map List.length = _
      rw [p2, p1]; exact hs.2.1
    · show s2.g_led_control_registers.map List.length = _
      rw [c2, c1]; exact hs.2.2

theorem leds_valid_get {leds : List is31_led} (hl : leds_valid leds) {index : Int}
    (h0 : 0 ≤ index) (h1 : index < (DRIVER_LED_TOTAL : Int)) :
    ∃ led, leds[index.toNat]? = some led ∧ led.valid := by
  have hlt : index.toNat < leds.length := by
    rw [hl.1]; omega
  exact ⟨leds[index.toNat], List.getElem?_eq_getElem hlt,
    hl.2 _ (List.getElem_mem hlt)⟩

theorem set_color_seq_spec {leds : List is31_led} (hl : leds_valid leds) :
    ∀ (calls : List (Int × Nat × Nat × Nat)),
      (∀ c ∈ calls, 0 ≤ c.1 ∧ c.1 < (DRIVER_LED_TOTAL : Int)) →
      ∀ (s : State), s.WF →
    ∃ s1, set_color_seq leds calls s = some s1 ∧ s1.WF ∧
      s1.g_pwm_buffer_update_required
        = (s.g_pwm_buffer_update_required || !calls.isEmpty) ∧
      s1.wire = s.wire ∧
      s1.g_led_control_registers = s.g_led_control_registers ∧
      s1.g_led_control_registers_update_required
        = s.g_led_control_registers_update_required := by
  intro calls
  induction calls with
  | nil =>
    intro _ s hs
    exact ⟨s, rfl, hs, by simp, rfl, rfl, rfl⟩
  | cons c rest ih =>
    intro hc s hs
    obtain ⟨h0, h1⟩ := hc c (List.mem_cons_self _ _)
    obtain ⟨led, hled, hv⟩ := leds_valid_get hl h0 h1
    obtain ⟨buf, e, sh, _⟩ := set_color_spec h0 h1 hled hv c.2.1 c.2.2.1 c.2.2.2 hs.2.1
    obtain ⟨s1, e1, wf1, f1, w1, c1, d1⟩ :=
      ih (fun x hx => hc x (List.mem_cons_of_mem _ hx))
        { s with g_pwm_buffer := buf, g_pwm_buffer_update_required := true }
        ⟨hs.1, sh, hs.2.2⟩
    refine ⟨s1, ?_, wf1, ?_, w1, c1, d1⟩
    · simp only [set_color_seq, e]
      exact e1
    · rw [f1]
      simp

theorem example_leds_valid : leds_valid example_leds := by
  decide

theorem good_bus_succeeds : good_bus.succeeds := fun _ => rfl

theorem pwm_frames_head (addr : Nat) (buf : List Nat) :
    ∀ f ∈ pwm_frames addr buf, f[0]? = some ((addr <<< 1) % 256) := by
  intro f hf
  simp only [pwm_frames, List.mem_map] at hf
  obtain ⟨n, _, rfl⟩ := hf
  rfl

/-- C3, as amended: starting from a clear PWM dirty flag, on a valid board table and with
a bus that reports completion at the first attempt, after any sequence of in-range
`IS31FL3731_set_color` calls one `IS31FL3731_update_pwm_buffers` call returns and emits,
when the sequence is not empty, exactly one bulk transfer for each of the two chips
(the 9 chunks of chip 0 to `addr1`, then the 9 chunks of chip 1 to `addr2`), whatever
the number of calls and whichever chips they touched; with no call it emits nothing;
afterwards the PWM dirty flag is clear and a repeated update call changes nothing and
emits nothing. -/
theorem C3_batching_per_chip (leds : List is31_led) (calls : List (Int × Nat × Nat × Nat))
    (s : State) (bus : Bus) (fuel addr1 addr2 : Nat)
    (hl : leds_valid leds) (hs : s.WF) (hclean : s.g_pwm_buffer_update_required = false)
    (hbus : bus.succeeds) (hfuel : 1 ≤ fuel)
    (hcalls : ∀ c ∈ calls, 0 ≤ c.1 ∧ c.1 < (DRIVER_LED_TOTAL : Int)) :
    ∃ s1 s2 b0 b1,
      set_color_seq leds calls s = some s1 ∧
      s1.g_pwm_buffer = [b0, b1] ∧
      IS31FL3731_update_pwm_buffers bus fuel addr1 addr2 s1 = some s2 ∧
      s2.wire = s.wire ++
        (if calls.isEmpty then [] else pwm_frames addr1 b0 ++ pwm_frames addr2 b1) ∧
      (s2.wire.length = s.wire.length + (if calls.isEmpty then 0 else 9 * DRIVER_COUNT)) ∧
      s2.g_pwm_buffer_update_required = false ∧
      IS31FL3731_update_pwm_buffers bus fuel addr1 addr2 s2 = some s2 := by
  obtain ⟨s1, e1, wf1, f1, w1, _, _⟩ := set_color_seq_spec hl calls hcalls s hs
  obtain ⟨b0, b1, hb, _, _⟩ := pwm_rows wf1
  cases hc : calls.isEmpty with
  | true =>
    have hf : s1.g_pwm_buffer_update_required = false := by rw [f1, hclean, hc]; rfl
    have e2 := update_pwm_buffers_clean bus fuel addr1 addr2 hf
    exact ⟨s1, s1, b0, b1, e1, hb, e2, by simp [w1], by simp [w1], hf, e2⟩
  | false =>
    have hf : s1.g_pwm_buffer_update_required = true := by rw [f1, hclean, hc]; rfl
    obtain ⟨c0, c1, s2, hb2, _, _, e2, w2, _, f2, _, _, _⟩ :=
      update_pwm_buffers_dirty hbus hfuel addr1 addr2 wf1 hf
    rw [hb] at hb2
    simp only [List.cons.injEq, and_true] at hb2
    obtain ⟨rfl, rfl⟩ := hb2
    refine ⟨s1, s2, b0, b1, e1, hb, e2, ?_, ?_, f2,
      update_pwm_buffers_clean bus fuel addr1 addr2 f2⟩
    · rw [w2, w1]
      simp
    · rw [w2, w1]
      simp [pwm_frames_length, DRIVER_COUNT]

/-- Witness of C3 as amended: two calls on the example board, LED 0 (chip 0) and
LED 30 (chip 1). -/
theorem C3_batching_per_chip_witness :
    leds_valid example_leds ∧ initial_state.WF ∧
    initial_state.g_pwm_buffer_update_required = false ∧ good_bus.succeeds ∧ 1 ≤ 1 ∧
    (∀ c ∈ [((0 : Int), 255, 0, 0), (30, 1, 2, 3)], 0 ≤ c.1 ∧ c.1 < (DRIVER_LED_TOTAL : Int)) ∧
    ∃ s1 s2, set_color_seq example_leds [(0, 255, 0, 0), (30, 1, 2, 3)] initial_state
        = some s1 ∧
      IS31FL3731_update_pwm_buffers good_bus 1 DRIVER_ADDR_1 DRIVER_ADDR_2 s1 = some s2 ∧
      s2.wire.length = 18 ∧ s2.g_pwm_buffer_update_required = false := by
  have hc : ∀ c ∈ [((0 : Int), 255, 0, 0), (30, 1, 2, 3)],
      0 ≤ c.1 ∧ c.1 < (DRIVER_LED_TOTAL : Int) := by decide
  obtain ⟨s1, s2, _, _, e1, _, e2, _, hlen, hf, _⟩ :=
    C3_batching_per_chip example_leds [(0, 255, 0, 0), (30, 1, 2, 3)] initial_state good_bus 1
      DRIVER_ADDR_1 DRIVER_ADDR_2 example_leds_valid initial_state_WF rfl good_bus_succeeds
      (Nat.le_refl 1) hc
  exact ⟨example_leds_valid, initial_state_WF, rfl, good_bus_succeeds, Nat.le_refl 1, hc,
    s1, s2, e1, e2, by simpa [initial_state, DRIVER_COUNT] using hlen, hf⟩

/-- C3, counterexample to the claim as stated: on the example board one call
`set_color(0, 255, 0, 0)` touches chip 0 only, yet the following update emits 18 frames,
two bulk transfers and not one: the last nine are addressed to chip 1, which no call
touched. The number of bulk transfers is not the number of chips touched. -/
theorem C3_counterexample :
    ∃ s1 s2,
      set_color_seq example_leds [(0, 255, 0, 0)] initial_state = some s1 ∧
      IS31FL3731_update_pwm_buffers good_bus 1 DRIVER_ADDR_1 DRIVER_ADDR_2 s1 = some s2 ∧
      chips_touched example_leds [(0, 255, 0, 0)] = [0] ∧
      s2.wire.length = 18 ∧
      (s2.wire.drop 9).length = 9 ∧
      (∀ f ∈ s2.wire.drop 9, f[0]? = some ((DRIVER_ADDR_2 <<< 1) % 256)) ∧
      ¬ (s2.wire.length - initial_state.wire.length
          = 9 * (chips_touched example_leds [(0, 255, 0, 0)]).length) := by
  have hc : ∀ c ∈ [((0 : Int), 255, 0, 0)], 0 ≤ c.1 ∧ c.1 < (DRIVER_LED_TOTAL : Int) := by
    decide
  obtain ⟨s1, e1, wf1, f1, w1, _, _⟩ :=
    set_color_seq_spec example_leds_valid [(0, 255, 0, 0)] hc initial_state initial_state_WF
  have hf : s1.g_pwm_buffer_update_required = true := by rw [f1]; rfl
  obtain ⟨b0, b1, s2, _, _, _, e2, w2, _, _, _, _, _⟩ :=
    update_pwm_buffers_dirty good_bus_succeeds (Nat.le_refl 1) DRIVER_ADDR_1 DRIVER_ADDR_2
      wf1 hf
  have hw : s2.wire = pwm_frames DRIVER_ADDR_1 b0 ++ pwm_frames DRIVER_ADDR_2 b1 := by
    rw [w2, w1]; rfl
  have hdrop : s2.wire.drop 9 = pwm_frames DRIVER_ADDR_2 b1 := by
    rw [hw, List.drop_append_of_le_length (by rw [pwm_frames_length])]
    rw [List.drop_of_length_le (by rw [pwm_frames_length])]
    rfl
  have hlen : s2.wire.length = 18 := by
    rw [hw, List.length_append, pwm_frames_length, pwm_frames_length]
  have ht : chips_touched example_leds [(0, 255, 0, 0)] = [0] := by decide
  refine ⟨s1, s2, e1, e2, ht, hlen, ?_, ?_, ?_⟩
  · rw [hdrop, pwm_frames_length]
  · rw [hdrop]
    exact pwm_frames_head DRIVER_ADDR_2 b1
  · rw [hlen, ht]
    decide

/-! ## Theorems: the control bits -/

theorem bit_update_testBit (old : Nat) {bit k : Nat} (hb : bit < 8) (hk : k < 8)
    (enable : Bool) :
    (bit_update old bit enable).testBit k = if k = bit then enable else old.testBit k := by
  have h16 : (0xFFFF : Nat) = 2 ^ 16 - 1 := by decide
  have h8 : (256 : Nat) = 2 ^ 8 := by decide
  have hk16 : k < 16 := by omega
  unfold bit_update
  cases enable with
  | true =>
    simp only [if_true, h8, Nat.testBit_mod_two_pow, Nat.testBit_lor, Nat.one_shiftLeft,
      Nat.testBit_two_pow, hk, decide_True, Bool.true_and]
    by_cases hkb : k = bit
    · subst hkb; simp
    · have : ¬ bit = k := fun e => hkb e.symm
      simp [hkb, this]
  | false =>
    simp only [Bool.false_eq_true, if_false, h8, h16, Nat.testBit_mod_two_pow,
      Nat.testBit_land, Nat.testBit_xor, Nat.testBit_two_pow_sub_one, Nat.one_shiftLeft,
      Nat.testBit_two_pow, hk, hk16, decide_True, Bool.true_and]
    by_cases hkb : k = bit
    · subst hkb; simp
    · have : ¬ bit = k := fun e => hkb e.symm
      simp [hkb, this]

theorem control_pos_range : ∀ m < 2, ∀ ci < 18, ∀ c < 3,
    (control_pos m ci c).1 < 18 ∧ (control_pos m ci c).2 < 8 := by
  decide

theorem control_pos_registers_distinct : ∀ m < 2, ∀ ci < 18,
    (control_pos m ci 0).1 ≠ (control_pos m ci 1).1 ∧
    (control_pos m ci 0).1 ≠ (control_pos m ci 2).1 ∧
    (control_pos m ci 1).1 ≠ (control_pos m ci 2).1 := by
  decide

theorem all_range {n : Nat} {p : Nat → Bool} (h : (List.range n).all p = true) :
    ∀ k < n, p k = true := by
  intro k hk
  exact List.all_eq_true.mp h k (List.mem_range.mpr hk)

theorem control_pos_injective {m ci c m2 ci2 c2 : Nat} (hm : m < 2) (hci : ci < 18)
    (hc : c < 3) (hm2 : m2 < 2) (hci2 : ci2 < 18) (hc2 : c2 < 3)
    (h : control_pos m ci c = control_pos m2 ci2 c2) : m = m2 ∧ ci = ci2 ∧ c = c2 := by
  have key : (List.range 2).all (fun m => (List.range 18).all (fun ci =>
      (List.range 3).all (fun c => (List.range 2).all (fun m2 =>
        (List.range 18).all (fun ci2 => (List.range 3).all (fun c2 =>
          !decide (control_pos m ci c = control_pos m2 ci2 c2) ||
            (m == m2 && ci == ci2 && c == c2))))))) = true := by
    decide
  have k6 := all_range (all_range (all_range (all_range (all_range (all_range key m hm)
    ci hci) c hc) m2 hm2) ci2 hci2) c2 hc2
  simp only [h, decide_True, Bool.not_true, Bool.false_or, Bool.and_eq_true, beq_iff_eq]
    at k6
  exact ⟨k6.1.1, k6.1.2, k6.2⟩

theorem arr2_get_some {a : List (List Nat)} {n w d k : Nat}
    (h : a.map List.length = List.replicate n w) (hd : d < n) (hk : k < w) :
    ∃ v, arr2_get a d k = some v := by
  obtain ⟨row, hrow, hlen⟩ := shape_row h hd
  have hk2 : k < row.length := by omega
  exact ⟨row[k], by simp [arr2_get, hrow, List.getElem?_eq_getElem hk2]⟩

theorem update_control_bit_spec {d reg bit : Nat} (hd : d < DRIVER_COUNT) (hreg : reg < 18)
    (hbit : bit < 8) (enable : Bool) {s : State}
    (hs : s.g_led_control_registers.map List.length = List.replicate DRIVER_COUNT 18) :
    ∃ regs, update_control_bit d reg bit enable s
        = some { s with g_led_control_registers := regs } ∧
      regs.map List.length = List.replicate DRIVER_COUNT 18 ∧
      (∀ d2 r2, ¬ (d2 = d ∧ r2 = reg) → arr2_get regs d2 r2 = control_byte s d2 r2) ∧
      (∀ d2 r2 k, k < 8 → (arr2_get regs d2 r2).map (fun v => v.testBit k) =
        if d2 = d ∧ r2 = reg ∧ k = bit then some enable else control_bit s d2 r2 k) := by
  obtain ⟨old, hold⟩ := arr2_get_some hs hd hreg
  obtain ⟨regs, hregs⟩ := arr2_set_some (bit_update old bit enable) hs hd hreg
  refine ⟨regs, ?_, ?_, ?_, ?_⟩
  · simp [update_control_bit, hold, hregs]
  · rw [arr2_set_shape hregs, hs]
  · intro d2 r2 hne
    rw [arr2_get_set hregs, if_neg hne]
    rfl
  · intro d2 r2 k hk
    rw [arr2_get_set hregs]
    by_cases hpos : d2 = d ∧ r2 = reg
    · obtain ⟨rfl, rfl⟩ := hpos
      simp only [and_self, if_true, Option.map_some', true_and]
      rw [bit_update_testBit old hbit hk enable]
      by_cases hkb : k = bit
      · simp [hkb]
      · simp [hkb, control_bit, control_byte, hold]
    · have : ¬ (d2 = d ∧ r2 = reg ∧ k = bit) := fun h => hpos ⟨h.1, h.2.1⟩
      rw [if_neg hpos, if_neg this]
      rfl

theorem set_led_control_register_spec {leds : List is31_led} {index : Nat} {led : is31_led}
    (hled : leds[index]? = some led) (hv : led.valid) (red green blue : Bool)
    {s : State}
    (hs : s.g_led_control_registers.map List.length = List.replicate DRIVER_COUNT 18) :
    ∃ regs, IS31FL3731_set_led_control_register leds index red green blue s
        = some { s with
            g_led_control_registers := regs,
            g_led_control_registers_update_required := true } ∧
      regs.map List.length = List.replicate DRIVER_COUNT 18 ∧
      (∀ d2 r2, ¬ (d2 = led.driver ∧
          (r2 = (control_pos led.matrix led.control_index 0).1 ∨
           r2 = (control_pos led.matrix led.control_index 1).1 ∨
           r2 = (control_pos led.matrix led.control_index 2).1)) →
        arr2_get regs d2 r2 = control_byte s d2 r2) ∧
      (∀ d2 r2 k, k < 8 → (arr2_get regs d2 r2).map (fun v => v.testBit k) =
        if d2 = led.driver ∧ (r2, k) = control_pos led.matrix led.control_index 2
          then some blue
        else if d2 = led.driver ∧ (r2, k) = control_pos led.matrix led.control_index 1
          then some green
        else if d2 = led.driver ∧ (r2, k) = control_pos led.matrix led.control_index 0
          then some red
        else control_bit s d2 r2 k) := by
  obtain ⟨hd, hm, hci⟩ := hv
  have hlt : led.control_index < g_led_control_bitmask.length := hci
  have hbm : g_led_control_bitmask[led.control_index]?
      = some g_led_control_bitmask[led.control_index] := List.getElem?_eq_getElem hlt
  have p0 : control_pos led.matrix led.control_index 0
      = (g_led_control_bitmask[led.control_index].red_register + led.matrix,
         g_led_control_bitmask[led.control_index].red_bit) := by
    simp [control_pos, hbm]
  have p1 : control_pos led.matrix led.control_index 1
      = (g_led_control_bitmask[led.control_index].green_register + led.matrix,
         g_led_control_bitmask[led.control_index].green_bit) := by
    simp [control_pos, hbm]
  have p2 : control_pos led.matrix led.control_index 2
      = (g_led_control_bitmask[led.control_index].blue_register + led.matrix,
         g_led_control_bitmask[led.control_index].blue_bit) := by
    simp [control_pos, hbm]
  have r0 := control_pos_range led.matrix hm led.control_index hci 0 (by decide)
  have r1 := control_pos_range led.matrix hm led.control_index hci 1 (by decide)
  have r2 := control_pos_range led.matrix hm led.control_index hci 2 (by decide)
  rw [p0] at r0
  rw [p1] at r1
  rw [p2] at r2
  dsimp only at r0 r1 r2
  obtain ⟨regs1, e1, sh1, b1, t1⟩ := update_control_bit_spec hd r0.1 r0.2 red hs
  obtain ⟨regs2, e2, sh2, b2, t2⟩ := update_control_bit_spec hd r1.1 r1.2 green
    (s := { s with g_led_control_registers := regs1 }) sh1
  obtain ⟨regs3, e3, sh3, b3, t3⟩ := update_control_bit_spec hd r2.1 r2.2 blue
    (s := { s with g_led_control_registers := regs2 }) sh2
  refine ⟨regs3, ?_, sh3, ?_, ?_⟩
  · simp only [IS31FL3731_set_led_control_register, hled, hbm, e1, e2, e3]
  · intro d2 q hne
    rw [p0, p1, p2] at hne
    simp only [not_and, not_or] at hne
    have n2 : ¬ (d2 = led.driver ∧
        q = g_led_control_bitmask[led.control_index].blue_register + led.matrix) :=
      fun h => (hne h.1).2.2 h.2
    have n1 : ¬ (d2 = led.driver ∧
        q = g_led_control_bitmask[led.control_index].green_register + led.matrix) :=
      fun h => (hne h.1).2.1 h.2
    have n0 : ¬ (d2 = led.driver ∧
        q = g_led_control_bitmask[led.control_index].red_register + led.matrix) :=
      fun h => (hne h.1).1 h.2
    rw [b3 d2 q n2, control_byte, b2 d2 q n1, control_byte, b1 d2 q n0]
  · intro d2 q k hk
    rw [t3 d2 q k hk, p0, p1, p2]
    simp only [control_bit, control_byte]
    rw [t2 d2 q k hk]
    simp only [control_bit, control_byte]
    rw [t1 d2 q k hk]
    simp only [Prod.mk.injEq, control_bit, control_byte]

theorem bitmask_entry {ci : Nat} (hci : ci < 18) (m : Nat) :
    ∃ bm, g_led_control_bitmask[ci]? = some bm ∧
      control_pos m ci 0 = (bm.red_register + m, bm.red_bit) ∧
      control_pos m ci 1 = (bm.green_register + m, bm.green_bit) ∧
      control_pos m ci 2 = (bm.blue_register + m, bm.blue_bit) := by
  have hlt : ci < g_led_control_bitmask.length := hci
  have hbm : g_led_control_bitmask[ci]? = some g_led_control_bitmask[ci] :=
    List.getElem?_eq_getElem hlt
  exact ⟨_, hbm, by simp [control_pos, hbm], by simp [control_pos, hbm],
    by simp [control_pos, hbm]⟩

/-- C5: for every matrix `m` below 2, control index `i` below 18 and channel `c` below 3,
the entry of `g_map_control_index_to_register` exists and lies in 0x24..0xB3, so the
subscript entry - 0x24 is below 144 and not negative; the entry of
`g_led_control_bitmask` exists and has register + m below 18 and bit below 8 for the
three channels; hence on a state whose arrays have their declared sizes, for a
descriptor of an in-range index with driver below 2, matrix `m` and control index `i`,
neither `IS31FL3731_set_color` nor `IS31FL3731_set_led_control_register` makes an access
outside an array: both return a state. -/
theorem C5_mapping_totality (m i c : Nat) (hm : m < 2) (hi : i < 18) (hc : c < 3) :
    (∃ a, pgm_read_map m i c = some a ∧ 0x24 ≤ a ∧ a ≤ 0xB3 ∧
      (a : Int) - 0x24 ≥ 0 ∧ a - 0x24 < 144) ∧
    (∃ bm, g_led_control_bitmask[i]? = some bm ∧
      bm.red_register + m < 18 ∧ bm.red_bit < 8 ∧
      bm.green_register + m < 18 ∧ bm.green_bit < 8 ∧
      bm.blue_register + m < 18 ∧ bm.blue_bit < 8) ∧
    (∀ (leds : List is31_led) (index : Nat) (led : is31_led) (s : State) (r g b : Nat)
        (red green blue : Bool),
      s.WF → index < DRIVER_LED_TOTAL → leds[index]? = some led →
      led.driver < 2 → led.matrix = m → led.control_index = i →
      (IS31FL3731_set_color leds (index : Int) r g b s).isSome = true ∧
      (IS31FL3731_set_led_control_register leds index red green blue s).isSome = true) := by
  refine ⟨?_, ?_, ?_⟩
  · obtain ⟨h1, h2, h3⟩ := map_reg_range m hm i hi c hc
    exact ⟨_, h1, h2, h3, by omega, by omega⟩
  · obtain ⟨bm, hbm, p0, p1, p2⟩ := bitmask_entry hi m
    have r0 := control_pos_range m hm i hi 0 (by decide)
    have r1 := control_pos_range m hm i hi 1 (by decide)
    have r2 := control_pos_range m hm i hi 2 (by decide)
    rw [p0] at r0
    rw [p1] at r1
    rw [p2] at r2
    exact ⟨bm, hbm, r0.1, r0.2, r1.1, r1.2, r2.1, r2.2⟩
  · intro leds index led s r g b red green blue hs hidx hled hd hmm hcc
    subst hmm hcc
    have hv : led.valid := ⟨hd, hm, hi⟩
    have hled2 : leds[((index : Int)).toNat]? = some led := by simpa using hled
    obtain ⟨_, e1, _⟩ := set_color_spec (Int.ofNat_nonneg index)
      (Int.ofNat_lt.mpr hidx) hled2 hv r g b hs.2.1
    obtain ⟨_, e2, _⟩ := set_led_control_register_spec hled hv red green blue hs.2.2
    rw [e1, e2]
    exact ⟨rfl, rfl⟩

/-- Witness of C5: matrix B, the last cell, the blue channel. -/
theorem C5_mapping_totality_witness :
    1 < 2 ∧ 17 < 18 ∧ 2 < 3 ∧
    (∃ a, pgm_read_map 1 17 2 = some a ∧ 0x24 ≤ a ∧ a ≤ 0xB3 ∧
      (a : Int) - 0x24 ≥ 0 ∧ a - 0x24 < 144) :=
  ⟨by decide, by decide, by decide,
    (C5_mapping_totality 1 17 2 (by decide) (by decide) (by decide)).1⟩

/-- C7: for an index of the table whose descriptor has driver below 2, matrix below 2 (a
one-bit field) and control index below 18, on a state whose arrays have their declared
sizes, `IS31FL3731_set_led_control_register` returns, and afterwards, in the control
shadow buffer of the chip of the LED, the bit at (register of the channel + matrix, bit
of the channel) read from `g_led_control_bitmask[control_index]` is the argument of the
channel, for red, green and blue at once; the control dirty flag is true. -/
theorem C7_set_led_control_register_bits (leds : List is31_led) (index : Nat)
    (led : is31_led) (red green blue : Bool) (s : State) (hs : s.WF)
    (hled : leds[index]? = some led)
    (hd : led.driver < 2) (hm : led.matrix < 2) (hci : led.control_index < 18) :
    ∃ bm s2,
      g_led_control_bitmask[led.control_index]? = some bm ∧
      IS31FL3731_set_led_control_register leds index red green blue s = some s2 ∧
      control_bit s2 led.driver (bm.red_register + led.matrix) bm.red_bit = some red ∧
      control_bit s2 led.driver (bm.green_register + led.matrix) bm.green_bit = some green ∧
      control_bit s2 led.driver (bm.blue_register + led.matrix) bm.blue_bit = some blue ∧
      s2.g_led_control_registers_update_required = true := by
  have hv : led.valid := ⟨hd, hm, hci⟩
  obtain ⟨regs, e, _, _, hbits⟩ := set_led_control_register_spec hled hv red green blue hs.2.2
  obtain ⟨bm, hbm, p0, p1, p2⟩ := bitmask_entry hci led.matrix
  obtain ⟨d01, d02, d12⟩ := control_pos_registers_distinct led.matrix hm led.control_index hci
  have r0 := control_pos_range led.matrix hm led.control_index hci 0 (by decide)
  have r1 := control_pos_range led.matrix hm led.control_index hci 1 (by decide)
  have r2 := control_pos_range led.matrix hm led.control_index hci 2 (by decide)
  rw [p0, p1] at d01
  rw [p0, p2] at d02
  rw [p1, p2] at d12
  rw [p0] at r0
  rw [p1] at r1
  rw [p2] at r2
  dsimp only at d01 d02 d12 r0 r1 r2
  refine ⟨bm, _, hbm, e, ?_, ?_, ?_, rfl⟩
  · show (arr2_get regs _ _).map _ = _
    rw [hbits _ _ _ r0.2, p0, p1, p2]
    simp [d01, d02]
  · show (arr2_get regs _ _).map _ = _
    rw [hbits _ _ _ r1.2, p0, p1, p2]
    simp [d12]
  · show (arr2_get regs _ _).map _ = _
    rw [hbits _ _ _ r2.2, p0, p1, p2]
    simp

/-- Witness of C7: LED 30 of the example board (chip 1, matrix A, cell 5), red and blue
enabled, green disabled. -/
theorem C7_set_led_control_register_bits_witness :
    initial_state.WF ∧ example_leds[30]? = some ⟨1, 0, 0, 5, 0, ⟨0, 0⟩⟩ ∧
    ∃ s2, IS31FL3731_set_led_control_register example_leds 30 true false true initial_state
        = some s2 ∧
      control_bit s2 1 0x00 4 = some true ∧ control_bit s2 1 0x02 4 = some false ∧
      control_bit s2 1 0x04 4 = some true ∧
      s2.g_led_control_registers_update_required = true := by
  have hl : example_leds[30]? = some ⟨1, 0, 0, 5, 0, ⟨0, 0⟩⟩ := by decide
  obtain ⟨bm, s2, hbm, e, hr, hg, hb, hf⟩ :=
    C7_set_led_control_register_bits example_leds 30 ⟨1, 0, 0, 5, 0, ⟨0, 0⟩⟩ true false true
      initial_state initial_state_WF hl (by decide) (by decide) (by decide)
  have hbm2 : bm = ⟨0x00, 4, 0x02, 4, 0x04, 4⟩ := by
    have : g_led_control_bitmask[5]? = some ⟨0x00, 4, 0x02, 4, 0x04, 4⟩ := by decide
    exact Option.some.inj (hbm.symm.trans this)
  subst hbm2
  exact ⟨initial_state_WF, hl, s2, e, hr, hg, hb, hf⟩

/-- C6: for an index `i` of the table with a valid descriptor, on a state whose arrays
have their declared sizes, `IS31FL3731_set_led_control_register(i, red, green, blue)`
returns, and
* when `green` (resp. `blue`) is the value currently stored for LED `i`, the stored green
  (resp. blue) bit of LED `i` is unchanged, whatever `red` is;
* for every valid descriptor of the table that differs from that of LED `i` in
  (driver, matrix, control index), none of its three control bits changes, also when
  they lie in a register byte that holds a bit of LED `i`;
* more generally no bit 0..7 of any control register of any chip changes except at the
  three (register, bit) positions of LED `i` on the chip of LED `i`; the registers of
  the other chip, the PWM buffers, the PWM dirty flag and the wire are unchanged. -/
theorem C6_control_bit_isolation (leds : List is31_led) (i : Nat) (led : is31_led)
    (red green blue : Bool) (s : State) (hs : s.WF)
    (hled : leds[i]? = some led) (hv : led.valid) :
    ∃ s2,
      IS31FL3731_set_led_control_register leds i red green blue s = some s2 ∧
      (control_bit s led.driver (control_pos led.matrix led.control_index 1).1
          (control_pos led.matrix led.control_index 1).2 = some green →
        control_bit s2 led.driver (control_pos led.matrix led.control_index 1).1
          (control_pos led.matrix led.control_index 1).2 = some green) ∧
      (control_bit s led.driver (control_pos led.matrix led.control_index 2).1
          (control_pos led.matrix led.control_index 2).2 = some blue →
        control_bit s2 led.driver (control_pos led.matrix led.control_index 2).1
          (control_pos led.matrix led.control_index 2).2 = some blue) ∧
      (∀ (j : Nat) (ledj : is31_led) (c : Nat), leds[j]? = some ledj → ledj.valid → c < 3 →
        (ledj.driver, ledj.matrix, ledj.control_index)
          ≠ (led.driver, led.matrix, led.control_index) →
        control_bit s2 ledj.driver (control_pos ledj.matrix ledj.control_index c).1
            (control_pos ledj.matrix ledj.control_index c).2
          = control_bit s ledj.driver (control_pos ledj.matrix ledj.control_index c).1
            (control_pos ledj.matrix ledj.control_index c).2) ∧
      (∀ d reg k, k < 8 →
        ¬ (d = led.driver ∧ ((reg, k) = control_pos led.matrix led.control_index 0 ∨
            (reg, k) = control_pos led.matrix led.control_index 1 ∨
            (reg, k) = control_pos led.matrix led.control_index 2)) →
        control_bit s2 d reg k = control_bit s d reg k) ∧
      (∀ d reg, d ≠ led.driver → control_byte s2 d reg = control_byte s d reg) ∧
      s2.g_pwm_buffer = s.g_pwm_buffer ∧
      s2.g_pwm_buffer_update_required = s.g_pwm_buffer_update_required ∧
      s2.wire = s.wire := by
  obtain ⟨regs, e, _, hbytes, hbits⟩ :=
    set_led_control_register_spec hled hv red green blue hs.2.2
  obtain ⟨hd, hm, hci⟩ := hv
  obtain ⟨_, _, d12⟩ := control_pos_registers_distinct led.matrix hm led.control_index hci
  have r1 := control_pos_range led.matrix hm led.control_index hci 1 (by decide)
  have r2 := control_pos_range led.matrix hm led.control_index hci 2 (by decide)
  have general : ∀ d reg k, k < 8 →
      ¬ (d = led.driver ∧ ((reg, k) = control_pos led.matrix led.control_index 0 ∨
          (reg, k) = control_pos led.matrix led.control_index 1 ∨
          (reg, k) = control_pos led.matrix led.control_index 2)) →
      (arr2_get regs d reg).map (fun v => v.testBit k) = control_bit s d reg k := by
    intro d reg k hk hne
    simp only [not_and, not_or] at hne
    rw [hbits d reg k hk]
    by_cases hdd : d = led.driver
    · obtain ⟨n0, n1, n2⟩ := hne hdd
      simp [n0, n1, n2]
    · simp [hdd]
  refine ⟨_, e, ?_, ?_, ?_, general, ?_, rfl, rfl, rfl⟩
  · intro _
    show (arr2_get regs _ _).map _ = _
    rw [hbits _ _ _ r1.2]
    have hne : ¬ (control_pos led.matrix led.control_index 1
        = control_pos led.matrix led.control_index 2) := fun h => d12 (congrArg Prod.fst h)
    simp [hne]
  · intro _
    show (arr2_get regs _ _).map _ = _
    rw [hbits _ _ _ r2.2]
    simp
  · intro j ledj c _ hvj hc hne
    obtain ⟨_, hmj, hcij⟩ := hvj
    have rj := control_pos_range ledj.matrix hmj ledj.control_index hcij c hc
    apply general _ _ _ rj.2
    rintro ⟨hdd, hpos⟩
    apply hne
    have inj : ∀ c2, c2 < 3 →
        control_pos ledj.matrix ledj.control_index c
          = control_pos led.matrix led.control_index c2 →
        ledj.matrix = led.matrix ∧ ledj.control_index = led.control_index := by
      intro c2 hc2 h
      obtain ⟨h1, h2, _⟩ := control_pos_injective hmj hcij hc hm hci hc2 h
      exact ⟨h1, h2⟩
    rcases hpos with h | h | h
    · obtain ⟨h1, h2⟩ := inj 0 (by decide) h
      rw [hdd, h1, h2]
    · obtain ⟨h1, h2⟩ := inj 1 (by decide) h
      rw [hdd, h1, h2]
    · obtain ⟨h1, h2⟩ := inj 2 (by decide) h
      rw [hdd, h1, h2]
  · intro d reg hdd
    exact hbytes d reg (fun h => hdd h.1)

/-- Witness of C6: the red bit of LED 1 of the example board is set; the green bit of
LED 0, which lies in the register byte 0x04 of the green bit of LED 1, keeps its value. -/
theorem C6_control_bit_isolation_witness :
    initial_state.WF ∧ example_leds[1]? = some ⟨0, 0, 0, 1, 0, ⟨0, 0⟩⟩ ∧
    is31_led.valid ⟨0, 0, 0, 1, 0, ⟨0, 0⟩⟩ ∧
    ∃ s2, IS31FL3731_set_led_control_register example_leds 1 true false false initial_state
        = some s2 ∧
      control_bit s2 0 0x04 0 = control_bit initial_state 0 0x04 0 := by
  have hl : example_leds[1]? = some ⟨0, 0, 0, 1, 0, ⟨0, 0⟩⟩ := by decide
  have hv : is31_led.valid ⟨0, 0, 0, 1, 0, ⟨0, 0⟩⟩ := by decide
  obtain ⟨s2, e, _, _, hother, _⟩ :=
    C6_control_bit_isolation example_leds 1 ⟨0, 0, 0, 1, 0, ⟨0, 0⟩⟩ true false false
      initial_state initial_state_WF hl hv
  have h0 : example_leds[0]? = some ⟨0, 0, 0, 0, 0, ⟨0, 0⟩⟩ := by decide
  have := hother 0 ⟨0, 0, 0, 0, 0, ⟨0, 0⟩⟩ 1 h0 (by decide) (by decide) (by decide)
  exact ⟨initial_state_WF, hl, hv, s2, e, this⟩

/-! ## Theorems: idempotence of `set_color` -/

theorem store_pwm_eq (led : is31_led) (c v : Nat) (s : State) :
    store_pwm led c v s =
      match pgm_read_map led.matrix led.control_index c, s.g_pwm_buffer[led.driver]? with
      | some reg, some row =>
        if 0x24 ≤ reg ∧ reg - 0x24 < row.length then
          some { s with
            g_pwm_buffer := s.g_pwm_buffer.set led.driver (row.set (reg - 0x24) v) }
        else none
      | _, _ => none := by
  unfold store_pwm
  cases hreg : pgm_read_map led.matrix led.control_index c with
  | none => rfl
  | some reg =>
    cases hrow : s.g_pwm_buffer[led.driver]? with
    | none =>
      simp only [arr2_set, hrow]
      split_ifs <;> rfl
    | some row =>
      simp only [arr2_set, hrow, arr_set]
      by_cases h1 : reg < 0x24
      · have : ¬ (0x24 ≤ reg ∧ reg - 0x24 < row.length) := by omega
        simp only [h1, if_true, this, if_false]
      · by_cases h2 : reg - 0x24 < row.length
        · have : 0x24 ≤ reg ∧ reg - 0x24 < row.length := by omega
          simp only [h1, if_false, h2, if_true, this, and_self]
        · have : ¬ (0x24 ≤ reg ∧ reg - 0x24 < row.length) := by omega
          rw [if_neg this]
          simp only [h1, if_false, h2]

theorem row_rewrite (row : List Nat) (o0 o1 o2 r g b : Nat) :
    (((((row.set o0 r).set o1 g).set o2 b).set o0 r).set o1 g).set o2 b
      = ((row.set o0 r).set o1 g).set o2 b := by
  apply List.ext_getElem?
  intro k
  simp only [List.getElem?_set, List.length_set]
  split_ifs <;> rfl

theorem getElem?_set_row {a : List (List Nat)} {d : Nat} {row : List Nat}
    (h : a[d]? = some row) (row2 : List Nat) : (a.set d row2)[d]? = some row2 := by
  have hd : d < a.length := by
    by_contra hcon
    rw [List.getElem?_eq_none (by omega)] at h
    cases h
  simp [List.getElem?_set, hd]

theorem store_pwm_inv {led : is31_led} {c v : Nat} {s s2 : State}
    (h : store_pwm led c v s = some s2) :
    ∃ reg row, pgm_read_map led.matrix led.control_index c = some reg ∧
      s.g_pwm_buffer[led.driver]? = some row ∧ 0x24 ≤ reg ∧ reg - 0x24 < row.length ∧
      s2 = { s with
        g_pwm_buffer := s.g_pwm_buffer.set led.driver (row.set (reg - 0x24) v) } := by
  rw [store_pwm_eq] at h
  cases hreg : pgm_read_map led.matrix led.control_index c with
  | none => rw [hreg] at h; cases h
  | some reg =>
    cases hrow : s.g_pwm_buffer[led.driver]? with
    | none => rw [hreg, hrow] at h; cases h
    | some row =>
      rw [hreg, hrow] at h
      by_cases hc : 0x24 ≤ reg ∧ reg - 0x24 < row.length
      · simp only [hc, and_self, if_true, Option.some.injEq] at h
        exact ⟨reg, row, rfl, rfl, hc.1, hc.2, h.symm⟩
      · simp only [hc, if_false] at h
        cases h

theorem store_pwm_ok {led : is31_led} {c : Nat} (v : Nat) {s : State} {reg : Nat}
    {row : List Nat} (hreg : pgm_read_map led.matrix led.control_index c = some reg)
    (hrow : s.g_pwm_buffer[led.driver]? = some row) (h1 : 0x24 ≤ reg)
    (h2 : reg - 0x24 < row.length) :
    store_pwm led c v s = some { s with
      g_pwm_buffer := s.g_pwm_buffer.set led.driver (row.set (reg - 0x24) v) } := by
  rw [store_pwm_eq, hreg, hrow]
  simp only [h1, h2, and_self, if_true]

theorem set_color_twice {leds : List is31_led} {index : Int} {r g b : Nat} {s s2 : State}
    (h : IS31FL3731_set_color leds index r g b s = some s2) :
    IS31FL3731_set_color leds index r g b s2 = some s2 := by
  unfold IS31FL3731_set_color at h ⊢
  by_cases hin : 0 ≤ index ∧ index < (DRIVER_LED_TOTAL : Int)
  · simp only [hin, and_self, if_true] at h ⊢
    cases hled : leds[index.toNat]? with
    | none => rw [hled] at h; cases h
    | some led =>
      simp only [hled] at h ⊢
      cases e0 : store_pwm led 0 r s with
      | none => rw [e0] at h; cases h
      | some s_r =>
        simp only [e0] at h
        cases e1 : store_pwm led 1 g s_r with
        | none => rw [e1] at h; cases h
        | some s_g =>
          simp only [e1] at h
          cases e2 : store_pwm led 2 b s_g with
          | none => rw [e2] at h; cases h
          | some s_b =>
            simp only [e2, Option.some.injEq] at h
            obtain ⟨a0, row, m0, hrow, l0, u0, rfl⟩ := store_pwm_inv e0
            obtain ⟨a1, row1, m1, hrow1, l1, u1, rfl⟩ := store_pwm_inv e1
            obtain ⟨a2, row2, m2, hrow2, l2, u2, rfl⟩ := store_pwm_inv e2
            simp only [getElem?_set_row hrow, Option.some.injEq] at hrow1
            subst hrow1
            simp only [List.set_set, getElem?_set_row hrow, Option.some.injEq] at hrow2
            subst hrow2
            subst h
            simp only [List.set_set, List.length_set] at u1 u2 ⊢
            have q0 := getElem?_set_row hrow
              (((row.set (a0 - 0x24) r).set (a1 - 0x24) g).set (a2 - 0x24) b)
            rw [store_pwm_ok r m0 q0 l0 (by simpa using u0)]
            simp only [List.set_set]
            have q1 := getElem?_set_row hrow
              ((((row.set (a0 - 0x24) r).set (a1 - 0x24) g).set (a2 - 0x24) b).set
                (a0 - 0x24) r)
            rw [store_pwm_ok g m1 q1 l1 (by simpa using u1)]
            simp only [List.set_set]
            have q2 := getElem?_set_row hrow
              (((((row.set (a0 - 0x24) r).set (a1 - 0x24) g).set (a2 - 0x24) b).set
                (a0 - 0x24) r).set (a1 - 0x24) g)
            rw [store_pwm_ok b m2 q2 l2 (by simpa using u2)]
            simp only [List.set_set, row_rewrite]
  · simp only [hin, if_false, Option.some.injEq] at h ⊢

/-- C8: for every table, index, colour and starting state, calling
`IS31FL3731_set_color(index, r, g, b)` twice in a row gives the result of calling it
once: the same state (PWM shadow buffers, dirty flags and every other field), or
undefined behaviour in both cases; and a following `IS31FL3731_update_pwm_buffers`, on
any bus, gives the same result in both cases, in particular the same frames on the
wire. -/
theorem C8_set_color_idempotent (leds : List is31_led) (index : Int) (r g b : Nat)
    (s : State) (bus : Bus) (fuel addr1 addr2 : Nat) :
    (IS31FL3731_set_color leds index r g b s).bind (IS31FL3731_set_color leds index r g b)
      = IS31FL3731_set_color leds index r g b s ∧
    ((IS31FL3731_set_color leds index r g b s).bind
        (IS31FL3731_set_color leds index r g b)).bind
        (IS31FL3731_update_pwm_buffers bus fuel addr1 addr2)
      = (IS31FL3731_set_color leds index r g b s).bind
        (IS31FL3731_update_pwm_buffers bus fuel addr1 addr2) := by
  have key : (IS31FL3731_set_color leds index r g b s).bind
      (IS31FL3731_set_color leds index r g b) = IS31FL3731_set_color leds index r g b s := by
    cases h : IS31FL3731_set_color leds index r g b s with
    | none => rfl
    | some s2 => exact set_color_twice h
  exact ⟨key, by rw [key]⟩

/-- Witness of C8: on the example board, from the state at program start, both runs
return, with the same state, and the flush that follows emits the same 18 frames. -/
theorem C8_set_color_idempotent_witness :
    ∃ s2 s3,
      IS31FL3731_set_color example_leds 3 10 20 30 initial_state = some s2 ∧
      (IS31FL3731_set_color example_leds 3 10 20 30 initial_state).bind
        (IS31FL3731_set_color example_leds 3 10 20 30) = some s2 ∧
      ((IS31FL3731_set_color example_leds 3 10 20 30 initial_state).bind
        (IS31FL3731_set_color example_leds 3 10 20 30)).bind
        (IS31FL3731_update_pwm_buffers good_bus 1 DRIVER_ADDR_1 DRIVER_ADDR_2) = some s3 ∧
      (IS31FL3731_set_color example_leds 3 10 20 30 initial_state).bind
        (IS31FL3731_update_pwm_buffers good_bus 1 DRIVER_ADDR_1 DRIVER_ADDR_2) = some s3 ∧
      s3.wire.length = 18 := by
  obtain ⟨k1, k2⟩ := C8_set_color_idempotent example_leds 3 10 20 30 initial_state good_bus 1
    DRIVER_ADDR_1 DRIVER_ADDR_2
  obtain ⟨led, hled, hv⟩ := leds_valid_get example_leds_valid
    (show (0 : Int) ≤ 3 by decide) (show (3 : Int) < (DRIVER_LED_TOTAL : Int) by decide)
  obtain ⟨buf, e, sh, _⟩ := set_color_spec (by decide) (by decide) hled hv 10 20 30
    initial_state_WF.2.1
  obtain ⟨_, _, s3, _, _, _, e3, w3, _⟩ :=
    update_pwm_buffers_dirty good_bus_succeeds (Nat.le_refl 1) DRIVER_ADDR_1 DRIVER_ADDR_2
      (s := { initial_state with g_pwm_buffer := buf, g_pwm_buffer_update_required := true })
      ⟨initial_state_WF.1, sh, initial_state_WF.2.2⟩ rfl
  refine ⟨_, s3, e, ?_, ?_, ?_, ?_⟩
  · rw [k1, e]
  · rw [k2, e]; exact e3
  · rw [e]; exact e3
  · rw [w3]
    simp [initial_state, pwm_frames_length]

/-! ## Theorems: the payload of a flush -/

theorem chip_payload_frames (addr1 addr2 : Nat) {b0 b1 : List Nat} (h0 : b0.length = 144)
    (h1 : b1.length = 144) :
    chip_payload (pwm_frames addr1 b0 ++ pwm_frames addr2 b1) 0 = b0 ∧
    chip_payload (pwm_frames addr1 b0 ++ pwm_frames addr2 b1) 1 = b1 := by
  constructor
  · unfold chip_payload
    rw [Nat.mul_zero, List.drop_zero,
      List.take_append_of_le_length (by rw [pwm_frames_length]),
      List.take_of_length_le (by rw [pwm_frames_length])]
    exact pwm_frames_payload addr1 h0
  · unfold chip_payload
    rw [Nat.mul_one, List.drop_append_of_le_length (by rw [pwm_frames_length]),
      List.drop_of_length_le (by rw [pwm_frames_length]), List.nil_append,
      List.take_of_length_le (by rw [pwm_frames_length])]
    exact pwm_frames_payload addr2 h1

theorem arr2_get_rows (b0 b1 : List Nat) (k : Nat) :
    arr2_get [b0, b1] 0 k = b0[k]? ∧ arr2_get [b0, b1] 1 k = b1[k]? :=
  ⟨rfl, rfl⟩

theorem initial_pwm_byte {d k : Nat} (hd : d < 2) (hk : k < 144) :
    pwm_byte initial_state d k = some 0 := by
  have hd2 : d < DRIVER_COUNT := hd
  have h1 : initial_state.g_pwm_buffer[d]? = some (List.replicate 144 0) := by
    show (List.replicate DRIVER_COUNT (List.replicate 144 0))[d]? = _
    rw [List.getElem?_replicate, if_pos hd2]
  unfold pwm_byte arr2_get
  rw [h1]
  show (List.replicate 144 0)[k]? = some 0
  rw [List.getElem?_replicate, if_pos hk]

theorem flush_payload {bus : Bus} (hbus : bus.succeeds) {fuel : Nat} (hfuel : 1 ≤ fuel)
    (addr1 addr2 : Nat) {s : State} (hs : s.WF)
    (hflag : s.g_pwm_buffer_update_required = true) :
    ∃ s2, IS31FL3731_update_pwm_buffers bus fuel addr1 addr2 s = some s2 ∧
      (s2.wire.drop s.wire.length).length = 18 ∧
      s2.g_pwm_buffer = s.g_pwm_buffer ∧
      ∀ d < 2, (chip_payload (s2.wire.drop s.wire.length) d).length = 144 ∧
        ∀ k, (chip_payload (s2.wire.drop s.wire.length) d)[k]? = pwm_byte s d k := by
  obtain ⟨b0, b1, s2, hb, l0, l1, e2, w2, p2, _⟩ :=
    update_pwm_buffers_dirty hbus hfuel addr1 addr2 hs hflag
  have hnew : s2.wire.drop s.wire.length = pwm_frames addr1 b0 ++ pwm_frames addr2 b1 := by
    rw [w2, List.append_assoc, List.drop_left]
  obtain ⟨c0, c1⟩ := chip_payload_frames addr1 addr2 l0 l1
  refine ⟨s2, e2, ?_, p2, ?_⟩
  · rw [hnew, List.length_append, pwm_frames_length, pwm_frames_length]
  · intro d hd
    rw [hnew]
    unfold pwm_byte
    rw [hb]
    interval_cases d
    · rw [c0]
      exact ⟨l0, fun k => ((arr2_get_rows b0 b1 k).1).symm⟩
    · rw [c1]
      exact ⟨l1, fun k => ((arr2_get_rows b0 b1 k).2).symm⟩

theorem scenario_set_color_red {leds : List is31_led} (hl : leds_valid leds) {bus : Bus}
    (hbus : bus.succeeds) {fuel : Nat} (hfuel : 1 ≤ fuel) (addr1 addr2 : Nat) :
    ∃ led s1 s2,
      leds[(0 : Int).toNat]? = some led ∧ led.valid ∧
      IS31FL3731_set_color leds 0 255 0 0 initial_state = some s1 ∧
      IS31FL3731_update_pwm_buffers bus fuel addr1 addr2 s1 = some s2 ∧
      s2.wire.length = 18 ∧
      (chip_payload s2.wire led.driver).length = 144 ∧
      ∀ k < 144, (chip_payload s2.wire led.driver)[k]?
        = some (if k = pwm_offset led 0 then 255 else 0) := by
  obtain ⟨led, hled, hv⟩ := leds_valid_get hl
    (show (0 : Int) ≤ 0 by decide) (show (0 : Int) < (DRIVER_LED_TOTAL : Int) by decide)
  obtain ⟨buf, e1, sh, hget⟩ := set_color_spec (by decide) (by decide) hled hv 255 0 0
    initial_state_WF.2.1
  obtain ⟨s2, e2, hlen, _, hpay⟩ := flush_payload hbus hfuel addr1 addr2
    (s := { initial_state with g_pwm_buffer := buf, g_pwm_buffer_update_required := true })
    ⟨initial_state_WF.1, sh, initial_state_WF.2.2⟩ rfl
  have hw : ∀ w : List (List Nat), w.drop (initial_state.wire.length) = w := fun w => rfl
  simp only [hw] at hlen hpay
  obtain ⟨d01, d02, _⟩ := pwm_offset_distinct hv
  obtain ⟨hp1, hp2⟩ := hpay led.driver hv.1
  refine ⟨led, _, s2, hled, hv, e1, e2, hlen, hp1, ?_⟩
  intro k hk
  rw [hp2 k]
  show arr2_get buf led.driver k = _
  rw [hget, initial_pwm_byte hv.1 hk]
  by_cases h0 : k = pwm_offset led 0
  · simp [h0, d01, d02]
  · simp only [h0, and_false, if_false]
    split_ifs <;> rfl

/-- C9, as amended: on a board with a valid table of 49 LEDs on 2 chips, from the
zero-initialised state at program start and with a bus that reports completion at the
first attempt, `IS31FL3731_set_color(0, 255, 0, 0)` followed by
`IS31FL3731_update_pwm_buffers` returns and emits the two bulk transfers (18 frames); the
144 payload bytes sent to the chip of LED 0 hold 255 in exactly one byte, the one mapped
from the red channel of the descriptor of LED 0 (offset red register - 0x24), and 0 in
the 143 others, the green and blue bytes of LED 0 among them. -/
theorem C9_scenario_red_byte_only (leds : List is31_led) (bus : Bus) (fuel addr1 addr2 : Nat)
    (hl : leds_valid leds) (hbus : bus.succeeds) (hfuel : 1 ≤ fuel) :
    ∃ led s1 s2 red_reg,
      leds[(0 : Int).toNat]? = some led ∧
      pgm_read_map led.matrix led.control_index 0 = some red_reg ∧
      0x24 ≤ red_reg ∧ red_reg - 0x24 < 144 ∧
      IS31FL3731_set_color leds 0 255 0 0 initial_state = some s1 ∧
      IS31FL3731_update_pwm_buffers bus fuel addr1 addr2 s1 = some s2 ∧
      s2.wire.length = 18 ∧
      (chip_payload s2.wire led.driver).length = 144 ∧
      ∀ k < 144, (chip_payload s2.wire led.driver)[k]?
        = some (if k = red_reg - 0x24 then 255 else 0) := by
  obtain ⟨led, s1, s2, hled, hv, e1, e2, hlen, hp, hbytes⟩ :=
    scenario_set_color_red hl hbus hfuel addr1 addr2
  have hr := map_reg_range led.matrix hv.2.1 led.control_index hv.2.2 0 (by decide)
  exact ⟨led, s1, s2, _, hled, hr.1, hr.2.1, pwm_offset_lt hv (by decide), e1, e2, hlen, hp,
    hbytes⟩

/-- Witness of C9 as amended: the example board with the addresses of the Planck rev5. -/
theorem C9_scenario_red_byte_only_witness :
    leds_valid example_leds ∧ good_bus.succeeds ∧ 1 ≤ 1 ∧
    ∃ s1 s2,
      IS31FL3731_set_color example_leds 0 255 0 0 initial_state = some s1 ∧
      IS31FL3731_update_pwm_buffers good_bus 1 DRIVER_ADDR_1 DRIVER_ADDR_2 s1 = some s2 ∧
      (chip_payload s2.wire 0)[0x10]? = some 255 ∧
      (chip_payload s2.wire 0)[0x11]? = some 0 := by
  obtain ⟨led, s1, s2, red_reg, hled, hreg, _, _, e1, e2, _, _, hbytes⟩ :=
    C9_scenario_red_byte_only example_leds good_bus 1 DRIVER_ADDR_1 DRIVER_ADDR_2
      example_leds_valid good_bus_succeeds (Nat.le_refl 1)
  have hl0 : example_leds[(0 : Int).toNat]? = some ⟨0, 0, 0, 0, 0, ⟨0, 0⟩⟩ := by decide
  have hled2 : led = ⟨0, 0, 0, 0, 0, ⟨0, 0⟩⟩ := Option.some.inj (hled.symm.trans hl0)
  subst hled2
  have hreg2 : red_reg = 0x34 := by
    have : pgm_read_map 0 0 0 = some 0x34 := by decide
    exact Option.some.inj (hreg.symm.trans this)
  subst hreg2
  exact ⟨example_leds_valid, good_bus_succeeds, Nat.le_refl 1, s1, s2, e1, e2,
    hbytes 0x10 (by decide), hbytes 0x11 (by decide)⟩

/-- C9, counterexample to the claim as stated: on the example board LED 0 has the
descriptor (chip 0, matrix A, cell 0), whose green and blue registers are 0x44 and 0x54;
after `set_color(0, 255, 0, 0)` and the flush, the payload bytes of chip 0 at the green
and blue offsets 0x20 and 0x30 are 0, not 255: only the red byte at offset 0x10 is 255. -/
theorem C9_counterexample :
    ∃ s1 s2,
      example_leds[(0 : Int).toNat]? = some ⟨0, 0, 0, 0, 0, ⟨0, 0⟩⟩ ∧
      pgm_read_map 0 0 0 = some 0x34 ∧ pgm_read_map 0 0 1 = some 0x44 ∧
      pgm_read_map 0 0 2 = some 0x54 ∧
      IS31FL3731_set_color example_leds 0 255 0 0 initial_state = some s1 ∧
      IS31FL3731_update_pwm_buffers good_bus 1 DRIVER_ADDR_1 DRIVER_ADDR_2 s1 = some s2 ∧
      (chip_payload s2.wire 0)[0x34 - 0x24]? = some 255 ∧
      (chip_payload s2.wire 0)[0x44 - 0x24]? = some 0 ∧
      (chip_payload s2.wire 0)[0x54 - 0x24]? = some 0 ∧
      ¬ ((chip_payload s2.wire 0)[0x44 - 0x24]? = some 255 ∧
         (chip_payload s2.wire 0)[0x54 - 0x24]? = some 255) := by
  obtain ⟨led, s1, s2, hled, _, e1, e2, _, _, hbytes⟩ :=
    scenario_set_color_red example_leds_valid good_bus_succeeds (Nat.le_refl 1)
      DRIVER_ADDR_1 DRIVER_ADDR_2
  have hl0 : example_leds[(0 : Int).toNat]? = some ⟨0, 0, 0, 0, 0, ⟨0, 0⟩⟩ := by decide
  have hled2 : led = ⟨0, 0, 0, 0, 0, ⟨0, 0⟩⟩ := Option.some.inj (hled.symm.trans hl0)
  subst hled2
  have hoff : pwm_offset ⟨0, 0, 0, 0, 0, ⟨0, 0⟩⟩ 0 = 0x10 := by decide
  rw [hoff] at hbytes
  have hr := hbytes 0x10 (by decide)
  have hg := hbytes 0x20 (by decide)
  have hb := hbytes 0x30 (by decide)
  refine ⟨s1, s2, hl0, by decide, by decide, by decide, e1, e2, hr, hg, hb, ?_⟩
  rintro ⟨h, _⟩
  have h2 : (chip_payload s2.wire 0)[0x20]? = some 255 := h
  rw [hg] at h2
  exact absurd h2 (by decide)

/-! ## Theorems: calls that leave the shadow buffers alone -/

theorem same_buffers_refl (s : State) : same_buffers s s := ⟨rfl, rfl, rfl⟩

theorem same_buffers_trans {s s2 s3 : State} (h1 : same_buffers s s2)
    (h2 : same_buffers s2 s3) : same_buffers s s3 :=
  ⟨h2.1.trans h1.1, h2.2.1.trans h1.2.1, h2.2.2.trans h1.2.2⟩

theorem for_each_rel {σ : Type} (R : σ → σ → Prop) (hrefl : ∀ s, R s s)
    (htrans : ∀ a b c, R a b → R b c → R a c) {body : Nat → σ → Option σ}
    (hbody : ∀ i s s2, body i s = some s2 → R s s2) :
    ∀ (l : List Nat) (s s2 : σ), for_each body l s = some s2 → R s s2 := by
  intro l
  induction l with
  | nil =>
    intro s s2 h
    simp only [for_each, Option.some.injEq] at h
    subst h
    exact hrefl s
  | cons i rest ih =>
    intro s s2 h
    simp only [for_each] at h
    cases hb : body i s with
    | none => rw [hb] at h; cases h
    | some s1 =>
      rw [hb] at h
      exact htrans _ _ _ (hbody i s s1 hb) (ih s1 s2 h)

theorem for_each_same_buffers {body : Nat → State → Option State}
    (hbody : ∀ i s s2, body i s = some s2 → same_buffers s s2) :
    ∀ (l : List Nat) (s s2 : State), for_each body l s = some s2 → same_buffers s s2 :=
  for_each_rel same_buffers same_buffers_refl (fun _ _ _ => same_buffers_trans) hbody

theorem arr_set_length {a a2 : List Nat} {i v : Nat} (h : arr_set a i v = some a2) :
    a2.length = a.length := by
  unfold arr_set at h
  split_ifs at h
  simp only [Option.some.injEq] at h
  subst h
  exact List.length_set _ _ _

theorem write_register_same_buffers {bus : Bus} {addr reg data : Nat} {s s2 : State}
    (h : IS31FL3731_write_register bus addr reg data s = some s2) : same_buffers s s2 := by
  unfold IS31FL3731_write_register fill_register_frame at h
  cases e0 : arr_set s.g_twi_transfer_buffer 0 (((addr <<< 1) ||| 0x00) % 256) with
  | none => rw [e0] at h; cases h
  | some t0 =>
    rw [e0] at h
    cases e1 : arr_set t0 1 reg with
    | none => simp only [e1] at h; cases h
    | some t1 =>
      simp only [e1] at h
      cases e2 : arr_set t1 2 data with
      | none => simp only [e2] at h; cases h
      | some t2 =>
        simp only [e2, Option.some.injEq] at h
        subst h
        refine ⟨rfl, rfl, ?_⟩
        show t2.length = _
        rw [arr_set_length e2, arr_set_length e1, arr_set_length e0]

theorem bind_same_buffers {f : State → Option State} {g : State → Option State}
    (hf : ∀ s s2, f s = some s2 → same_buffers s s2)
    (hg : ∀ s s2, g s = some s2 → same_buffers s s2) :
    ∀ s s2, (f s).bind g = some s2 → same_buffers s s2 := by
  intro s s2 h
  cases e : f s with
  | none => rw [e] at h; cases h
  | some s1 =>
    rw [e] at h
    exact same_buffers_trans (hf s s1 e) (hg s1 s2 h)

theorem init_same_buffers {bus : Bus} {addr : Nat} {s s2 : State}
    (h : IS31FL3731_init bus addr s = some s2) : same_buffers s s2 := by
  have w : ∀ reg data s s2, IS31FL3731_write_register bus addr reg data s = some s2 →
      same_buffers s s2 := fun _ _ _ _ h => write_register_same_buffers h
  have l : ∀ (rs : List Nat) s s2,
      for_each (fun i s => IS31FL3731_write_register bus addr i 0x00 s) rs s = some s2 →
      same_buffers s s2 :=
    for_each_same_buffers (fun i s s2 h => write_register_same_buffers h)
  unfold IS31FL3731_init at h
  simp only [bind, pure] at h
  revert h
  generalize s = sa
  revert sa s2
  intro s2 sa
  exact bind_same_buffers (w _ _) (bind_same_buffers (w _ _) (bind_same_buffers (w _ _)
    (bind_same_buffers (w _ _) (bind_same_buffers (w _ _) (bind_same_buffers (w _ _)
    (bind_same_buffers (l _) (bind_same_buffers (l _) (bind_same_buffers (l _)
    (bind_same_buffers (w _ _) (bind_same_buffers (w _ _) (w _ _))))))))))) sa s2

theorem transmit_until_done_same_buffers {bus : Bus} {len : Nat} :
    ∀ (fuel : Nat) (s s2 : State), transmit_until_done bus len fuel s = some s2 →
      same_buffers s s2 := by
  intro fuel
  induction fuel with
  | zero =>
    intro s s2 h
    unfold transmit_until_done at h
    split_ifs at h
    simp only [Option.some.injEq] at h
    subst h
    exact same_buffers_refl s
  | succ f ih =>
    intro s s2 h
    unfold transmit_until_done at h
    split_ifs at h
    · simp only [Option.some.injEq] at h
      subst h
      exact same_buffers_refl s
    · have h2 : transmit_until_done bus len f (TWITransmitData bus len s) = some s2 := h
      have k := ih _ _ h2
      exact ⟨k.1, k.2.1, k.2.2⟩

theorem copy_chunk_length {buf t t2 : List Nat} {i : Nat}
    (h : copy_chunk buf i t = some t2) : t2.length = t.length := by
  unfold copy_chunk at h
  refine for_each_rel (fun (a b : List Nat) => b.length = a.length) (fun _ => rfl)
    (fun a b c h1 h2 => h2.trans h1) ?_ _ _ _ h
  intro j a a2 hb
  cases e : buf[i + j]? with
  | none => simp only [e] at hb; cases hb
  | some v =>
    simp only [e] at hb
    exact arr_set_length hb

theorem write_pwm_chunk_same_buffers {bus : Bus} {fuel : Nat} {buf : List Nat} {i : Nat}
    {s s2 : State} (h : write_pwm_chunk bus fuel buf i s = some s2) : same_buffers s s2 := by
  unfold write_pwm_chunk at h
  cases e1 : arr_set s.g_twi_transfer_buffer 1 ((0x24 + i) % 256) with
  | none => rw [e1] at h; cases h
  | some t1 =>
    rw [e1] at h
    cases e2 : copy_chunk buf i t1 with
    | none => simp only [e2] at h; cases h
    | some t2 =>
      simp only [e2] at h
      have k := transmit_until_done_same_buffers _ _ _ h
      refine ⟨k.1, k.2.1, k.2.2.trans ?_⟩
      show t2.length = _
      rw [copy_chunk_length e2, arr_set_length e1]

theorem write_pwm_buffer_same_buffers {bus : Bus} {fuel addr : Nat} {buf : List Nat}
    {s s2 : State} (h : IS31FL3731_write_pwm_buffer bus fuel addr buf s = some s2) :
    same_buffers s s2 := by
  unfold IS31FL3731_write_pwm_buffer at h
  cases e0 : arr_set s.g_twi_transfer_buffer 0 (((addr <<< 1) ||| 0x00) % 256) with
  | none => rw [e0] at h; cases h
  | some t0 =>
    simp only [e0] at h
    have k := for_each_same_buffers
      (fun i s s2 (h : write_pwm_chunk bus fuel buf i s = some s2) =>
        write_pwm_chunk_same_buffers h) _ _ _ h
    exact ⟨k.1, k.2.1, k.2.2.trans (arr_set_length e0)⟩

theorem update_pwm_buffers_same_buffers {bus : Bus} {fuel addr1 addr2 : Nat} {s s2 : State}
    (h : IS31FL3731_update_pwm_buffers bus fuel addr1 addr2 s = some s2) :
    same_buffers s s2 := by
  unfold IS31FL3731_update_pwm_buffers at h
  split_ifs at h
  · cases e0 : s.g_pwm_buffer[0]? with
    | none => rw [e0] at h; cases h
    | some b0 =>
      rw [e0] at h
      cases e1 : IS31FL3731_write_pwm_buffer bus fuel addr1 b0 s with
      | none => simp only [e1] at h; cases h
      | some s1 =>
        simp only [e1] at h
        cases e2 : s1.g_pwm_buffer[1]? with
        | none => simp only [e2] at h; cases h
        | some b1 =>
          simp only [e2] at h
          cases e3 : IS31FL3731_write_pwm_buffer bus fuel addr2 b1 s1 with
          | none => simp only [e3] at h; cases h
          | some s3 =>
            simp only [e3, Option.some.injEq] at h
            subst h
            exact same_buffers_trans (write_pwm_buffer_same_buffers e1)
              (same_buffers_trans (write_pwm_buffer_same_buffers e3) ⟨rfl, rfl, rfl⟩)
  · simp only [Option.some.injEq] at h
    subst h
    exact ⟨rfl, rfl, rfl⟩

theorem update_led_control_registers_same_buffers {bus : Bus} {addr1 addr2 : Nat}
    {s s2 : State} (h : IS31FL3731_update_led_control_registers bus addr1 addr2 s = some s2) :
    same_buffers s s2 := by
  unfold IS31FL3731_update_led_control_registers at h
  split_ifs at h
  · refine for_each_same_buffers ?_ _ _ _ h
    intro i s s2 hb
    unfold update_led_control_step at hb
    cases e0 : arr2_get s.g_led_control_registers 0 i with
    | none => rw [e0] at hb; cases hb
    | some v0 =>
      rw [e0] at hb
      cases e1 : IS31FL3731_write_register bus addr1 i v0 s with
      | none => simp only [e1] at hb; cases hb
      | some s1 =>
        simp only [e1] at hb
        cases e2 : arr2_get s1.g_led_control_registers 1 i with
        | none => simp only [e2] at hb; cases hb
        | some v1 =>
          simp only [e2] at hb
          exact same_buffers_trans (write_register_same_buffers e1)
            (write_register_same_buffers hb)
  · simp only [Option.some.injEq] at h
    subst h
    exact same_buffers_refl s

/-! ## Theorems: the invariant of the PWM shadow buffers -/

theorem pwm_invariant_of_same_buffers {leds : List is31_led} {s s2 : State}
    (h : same_buffers s s2) (hinv : pwm_invariant leds s) : pwm_invariant leds s2 := by
  obtain ⟨hp, hc, ht⟩ := h
  obtain ⟨⟨w1, w2, w3⟩, hb⟩ := hinv
  refine ⟨⟨ht.trans w1, by rw [hp]; exact w2, by rw [hc]; exact w3⟩, ?_⟩
  intro d k v hv
  unfold pwm_byte at hv
  rw [hp] at hv
  exact hb d k v hv

theorem initial_pwm_zero {d k v : Nat} (h : pwm_byte initial_state d k = some v) : v = 0 := by
  unfold pwm_byte arr2_get at h
  have hrow : ∀ row, initial_state.g_pwm_buffer[d]? = some row → row = List.replicate 144 0 := by
    intro row hr
    have hr2 : (List.replicate DRIVER_COUNT (List.replicate 144 0))[d]? = some row := hr
    rw [List.getElem?_replicate] at hr2
    split_ifs at hr2
    exact (Option.some.inj hr2).symm
  cases e : initial_state.g_pwm_buffer[d]? with
  | none => rw [e] at h; cases h
  | some row =>
    rw [e] at h
    have h2 : row[k]? = some v := h
    rw [hrow row e, List.getElem?_replicate] at h2
    split_ifs at h2
    exact (Option.some.inj h2).symm

theorem initial_pwm_invariant (leds : List is31_led) : pwm_invariant leds initial_state :=
  ⟨initial_state_WF, fun _ _ _ hv hne => absurd (initial_pwm_zero hv) hne⟩

theorem set_color_invariant {leds : List is31_led} (hl : leds_valid leds) {index : Int}
    {r g b : Nat} {s s2 : State} (h : IS31FL3731_set_color leds index r g b s = some s2)
    (hinv : pwm_invariant leds s) : pwm_invariant leds s2 := by
  by_cases hin : 0 ≤ index ∧ index < (DRIVER_LED_TOTAL : Int)
  · obtain ⟨led, hled, hv⟩ := leds_valid_get hl hin.1 hin.2
    have hmem : led ∈ leds := List.getElem?_mem hled
    obtain ⟨buf, e, sh, hget⟩ := set_color_spec hin.1 hin.2 hled hv r g b hinv.1.2.1
    rw [e] at h
    simp only [Option.some.injEq] at h
    subst h
    refine ⟨⟨hinv.1.1, sh, hinv.1.2.2⟩, ?_⟩
    intro d k v hbyte hne
    have hbyte2 : arr2_get buf d k = some v := hbyte
    rw [hget] at hbyte2
    split_ifs at hbyte2 with c2 c1 c0
    · exact ⟨led, hmem, 2, by decide, c2.1.symm, c2.2.symm⟩
    · exact ⟨led, hmem, 1, by decide, c1.1.symm, c1.2.symm⟩
    · exact ⟨led, hmem, 0, by decide, c0.1.symm, c0.2.symm⟩
    · exact hinv.2 d k v hbyte2 hne
  · unfold IS31FL3731_set_color at h
    simp only [hin, if_false, Option.some.injEq] at h
    subst h
    exact hinv

theorem set_color_all_invariant {leds : List is31_led} (hl : leds_valid leds) {r g b : Nat}
    {s s2 : State} (h : IS31FL3731_set_color_all leds r g b s = some s2)
    (hinv : pwm_invariant leds s) : pwm_invariant leds s2 := by
  unfold IS31FL3731_set_color_all at h
  exact for_each_rel (fun a c => pwm_invariant leds a → pwm_invariant leds c)
    (fun _ h => h) (fun _ _ _ h1 h2 h0 => h2 (h1 h0))
    (fun i a c hb => set_color_invariant hl hb) _ _ _ h hinv

theorem set_led_control_register_invariant {leds : List is31_led} (hl : leds_valid leds)
    {index : Nat} {red green blue : Bool} {s s2 : State}
    (h : IS31FL3731_set_led_control_register leds index red green blue s = some s2)
    (hinv : pwm_invariant leds s) : pwm_invariant leds s2 := by
  cases hled : leds[index]? with
  | none =>
    unfold IS31FL3731_set_led_control_register at h
    rw [hled] at h
    cases h
  | some led =>
    have hv : led.valid := hl.2 led (List.getElem?_mem hled)
    obtain ⟨regs, e, sh, _, _⟩ :=
      set_led_control_register_spec hled hv red green blue hinv.1.2.2
    rw [e] at h
    simp only [Option.some.injEq] at h
    subst h
    exact ⟨⟨hinv.1.1, hinv.1.2.1, sh⟩, hinv.2⟩

theorem run_call_invariant {leds : List is31_led} (hl : leds_valid leds) {bus : Bus}
    {fuel : Nat} {c : Call} {s s2 : State} (h : run_call leds bus fuel c s = some s2)
    (hinv : pwm_invariant leds s) : pwm_invariant leds s2 := by
  cases c with
  | init addr => exact pwm_invariant_of_same_buffers (init_same_buffers h) hinv
  | set_color index red green blue => exact set_color_invariant hl h hinv
  | set_color_all red green blue => exact set_color_all_invariant hl h hinv
  | set_led_control_register index red green blue =>
    exact set_led_control_register_invariant hl h hinv
  | update_pwm_buffers addr1 addr2 =>
    exact pwm_invariant_of_same_buffers (update_pwm_buffers_same_buffers h) hinv
  | update_led_control_registers addr1 addr2 =>
    exact pwm_invariant_of_same_buffers (update_led_control_registers_same_buffers h) hinv

theorem run_calls_invariant {leds : List is31_led} (hl : leds_valid leds) {bus : Bus}
    {fuel : Nat} : ∀ (calls : List Call) (s s2 : State),
      run_calls leds bus fuel calls s = some s2 → pwm_invariant leds s →
      pwm_invariant leds s2 := by
  intro calls
  induction calls with
  | nil =>
    intro s s2 h hinv
    simp only [run_calls, Option.some.injEq] at h
    subst h
    exact hinv
  | cons c rest ih =>
    intro s s2 h hinv
    simp only [run_calls] at h
    cases e : run_call leds bus fuel c s with
    | none => rw [e] at h; cases h
    | some s1 =>
      rw [e] at h
      exact ih s1 s2 h (run_call_invariant hl e hinv)

theorem reachable_invariant {leds : List is31_led} (hl : leds_valid leds) {bus : Bus}
    {fuel : Nat} {s : State} (h : Reachable leds bus fuel s) : pwm_invariant leds s := by
  obtain ⟨calls, hc⟩ := h
  exact run_calls_invariant hl calls _ _ hc (initial_pwm_invariant leds)

/-! ## Theorems: clearing all LEDs -/

theorem clear_loop_spec {leds : List is31_led} (hl : leds_valid leds) :
    ∀ (L : List Nat), (∀ i ∈ L, i < DRIVER_LED_TOTAL) → ∀ (s : State), s.WF →
    ∃ s1, for_each (fun i s => IS31FL3731_set_color leds (i : Int) 0 0 0 s) L s = some s1 ∧
      s1.WF ∧
      s1.g_pwm_buffer_update_required = (s.g_pwm_buffer_update_required || !L.isEmpty) ∧
      s1.wire = s.wire ∧
      ∀ d k, pwm_byte s1 d k = some 0 ∨
        (pwm_byte s1 d k = pwm_byte s d k ∧
          ¬ ∃ i ∈ L, ∃ led, leds[i]? = some led ∧
            ∃ c, c < 3 ∧ led.driver = d ∧ pwm_offset led c = k) := by
  intro L
  induction L with
  | nil =>
    intro _ s hs
    refine ⟨s, rfl, hs, by simp, rfl, ?_⟩
    intro d k
    right
    exact ⟨rfl, by simp⟩
  | cons i rest ih =>
    intro hL s hs
    have hi : i < DRIVER_LED_TOTAL := hL i (List.mem_cons_self _ _)
    have h0 : (0 : Int) ≤ (i : Int) := Int.ofNat_nonneg i
    have h1 : (i : Int) < (DRIVER_LED_TOTAL : Int) := Int.ofNat_lt.mpr hi
    obtain ⟨led, hled, hv⟩ := leds_valid_get hl h0 h1
    have hled2 : leds[i]? = some led := by simpa using hled
    obtain ⟨buf, e, sh, hget⟩ := set_color_spec h0 h1 hled hv 0 0 0 hs.2.1
    obtain ⟨s1, e1, wf1, f1, w1, b1⟩ :=
      ih (fun j hj => hL j (List.mem_cons_of_mem _ hj))
        { s with g_pwm_buffer := buf, g_pwm_buffer_update_required := true }
        ⟨hs.1, sh, hs.2.2⟩
    refine ⟨s1, ?_, wf1, ?_, w1, ?_⟩
    · simp only [for_each, e]
      exact e1
    · rw [f1]
      simp
    · intro d k
      rcases b1 d k with hz | ⟨hsame, hnot⟩
      · exact Or.inl hz
      · have hb : pwm_byte ({ s with
            g_pwm_buffer := buf, g_pwm_buffer_update_required := true } : State) d k
            = arr2_get buf d k := rfl
        rw [hb, hget] at hsame
        split_ifs at hsame with c2 c1 c0
        · exact Or.inl hsame
        · exact Or.inl hsame
        · exact Or.inl hsame
        · right
          refine ⟨hsame, ?_⟩
          rintro ⟨j, hj, ledj, hledj, c, hc, hdj, hkj⟩
          rcases List.mem_cons.mp hj with rfl | hj2
          · have hsame_led : ledj = led := Option.some.inj (hledj.symm.trans hled2)
            subst hsame_led
            interval_cases c
            · exact c0 ⟨hdj.symm, hkj.symm⟩
            · exact c1 ⟨hdj.symm, hkj.symm⟩
            · exact c2 ⟨hdj.symm, hkj.symm⟩
          · exact hnot ⟨j, hj2, ledj, hledj, c, hc, hdj, hkj⟩

theorem set_color_all_zero {leds : List is31_led} (hl : leds_valid leds) {s : State}
    (hinv : pwm_invariant leds s) :
    ∃ s1, IS31FL3731_set_color_all leds 0 0 0 s = some s1 ∧ s1.WF ∧
      s1.g_pwm_buffer_update_required = true ∧ s1.wire = s.wire ∧
      ∀ d < 2, ∀ k < 144, pwm_byte s1 d k = some 0 := by
  obtain ⟨s1, e1, wf1, f1, w1, b1⟩ := clear_loop_spec hl (List.range DRIVER_LED_TOTAL)
    (fun i hi => List.mem_range.mp hi) s hinv.1
  refine ⟨s1, e1, wf1, ?_, w1, ?_⟩
  · rw [f1]
    have : (List.range DRIVER_LED_TOTAL).isEmpty = false := by decide
    rw [this]
    simp
  · intro d hd k hk
    rcases b1 d k with hz | ⟨hsame, hnot⟩
    · exact hz
    · obtain ⟨v, hvv⟩ := arr2_get_some hinv.1.2.1 (show d < DRIVER_COUNT from hd) hk
      have hv2 : pwm_byte s d k = some v := hvv
      by_cases hzero : v = 0
      · rw [hsame, hv2, hzero]
      · exfalso
        obtain ⟨led, hmem, c, hc, hdd, hkk⟩ := hinv.2 d k v hv2 hzero
        obtain ⟨i, hi⟩ := List.mem_iff_getElem?.mp hmem
        have hlt : i < leds.length := by
          by_contra hcon
          rw [List.getElem?_eq_none (by omega)] at hi
          cases hi
        rw [hl.1] at hlt
        exact hnot ⟨i, List.mem_range.mpr hlt, led, hi, c, hc, hdd, hkk⟩

theorem rows_all_zero {s : State} (hs : s.WF)
    (hz : ∀ d < 2, ∀ k < 144, pwm_byte s d k = some 0) :
    s.g_pwm_buffer = [List.replicate 144 0, List.replicate 144 0] := by
  obtain ⟨b0, b1, hb, l0, l1⟩ := pwm_rows hs
  have row_zero : ∀ (b : List Nat), b.length = 144 → (∀ k < 144, b[k]? = some 0) →
      b = List.replicate 144 0 := by
    intro b hlen hk
    rw [List.eq_replicate_iff]
    refine ⟨hlen, ?_⟩
    intro x hx
    obtain ⟨n, hn⟩ := List.mem_iff_getElem?.mp hx
    have hlt : n < b.length := by
      by_contra hcon
      rw [List.getElem?_eq_none (by omega)] at hn
      cases hn
    rw [hk n (by omega)] at hn
    exact (Option.some.inj hn).symm
  have z0 : ∀ k < 144, b0[k]? = some 0 := by
    intro k hk
    have := hz 0 (by decide) k hk
    unfold pwm_byte at this
    rw [hb] at this
    exact this
  have z1 : ∀ k < 144, b1[k]? = some 0 := by
    intro k hk
    have := hz 1 (by decide) k hk
    unfold pwm_byte at this
    rw [hb] at this
    exact this
  rw [hb, row_zero b0 l0 z0, row_zero b1 l1 z1]

theorem zero_frames_payload (addr : Nat) :
    ∀ f ∈ pwm_frames addr (List.replicate 144 0), f.length = 18 ∧ ∀ x ∈ f.drop 2, x = 0 := by
  intro f hf
  refine ⟨pwm_frame_length addr (List.length_replicate 144 0) f hf, ?_⟩
  simp only [pwm_frames, List.mem_map] at hf
  obtain ⟨n, _, rfl⟩ := hf
  intro x hx
  have hx2 : x ∈ ((List.replicate 144 0).drop (16 * n)).take 16 := hx
  exact List.eq_of_mem_replicate (List.mem_of_mem_drop (List.mem_of_mem_take hx2))

/-- C10: on a board with a valid table, in any state `s` the driver can be in (reached
from the zero-initialised state at program start by any sequence of API calls, on any
bus), `IS31FL3731_set_color_all(0, 0, 0)` followed by `IS31FL3731_update_pwm_buffers`, with
a bus that reports completion at the first attempt, returns; afterwards each of the 144
PWM shadow bytes of both chips is 0, and the call has emitted the two bulk transfers,
9 chunks of 18 bytes to `addr1` then 9 to `addr2`, all of whose data bytes are 0. -/
theorem C10_set_color_all_zero_flush (leds : List is31_led) (bus0 : Bus) (fuel0 : Nat)
    (s : State) (bus : Bus) (fuel addr1 addr2 : Nat)
    (hl : leds_valid leds) (hreach : Reachable leds bus0 fuel0 s)
    (hbus : bus.succeeds) (hfuel : 1 ≤ fuel) :
    ∃ s1 s2,
      IS31FL3731_set_color_all leds 0 0 0 s = some s1 ∧
      IS31FL3731_update_pwm_buffers bus fuel addr1 addr2 s1 = some s2 ∧
      s2.g_pwm_buffer = [List.replicate 144 0, List.replicate 144 0] ∧
      (∀ d < 2, ∀ k < 144, pwm_byte s2 d k = some 0) ∧
      s2.wire = s.wire ++ (pwm_frames addr1 (List.replicate 144 0) ++
        pwm_frames addr2 (List.replicate 144 0)) ∧
      (s2.wire.drop s.wire.length).length = 18 ∧
      (∀ f ∈ s2.wire.drop s.wire.length, f.length = 18 ∧ ∀ x ∈ f.drop 2, x = 0) := by
  have hinv := reachable_invariant hl hreach
  obtain ⟨s1, e1, wf1, f1, w1, z1⟩ := set_color_all_zero hl hinv
  have hrows := rows_all_zero wf1 z1
  obtain ⟨b0, b1, s2, hb, _, _, e2, w2, p2, _⟩ :=
    update_pwm_buffers_dirty hbus hfuel addr1 addr2 wf1 f1
  rw [hrows] at hb
  simp only [List.cons.injEq, and_true] at hb
  obtain ⟨rfl, rfl⟩ := hb
  have hw : s2.wire = s.wire ++ (pwm_frames addr1 (List.replicate 144 0) ++
      pwm_frames addr2 (List.replicate 144 0)) := by
    rw [w2, w1, List.append_assoc]
  have hdrop : s2.wire.drop s.wire.length = pwm_frames addr1 (List.replicate 144 0) ++
      pwm_frames addr2 (List.replicate 144 0) := by
    rw [hw, List.drop_left]
  refine ⟨s1, s2, e1, e2, p2.trans hrows, ?_, hw, ?_, ?_⟩
  · intro d hd k hk
    have := z1 d hd k hk
    unfold pwm_byte at this ⊢
    rw [p2]
    exact this
  · rw [hdrop, List.length_append, pwm_frames_length, pwm_frames_length]
  · intro f hf
    rw [hdrop] at hf
    rcases List.mem_append.mp hf with h | h
    · exact zero_frames_payload addr1 f h
    · exact zero_frames_payload addr2 f h

/-- Witness of C10: on the example board, a state reached by lighting LED 0, in which
PWM shadow bytes are not 0. -/
theorem C10_set_color_all_zero_flush_witness :
    leds_valid example_leds ∧ good_bus.succeeds ∧ 1 ≤ 1 ∧
    ∃ s, Reachable example_leds dead_bus 0 s ∧ pwm_byte s 0 0x10 = some 255 ∧
      ∃ s1 s2,
        IS31FL3731_set_color_all example_leds 0 0 0 s = some s1 ∧
        IS31FL3731_update_pwm_buffers good_bus 1 DRIVER_ADDR_1 DRIVER_ADDR_2 s1 = some s2 ∧
        s2.g_pwm_buffer = [List.replicate 144 0, List.replicate 144 0] ∧
        (s2.wire.drop s.wire.length).length = 18 := by
  obtain ⟨a0, a1, a2, s, e0, _, _, _, _, _, es, hr, _⟩ :
      ∃ a0 a1 a2 s,
        pgm_read_map 0 0 0 = some a0 ∧ pgm_read_map 0 0 1 = some a1 ∧
        pgm_read_map 0 0 2 = some a2 ∧ 0x24 ≤ a0 ∧ 0x24 ≤ a1 ∧ 0x24 ≤ a2 ∧
        IS31FL3731_set_color example_leds 0 255 254 253 initial_state = some s ∧
        pwm_byte s 0 (a0 - 0x24) = some 255 ∧ True := by
    obtain ⟨buf, e, _, hget⟩ := set_color_spec
      (show (0 : Int) ≤ 0 by decide) (show (0 : Int) < (DRIVER_LED_TOTAL : Int) by decide)
      (show example_leds[(0 : Int).toNat]? = some ⟨0, 0, 0, 0, 0, ⟨0, 0⟩⟩ by decide)
      (show is31_led.valid ⟨0, 0, 0, 0, 0, ⟨0, 0⟩⟩ by decide)
      255 254 253 initial_state_WF.2.1
    refine ⟨0x34, 0x44, 0x54, _, by decide, by decide, by decide, by decide, by decide,
      by decide, e, ?_, trivial⟩
    show arr2_get buf 0 (0x34 - 0x24) = _
    rw [hget]
    decide
  have ha : a0 = 0x34 := by
    have : pgm_read_map 0 0 0 = some 0x34 := by decide
    exact Option.some.inj (e0.symm.trans this)
  subst ha
  have hreach : Reachable example_leds dead_bus 0 s :=
    ⟨[Call.set_color 0 255 254 253], by simp only [run_calls, run_call, es]⟩
  obtain ⟨s1, s2, e1, e2, hz, _, _, hlen, _⟩ :=
    C10_set_color_all_zero_flush example_leds dead_bus 0 s good_bus 1 DRIVER_ADDR_1
      DRIVER_ADDR_2 example_leds_valid hreach good_bus_succeeds (Nat.le_refl 1)
  exact ⟨example_leds_valid, good_bus_succeeds, Nat.le_refl 1, s, hreach, hr, s1, s2, e1, e2,
    hz, hlen⟩

/-! ## Theorems: single-register writes -/

theorem fill_register_frame_spec (addr reg data : Nat) {s : State}
    (ht : s.g_twi_transfer_buffer.length = TXMAXBUFLEN) :
    ∃ t, fill_register_frame addr reg data s = some { s with g_twi_transfer_buffer := t } ∧
      t.length = TXMAXBUFLEN ∧ t.take 3 = [(addr <<< 1) % 256, reg, data] := by
  match htb : s.g_twi_transfer_buffer with
  | [] => rw [htb] at ht; cases ht
  | [_] => rw [htb] at ht; cases ht
  | [_, _] => rw [htb] at ht; cases ht
  | x0 :: x1 :: x2 :: rest =>
    refine ⟨(addr <<< 1) % 256 :: reg :: data :: rest, ?_, ?_, rfl⟩
    · simp [fill_register_frame, arr_set, htb]
    · rw [htb] at ht
      simpa using ht

theorem write_register_spec (bus : Bus) (addr reg data : Nat) {s : State}
    (ht : s.g_twi_transfer_buffer.length = TXMAXBUFLEN) :
    ∃ s2, IS31FL3731_write_register bus addr reg data s = some s2 ∧
      s2.wire = s.wire ++ [register_frame addr (reg, data)] ∧
      same_shadow s s2 ∧ s2.g_twi_transfer_buffer.length = TXMAXBUFLEN := by
  obtain ⟨t, e, hl, hf⟩ := fill_register_frame_spec addr reg data ht
  refine ⟨TWITransmitData bus 3
    { s with g_twi_transfer_buffer := t, errorCode := TWI_NO_RELEVANT_INFO }, ?_, ?_,
    ⟨rfl, rfl, rfl, rfl⟩, hl⟩
  · simp only [IS31FL3731_write_register, e]
  · simp only [TWITransmitData, hf, register_frame]

theorem write_register_3733_eq :
    IS31FL3733_write_register = IS31FL3731_write_register := rfl

/-- C11: on a state whose transfer buffer has its declared size, for every address,
register and data byte and every bus, `IS31FL3731_write_register` and
`IS31FL3733_write_register` each return and hand the bus primitive exactly one frame, of
the 3 bytes (addr << 1) mod 256, reg, data; bit 0 of the first byte is clear; and for a
7-bit address (below 128) the first byte shifted right by one is the address. -/
theorem C11_write_register_frame (bus : Bus) (addr reg data : Nat) (s : State) (hs : s.WF) :
    (∃ s2, IS31FL3731_write_register bus addr reg data s = some s2 ∧
      s2.wire = s.wire ++ [[(addr <<< 1) % 256, reg, data]]) ∧
    (∃ s3, IS31FL3733_write_register bus addr reg data s = some s3 ∧
      s3.wire = s.wire ++ [[(addr <<< 1) % 256, reg, data]]) ∧
    [(addr <<< 1) % 256, reg, data].length = 3 ∧
    ((addr <<< 1) % 256).testBit 0 = false ∧
    (addr < 128 → ((addr <<< 1) % 256) >>> 1 = addr) := by
  obtain ⟨s2, e, w, _, _⟩ := write_register_spec bus addr reg data hs.1
  refine ⟨⟨s2, e, w⟩, ⟨s2, by rw [write_register_3733_eq]; exact e, w⟩, rfl, ?_, ?_⟩
  · rw [Nat.testBit_zero, Nat.shiftLeft_eq]
    simp only [pow_one, decide_eq_false_iff_not]
    omega
  · intro h
    rw [Nat.shiftLeft_eq, Nat.shiftRight_eq_div_pow]
    simp only [pow_one]
    omega

/-- Witness of C11: the write 0x0A <- 0x01 to the chip at `DRIVER_ADDR_1`, from the state
at program start, on a bus that never reports completion. -/
theorem C11_write_register_frame_witness :
    initial_state.WF ∧
    (∃ s2, IS31FL3731_write_register dead_bus DRIVER_ADDR_1 0x0A 0x01 initial_state = some s2 ∧
      s2.wire = [[0xE8, 0x0A, 0x01]]) ∧
    (∃ s3, IS31FL3733_write_register dead_bus DRIVER_ADDR_1 0x0A 0x01 initial_state = some s3 ∧
      s3.wire = [[0xE8, 0x0A, 0x01]]) ∧
    (DRIVER_ADDR_1 < 128 → ((DRIVER_ADDR_1 <<< 1) % 256) >>> 1 = DRIVER_ADDR_1) :=
  ⟨initial_state_WF,
    (C11_write_register_frame dead_bus DRIVER_ADDR_1 0x0A 0x01 initial_state
      initial_state_WF).1,
    (C11_write_register_frame dead_bus DRIVER_ADDR_1 0x0A 0x01 initial_state
      initial_state_WF).2.1,
    (C11_write_register_frame dead_bus DRIVER_ADDR_1 0x0A 0x01 initial_state
      initial_state_WF).2.2.2.2⟩

/-! ## Theorems: the initialisation sequences -/

theorem emits_write (bus : Bus) (addr reg data : Nat) :
    emits_writes addr (IS31FL3731_write_register bus addr reg data) [(reg, data)] := by
  intro s ht
  obtain ⟨s2, e, w, sh, l⟩ := write_register_spec bus addr reg data ht
  exact ⟨s2, e, w, sh, l⟩

theorem same_shadow_trans {s s2 s3 : State} (h1 : same_shadow s s2) (h2 : same_shadow s2 s3) :
    same_shadow s s3 :=
  ⟨h2.1.trans h1.1, h2.2.1.trans h1.2.1, h2.2.2.1.trans h1.2.2.1, h2.2.2.2.trans h1.2.2.2⟩

theorem emits_bind {addr : Nat} {f g : State → Option State} {ws1 ws2 : List (Nat × Nat)}
    (hf : emits_writes addr f ws1) (hg : emits_writes addr g ws2) :
    emits_writes addr (fun s => (f s).bind g) (ws1 ++ ws2) := by
  intro s ht
  obtain ⟨s1, e1, w1, sh1, l1⟩ := hf s ht
  obtain ⟨s2, e2, w2, sh2, l2⟩ := hg s1 l1
  refine ⟨s2, ?_, ?_, same_shadow_trans sh1 sh2, l2⟩
  · simp only [e1, Option.some_bind, e2]
  · rw [w2, w1, List.map_append, List.append_assoc]

theorem emits_for_each (bus : Bus) (addr : Nat) (L : List Nat) :
    emits_writes addr (for_each (fun i s => IS31FL3731_write_register bus addr i 0x00 s) L)
      (L.map (fun i => (i, 0x00))) := by
  induction L with
  | nil =>
    intro s ht
    exact ⟨s, rfl, by simp, ⟨rfl, rfl, rfl, rfl⟩, ht⟩
  | cons i rest ih =>
    intro s ht
    obtain ⟨s1, e1, w1, sh1, l1⟩ := write_register_spec bus addr i 0x00 ht
    obtain ⟨s2, e2, w2, sh2, l2⟩ := ih s1 l1
    refine ⟨s2, ?_, ?_, same_shadow_trans sh1 sh2, l2⟩
    · simp only [for_each, e1]
      exact e2
    · rw [w2, w1]
      simp

theorem init_3731_emits (bus : Bus) (addr : Nat) :
    emits_writes addr (IS31FL3731_init bus addr) IS31FL3731_init_writes := by
  have h := emits_bind (emits_write bus addr ISSI_COMMANDREGISTER ISSI_BANK_FUNCTIONREG)
    (emits_bind (emits_write bus addr ISSI_REG_SHUTDOWN 0x00)
    (emits_bind (emits_write bus addr ISSI_REG_CONFIG ISSI_REG_CONFIG_PICTUREMODE)
    (emits_bind (emits_write bus addr ISSI_REG_PICTUREFRAME 0x00)
    (emits_bind (emits_write bus addr ISSI_REG_AUDIOSYNC 0x00)
    (emits_bind (emits_write bus addr ISSI_COMMANDREGISTER 0)
    (emits_bind (emits_for_each bus addr (List.range' 0x00 (0x11 + 1 - 0x00)))
    (emits_bind (emits_for_each bus addr (List.range' 0x12 (0x23 + 1 - 0x12)))
    (emits_bind (emits_for_each bus addr (List.range' 0x24 (0xB3 + 1 - 0x24)))
    (emits_bind (emits_write bus addr ISSI_COMMANDREGISTER ISSI_BANK_FUNCTIONREG)
    (emits_bind (emits_write bus addr ISSI_REG_SHUTDOWN 0x01)
      (emits_write bus addr ISSI_COMMANDREGISTER 0)))))))))))
  intro s ht
  obtain ⟨s2, e, w, sh, l⟩ := h s ht
  refine ⟨s2, e, ?_, sh, l⟩
  rw [w]
  simp [IS31FL3731_init_writes, ISSI_COMMANDREGISTER, ISSI_BANK_FUNCTIONREG, ISSI_REG_SHUTDOWN,
    ISSI_REG_CONFIG, ISSI_REG_CONFIG_PICTUREMODE, ISSI_REG_PICTUREFRAME, ISSI_REG_AUDIOSYNC]

theorem init_3733_emits (bus : Bus) (addr : Nat) :
    emits_writes addr (IS31FL3733_init bus addr) IS31FL3733_init_writes := by
  have h := emits_bind
    (emits_write bus addr ISSI_COMMAND_REGISTER_LOCK ISSI_COMMAND_REGISTER_WRITE_ONCE)
    (emits_bind (emits_write bus addr ISSI_COMMAND_REGISTER ISSI_FUNCTION_REGISTER)
    (emits_bind (emits_write bus addr ISSI_CONFIGURATION_REGISTER ISSI_SSD_MODE)
    (emits_bind (emits_write bus addr ISSI_COMMAND_REGISTER ISSI_CONTROL_REGISTER)
    (emits_bind (emits_for_each bus addr (List.range' 0x00 (0x17 + 1 - 0x00)))
    (emits_bind (emits_write bus addr ISSI_COMMAND_REGISTER ISSI_PWM_REGISTER)
    (emits_bind (emits_for_each bus addr (List.range' 0x00 (0xBF + 1 - 0x00)))
    (emits_bind (emits_write bus addr ISSI_COMMAND_REGISTER ISSI_FUNCTION_REGISTER)
    (emits_bind (emits_write bus addr ISSI_CONFIGURATION_REGISTER
        (ISSI_NORMAL_OP ||| ISSI_PWM_MODE))
      (emits_write bus addr ISSI_COMMAND_REGISTER ISSI_PWM_REGISTER)))))))))
  intro s ht
  obtain ⟨s2, e, w, sh, l⟩ := h s ht
  refine ⟨s2, e, ?_, sh, l⟩
  rw [w]
  simp [IS31FL3733_init_writes, ISSI_COMMAND_REGISTER_LOCK, ISSI_COMMAND_REGISTER_WRITE_ONCE,
    ISSI_COMMAND_REGISTER, ISSI_FUNCTION_REGISTER, ISSI_CONFIGURATION_REGISTER, ISSI_SSD_MODE,
    ISSI_CONTROL_REGISTER, ISSI_PWM_REGISTER, ISSI_NORMAL_OP, ISSI_PWM_MODE]

set_option maxRecDepth 100000

theorem init_3731_writes_length : IS31FL3731_init_writes.length = 189 := by
  decide

theorem init_3731_clears : ∀ r < 0xB4,
    IS31FL3731_init_writes[6 + r]? = some (r, 0x00) ∧
    selected_page (IS31FL3731_init_writes.take (6 + r)) = some 0x00 := by
  have key : (List.range 0xB4).all (fun r =>
      decide (IS31FL3731_init_writes[6 + r]? = some (r, 0x00)) &&
      decide (selected_page (IS31FL3731_init_writes.take (6 + r)) = some 0x00)) = true := by
    decide
  intro r hr
  have := all_range key r hr
  simpa using this

theorem init_3731_bank0_zero : ∀ k w, IS31FL3731_init_writes[k]? = some w →
    selected_page (IS31FL3731_init_writes.take k) = some 0x00 → w.1 ≠ 0xFD → w.2 = 0 := by
  have key : (List.range 189).all (fun k =>
      match IS31FL3731_init_writes[k]? with
      | some w =>
        !decide (selected_page (IS31FL3731_init_writes.take k) = some 0x00) ||
          decide (w.1 = 0xFD) || decide (w.2 = 0)
      | none => true) = true := by
    decide
  intro k w hw hp hne
  have hk : k < 189 := by
    by_contra hcon
    rw [List.getElem?_eq_none (by rw [init_3731_writes_length]; omega)] at hw
    cases hw
  have := all_range key k hk
  simp only [hw, hp, decide_True, Bool.not_true, Bool.false_or, Bool.or_eq_true,
    decide_eq_true_eq] at this
  rcases this with h | h
  · exact absurd h hne
  · exact h

theorem init_3731_one_shutdown_disable : ∀ k,
    IS31FL3731_init_writes[k]? = some (0x0A, 0x01) → k = 187 := by
  have key : (List.range 189).all (fun k =>
      !decide (IS31FL3731_init_writes[k]? = some (0x0A, 0x01)) || decide (k = 187)) = true := by
    decide
  intro k hw
  have hk : k < 189 := by
    by_contra hcon
    rw [List.getElem?_eq_none (by rw [init_3731_writes_length]; omega)] at hw
    cases hw
  have := all_range key k hk
  simpa [hw] using this

/-- C14: on a state whose arrays have their declared sizes and on any bus,
`IS31FL3731_init(addr)` returns, leaves the shadow state alone and emits exactly the 189
single-register frames, all to `addr`, of the writes `IS31FL3731_init_writes`:
write 0 selects the function bank (0xFD <- 0x0B), write 1 forces shutdown (0x0A <- 0x00),
writes 2, 3, 4 set picture mode, frame 0 and audio sync off with the function bank
selected, write 5 selects bank 0; every register r = 0x00..0xB3 is written with 0x00 (as
write 6 + r, with bank 0 selected), after the shutdown-enable write and before write 187,
the one and only write 0x0A <- 0x01, issued with the function bank selected (write 186);
every write to a register of bank 0 carries the value 0; the last write (188) selects
bank 0. -/
theorem C14_init_3731_power_up_order (bus : Bus) (addr : Nat) (s : State) (hs : s.WF) :
    ∃ s2,
      IS31FL3731_init bus addr s = some s2 ∧
      s2.wire = s.wire ++
        IS31FL3731_init_writes.map (fun w => [(addr <<< 1) % 256, w.1, w.2]) ∧
      same_shadow s s2 ∧
      IS31FL3731_init_writes.length = 189 ∧
      IS31FL3731_init_writes[0]? = some (0xFD, 0x0B) ∧
      IS31FL3731_init_writes[1]? = some (0x0A, 0x00) ∧
      IS31FL3731_init_writes[2]? = some (0x00, 0x00) ∧
      IS31FL3731_init_writes[3]? = some (0x01, 0x00) ∧
      IS31FL3731_init_writes[4]? = some (0x06, 0x00) ∧
      selected_page (IS31FL3731_init_writes.take 5) = some 0x0B ∧
      IS31FL3731_init_writes[5]? = some (0xFD, 0x00) ∧
      (∀ r < 0xB4, IS31FL3731_init_writes[6 + r]? = some (r, 0x00) ∧
        selected_page (IS31FL3731_init_writes.take (6 + r)) = some 0x00 ∧
        1 < 6 + r ∧ 6 + r < 187) ∧
      IS31FL3731_init_writes[186]? = some (0xFD, 0x0B) ∧
      IS31FL3731_init_writes[187]? = some (0x0A, 0x01) ∧
      selected_page (IS31FL3731_init_writes.take 187) = some 0x0B ∧
      (∀ k, IS31FL3731_init_writes[k]? = some (0x0A, 0x01) → k = 187) ∧
      (∀ k w, IS31FL3731_init_writes[k]? = some w →
        selected_page (IS31FL3731_init_writes.take k) = some 0x00 → w.1 ≠ 0xFD → w.2 = 0) ∧
      IS31FL3731_init_writes[188]? = some (0xFD, 0x00) ∧
      IS31FL3731_init_writes.getLast? = some (0xFD, 0x00) := by
  obtain ⟨s2, e, w, sh, _⟩ := init_3731_emits bus addr s hs.1
  refine ⟨s2, e, w, sh, init_3731_writes_length, by decide, by decide, by decide, by decide,
    by decide, by decide, by decide, ?_, by decide, by decide, by decide,
    init_3731_one_shutdown_disable, init_3731_bank0_zero, by decide, by decide⟩
  intro r hr
  obtain ⟨h1, h2⟩ := init_3731_clears r hr
  exact ⟨h1, h2, by omega, by omega⟩

/-- Witness of C14: the chip at `DRIVER_ADDR_1`, from the state at program start, on a bus
that never reports completion. -/
theorem C14_init_3731_power_up_order_witness :
    initial_state.WF ∧
    ∃ s2, IS31FL3731_init dead_bus DRIVER_ADDR_1 initial_state = some s2 ∧
      s2.wire.length = 189 ∧ s2.wire[0]? = some [0xE8, 0xFD, 0x0B] ∧
      s2.wire[188]? = some [0xE8, 0xFD, 0x00] := by
  obtain ⟨s2, e, w, _⟩ :=
    C14_init_3731_power_up_order dead_bus DRIVER_ADDR_1 initial_state initial_state_WF
  refine ⟨initial_state_WF, s2, e, ?_, ?_, ?_⟩
  · rw [w]
    simp [initial_state, init_3731_writes_length]
  · rw [w]
    decide
  · rw [w]
    decide

/-! ## Theorems: the control dirty flag -/

theorem for_each_flag_kept {body : Nat → State → Option State}
    (hbody : ∀ i s s2, body i s = some s2 → control_flag_kept s s2) :
    ∀ (l : List Nat) (s s2 : State), for_each body l s = some s2 → control_flag_kept s s2 :=
  for_each_rel control_flag_kept (fun _ => rfl) (fun _ _ _ h1 h2 => h2.trans h1) hbody

theorem write_register_flag_kept {bus : Bus} {addr reg data : Nat} {s s2 : State}
    (h : IS31FL3731_write_register bus addr reg data s = some s2) :
    control_flag_kept s s2 := by
  unfold IS31FL3731_write_register fill_register_frame at h
  cases e0 : arr_set s.g_twi_transfer_buffer 0 (((addr <<< 1) ||| 0x00) % 256) with
  | none => rw [e0] at h; cases h
  | some t0 =>
    rw [e0] at h
    cases e1 : arr_set t0 1 reg with
    | none => simp only [e1] at h; cases h
    | some t1 =>
      simp only [e1] at h
      cases e2 : arr_set t1 2 data with
      | none => simp only [e2] at h; cases h
      | some t2 =>
        simp only [e2, Option.some.injEq] at h
        subst h
        rfl

theorem bind_flag_kept {f : State → Option State} {g : State → Option State}
    (hf : ∀ s s2, f s = some s2 → control_flag_kept s s2)
    (hg : ∀ s s2, g s = some s2 → control_flag_kept s s2) :
    ∀ s s2, (f s).bind g = some s2 → control_flag_kept s s2 := by
  intro s s2 h
  cases e : f s with
  | none => rw [e] at h; cases h
  | some s1 =>
    rw [e] at h
    exact (hg s1 s2 h).trans (hf s s1 e)

theorem init_flag_kept {bus : Bus} {addr : Nat} {s s2 : State}
    (h : IS31FL3731_init bus addr s = some s2) : control_flag_kept s s2 := by
  have w : ∀ reg data s s2, IS31FL3731_write_register bus addr reg data s = some s2 →
      control_flag_kept s s2 := fun _ _ _ _ h => write_register_flag_kept h
  have l : ∀ (rs : List Nat) s s2,
      for_each (fun i s => IS31FL3731_write_register bus addr i 0x00 s) rs s = some s2 →
      control_flag_kept s s2 :=
    for_each_flag_kept (fun i s s2 h => write_register_flag_kept h)
  unfold IS31FL3731_init at h
  simp only [bind, pure] at h
  revert h
  generalize s = sa
  revert sa s2
  intro s2 sa
  exact bind_flag_kept (w _ _) (bind_flag_kept (w _ _) (bind_flag_kept (w _ _)
    (bind_flag_kept (w _ _) (bind_flag_kept (w _ _) (bind_flag_kept (w _ _)
    (bind_flag_kept (l _) (bind_flag_kept (l _) (bind_flag_kept (l _)
    (bind_flag_kept (w _ _) (bind_flag_kept (w _ _) (w _ _))))))))))) sa s2

theorem transmit_until_done_flag_kept {bus : Bus} {len : Nat} :
    ∀ (fuel : Nat) (s s2 : State), transmit_until_done bus len fuel s = some s2 →
      control_flag_kept s s2 := by
  intro fuel
  induction fuel with
  | zero =>
    intro s s2 h
    unfold transmit_until_done at h
    split_ifs at h
    simp only [Option.some.injEq] at h
    subst h
    rfl
  | succ f ih =>
    intro s s2 h
    unfold transmit_until_done at h
    split_ifs at h
    · simp only [Option.some.injEq] at h
      subst h
      rfl
    · have h2 : transmit_until_done bus len f (TWITransmitData bus len s) = some s2 := h
      have k := ih _ _ h2
      exact k

theorem write_pwm_chunk_flag_kept {bus : Bus} {fuel : Nat} {buf : List Nat} {i : Nat}
    {s s2 : State} (h : write_pwm_chunk bus fuel buf i s = some s2) :
    control_flag_kept s s2 := by
  unfold write_pwm_chunk at h
  cases e1 : arr_set s.g_twi_transfer_buffer 1 ((0x24 + i) % 256) with
  | none => rw [e1] at h; cases h
  | some t1 =>
    rw [e1] at h
    cases e2 : copy_chunk buf i t1 with
    | none => simp only [e2] at h; cases h
    | some t2 =>
      simp only [e2] at h
      have k := transmit_until_done_flag_kept _ _ _ h
      exact k

theorem write_pwm_buffer_flag_kept {bus : Bus} {fuel addr : Nat} {buf : List Nat}
    {s s2 : State} (h : IS31FL3731_write_pwm_buffer bus fuel addr buf s = some s2) :
    control_flag_kept s s2 := by
  unfold IS31FL3731_write_pwm_buffer at h
  cases e0 : arr_set s.g_twi_transfer_buffer 0 (((addr <<< 1) ||| 0x00) % 256) with
  | none => rw [e0] at h; cases h
  | some t0 =>
    simp only [e0] at h
    have k := for_each_flag_kept
      (fun i s s2 (h : write_pwm_chunk bus fuel buf i s = some s2) =>
        write_pwm_chunk_flag_kept h) _ _ _ h
    exact k

theorem update_pwm_buffers_flag_kept {bus : Bus} {fuel addr1 addr2 : Nat} {s s2 : State}
    (h : IS31FL3731_update_pwm_buffers bus fuel addr1 addr2 s = some s2) :
    control_flag_kept s s2 := by
  unfold IS31FL3731_update_pwm_buffers at h
  split_ifs at h
  · cases e0 : s.g_pwm_buffer[0]? with
    | none => rw [e0] at h; cases h
    | some b0 =>
      rw [e0] at h
      cases e1 : IS31FL3731_write_pwm_buffer bus fuel addr1 b0 s with
      | none => simp only [e1] at h; cases h
      | some s1 =>
        simp only [e1] at h
        cases e2 : s1.g_pwm_buffer[1]? with
        | none => simp only [e2] at h; cases h
        | some b1 =>
          simp only [e2] at h
          cases e3 : IS31FL3731_write_pwm_buffer bus fuel addr2 b1 s1 with
          | none => simp only [e3] at h; cases h
          | some s3 =>
            simp only [e3, Option.some.injEq] at h
            subst h
            exact (write_pwm_buffer_flag_kept e3).trans (write_pwm_buffer_flag_kept e1)
  · simp only [Option.some.injEq] at h
    subst h
    rfl

theorem update_led_control_registers_flag_kept {bus : Bus} {addr1 addr2 : Nat}
    {s s2 : State} (h : IS31FL3731_update_led_control_registers bus addr1 addr2 s = some s2) :
    control_flag_kept s s2 := by
  unfold IS31FL3731_update_led_control_registers at h
  split_ifs at h
  · refine for_each_flag_kept ?_ _ _ _ h
    intro i s s2 hb
    unfold update_led_control_step at hb
    cases e0 : arr2_get s.g_led_control_registers 0 i with
    | none => rw [e0] at hb; cases hb
    | some v0 =>
      rw [e0] at hb
      cases e1 : IS31FL3731_write_register bus addr1 i v0 s with
      | none => simp only [e1] at hb; cases hb
      | some s1 =>
        simp only [e1] at hb
        cases e2 : arr2_get s1.g_led_control_registers 1 i with
        | none => simp only [e2] at hb; cases hb
        | some v1 =>
          simp only [e2] at hb
          exact (write_register_flag_kept hb).trans (write_register_flag_kept e1)
  · simp only [Option.some.injEq] at h
    subst h
    rfl

theorem set_color_flag_kept {leds : List is31_led} {index : Int} {r g b : Nat}
    {s s2 : State} (h : IS31FL3731_set_color leds index r g b s = some s2) :
    control_flag_kept s s2 := by
  unfold IS31FL3731_set_color at h
  split_ifs at h
  · cases hled : leds[index.toNat]? with
    | none => rw [hled] at h; cases h
    | some led =>
      simp only [hled] at h
      cases e0 : store_pwm led 0 r s with
      | none => rw [e0] at h; cases h
      | some s_r =>
        simp only [e0] at h
        cases e1 : store_pwm led 1 g s_r with
        | none => rw [e1] at h; cases h
        | some s_g =>
          simp only [e1] at h
          cases e2 : store_pwm led 2 b s_g with
          | none => rw [e2] at h; cases h
          | some s_b =>
            simp only [e2, Option.some.injEq] at h
            obtain ⟨_, _, _, _, _, _, rfl⟩ := store_pwm_inv e0
            obtain ⟨_, _, _, _, _, _, rfl⟩ := store_pwm_inv e1
            obtain ⟨_, _, _, _, _, _, rfl⟩ := store_pwm_inv e2
            subst h
            rfl
  · simp only [Option.some.injEq] at h
    subst h
    rfl

theorem set_led_control_register_sets_flag {leds : List is31_led} {index : Nat}
    {red green blue : Bool} {s s2 : State}
    (h : IS31FL3731_set_led_control_register leds index red green blue s = some s2) :
    s2.g_led_control_registers_update_required = true := by
  unfold IS31FL3731_set_led_control_register at h
  cases hled : leds[index]? with
  | none => rw [hled] at h; cases h
  | some led =>
    simp only [hled] at h
    cases hbm : g_led_control_bitmask[led.control_index]? with
    | none => rw [hbm] at h; cases h
    | some bm =>
      simp only [hbm] at h
      cases e0 : update_control_bit led.driver (bm.red_register + led.matrix) bm.red_bit red s with
      | none => rw [e0] at h; cases h
      | some s_r =>
        simp only [e0] at h
        cases e1 : update_control_bit led.driver (bm.green_register + led.matrix) bm.green_bit
            green s_r with
        | none => rw [e1] at h; cases h
        | some s_g =>
          simp only [e1] at h
          cases e2 : update_control_bit led.driver (bm.blue_register + led.matrix) bm.blue_bit
              blue s_g with
          | none => rw [e2] at h; cases h
          | some s_b =>
            simp only [e2, Option.some.injEq] at h
            subst h
            rfl

theorem run_call_flag_stays {leds : List is31_led} {bus : Bus} {fuel : Nat} {c : Call}
    {s s2 : State} (h : run_call leds bus fuel c s = some s2)
    (hf : s.g_led_control_registers_update_required = true) :
    s2.g_led_control_registers_update_required = true := by
  cases c with
  | init addr => exact (init_flag_kept h).trans hf
  | set_color index red green blue => exact (set_color_flag_kept h).trans hf
  | set_color_all red green blue =>
    exact (for_each_flag_kept (fun i s s2 hb => set_color_flag_kept hb) _ _ _ h).trans hf
  | set_led_control_register index red green blue =>
    exact set_led_control_register_sets_flag h
  | update_pwm_buffers addr1 addr2 => exact (update_pwm_buffers_flag_kept h).trans hf
  | update_led_control_registers addr1 addr2 =>
    exact (update_led_control_registers_flag_kept h).trans hf

theorem run_calls_flag_stays {leds : List is31_led} {bus : Bus} {fuel : Nat} :
    ∀ (calls : List Call) (s s2 : State), run_calls leds bus fuel calls s = some s2 →
      s.g_led_control_registers_update_required = true →
      s2.g_led_control_registers_update_required = true := by
  intro calls
  induction calls with
  | nil =>
    intro s s2 h hf
    simp only [run_calls, Option.some.injEq] at h
    subst h
    exact hf
  | cons c rest ih =>
    intro s s2 h hf
    simp only [run_calls] at h
    cases e : run_call leds bus fuel c s with
    | none => rw [e] at h; cases h
    | some s1 =>
      rw [e] at h
      exact ih s1 s2 h (run_call_flag_stays e hf)

/-! ## Theorems: flushing the control registers -/

theorem control_rows {s : State} (hs : s.WF) :
    ∃ c0 c1, s.g_led_control_registers = [c0, c1] ∧ c0.length = 18 ∧ c1.length = 18 := by
  have h := hs.2.2
  match hb : s.g_led_control_registers with
  | [] => rw [hb] at h; simp [DRIVER_COUNT, List.replicate] at h
  | [_] => rw [hb] at h; simp [DRIVER_COUNT, List.replicate] at h
  | [c0, c1] =>
    rw [hb] at h
    simp [DRIVER_COUNT, List.replicate] at h
    exact ⟨c0, c1, rfl, h.1, h.2⟩
  | _ :: _ :: _ :: _ => rw [hb] at h; simp [DRIVER_COUNT, List.replicate] at h

theorem getD_some_of_lt {row : List Nat} {i : Nat} (hi : i < row.length) :
    row[i]? = some (row.getD i 0) := by
  rw [List.getD_eq_getElem?_getD, List.getElem?_eq_getElem hi]
  rfl

theorem update_led_control_step_spec (bus : Bus) (addr1 addr2 : Nat) {c0 c1 : List Nat}
    (l0 : c0.length = 18) (l1 : c1.length = 18) {i : Nat} (hi : i < 18) {s : State}
    (hregs : s.g_led_control_registers = [c0, c1])
    (ht : s.g_twi_transfer_buffer.length = TXMAXBUFLEN) :
    ∃ s2, update_led_control_step bus addr1 addr2 i s = some s2 ∧
      s2.wire = s.wire ++
        [register_frame addr1 (i, c0.getD i 0), register_frame addr2 (i, c1.getD i 0)] ∧
      same_shadow s s2 ∧ s2.g_twi_transfer_buffer.length = TXMAXBUFLEN := by
  have g0 : arr2_get s.g_led_control_registers 0 i = some (c0.getD i 0) := by
    rw [hregs]
    exact getD_some_of_lt (show i < c0.length by omega)
  obtain ⟨s1, e1, w1, sh1, t1⟩ := write_register_spec bus addr1 i (c0.getD i 0) ht
  have g1 : arr2_get s1.g_led_control_registers 1 i = some (c1.getD i 0) := by
    rw [sh1.2.2.1, hregs]
    exact getD_some_of_lt (show i < c1.length by omega)
  obtain ⟨s2, e2, w2, sh2, t2⟩ := write_register_spec bus addr2 i (c1.getD i 0) t1
  refine ⟨s2, ?_, ?_, same_shadow_trans sh1 sh2, t2⟩
  · simp only [update_led_control_step, g0, e1, g1, e2]
  · rw [w2, w1, List.append_assoc]
    rfl

theorem update_led_control_loop_spec (bus : Bus) (addr1 addr2 : Nat) {c0 c1 : List Nat}
    (l0 : c0.length = 18) (l1 : c1.length = 18) :
    ∀ (L : List Nat), (∀ i ∈ L, i < 18) → ∀ (s : State),
      s.g_led_control_registers = [c0, c1] →
      s.g_twi_transfer_buffer.length = TXMAXBUFLEN →
    ∃ s2, for_each (update_led_control_step bus addr1 addr2) L s = some s2 ∧
      s2.wire = s.wire ++ (L.map (fun i =>
        [register_frame addr1 (i, c0.getD i 0),
          register_frame addr2 (i, c1.getD i 0)])).flatten ∧
      same_shadow s s2 ∧ s2.g_twi_transfer_buffer.length = TXMAXBUFLEN := by
  intro L
  induction L with
  | nil =>
    intro _ s _ ht
    exact ⟨s, rfl, by simp, ⟨rfl, rfl, rfl, rfl⟩, ht⟩
  | cons i rest ih =>
    intro hL s hregs ht
    obtain ⟨s1, e1, w1, sh1, t1⟩ := update_led_control_step_spec bus addr1 addr2 l0 l1
      (hL i (List.mem_cons_self _ _)) hregs ht
    obtain ⟨s2, e2, w2, sh2, t2⟩ := ih (fun j hj => hL j (List.mem_cons_of_mem _ hj)) s1
      (sh1.2.2.1.trans hregs) t1
    refine ⟨s2, ?_, ?_, same_shadow_trans sh1 sh2, t2⟩
    · simp only [for_each, e1]
      exact e2
    · rw [w2, w1]
      simp

theorem control_frames_length (addr1 addr2 : Nat) (c0 c1 : List Nat) :
    (control_frames addr1 addr2 c0 c1).length = 36 ∧
    ∀ f ∈ control_frames addr1 addr2 c0 c1, f.length = 3 := by
  constructor
  · simp [control_frames, List.length_flatten, Function.comp_def]
  · intro f hf
    simp only [control_frames, List.mem_flatten, List.mem_map, List.mem_range] at hf
    obtain ⟨l, ⟨i, _, rfl⟩, hfl⟩ := hf
    simp only [List.mem_cons, List.mem_singleton, List.not_mem_nil, or_false] at hfl
    rcases hfl with rfl | rfl <;> rfl

theorem update_led_control_registers_dirty (bus : Bus) (addr1 addr2 : Nat) {s : State}
    (hs : s.WF) (hflag : s.g_led_control_registers_update_required = true) :
    ∃ c0 c1 s2, s.g_led_control_registers = [c0, c1] ∧
      IS31FL3731_update_led_control_registers bus addr1 addr2 s = some s2 ∧
      s2.wire = s.wire ++ control_frames addr1 addr2 c0 c1 ∧
      same_shadow s s2 ∧ s2.WF := by
  obtain ⟨c0, c1, hregs, l0, l1⟩ := control_rows hs
  obtain ⟨s2, e, w, sh, t⟩ := update_led_control_loop_spec bus addr1 addr2 l0 l1
    (List.range 18) (fun i hi => List.mem_range.mp hi) s hregs hs.1
  refine ⟨c0, c1, s2, hregs, ?_, w, sh, ⟨t, ?_, ?_⟩⟩
  · simp only [IS31FL3731_update_led_control_registers, hflag, if_true]
    exact e
  · rw [sh.1]; exact hs.2.1
  · rw [sh.2.2.1]; exact hs.2.2

theorem update_led_control_registers_clean (bus : Bus) (addr1 addr2 : Nat) {s : State}
    (hflag : s.g_led_control_registers_update_required = false) :
    IS31FL3731_update_led_control_registers bus addr1 addr2 s = some s := by
  simp [IS31FL3731_update_led_control_registers, hflag]

/-- C13: on a board with a valid table, in any state `s` the driver can be in, on any bus:
* if the control dirty flag is clear, `IS31FL3731_update_led_control_registers` returns
  the state unchanged: no frame is emitted;
* if it is set, the call returns and emits exactly the 36 three-byte single-register
  frames of `control_frames` (for i = 0..17 ascending, register i of `addr1` with byte i
  of the control shadow buffer of chip 0, then register i of `addr2` with byte i of that
  of chip 1), leaves the shadow state and the flag as they are (the flag stays set), and a
  second flush right after sends the same 36 frames again;
* no API call that returns clears a set control dirty flag;
* `IS31FL3731_set_led_control_register` sets it, so after such a call and any further
  sequence of API calls the flag is set and a flush sends the whole control state, and
  the next flush sends it again unchanged. -/
theorem C13_control_flush_never_clears (leds : List is31_led) (bus : Bus)
    (fuel addr1 addr2 : Nat) (s : State)
    (hl : leds_valid leds) (hreach : Reachable leds bus fuel s) :
    (s.g_led_control_registers_update_required = false →
      IS31FL3731_update_led_control_registers bus addr1 addr2 s = some s) ∧
    (s.g_led_control_registers_update_required = true →
      ∃ c0 c1 s2 s3, s.g_led_control_registers = [c0, c1] ∧
        IS31FL3731_update_led_control_registers bus addr1 addr2 s = some s2 ∧
        s2.wire = s.wire ++ control_frames addr1 addr2 c0 c1 ∧
        (control_frames addr1 addr2 c0 c1).length = 36 ∧
        (∀ f ∈ control_frames addr1 addr2 c0 c1, f.length = 3) ∧
        same_shadow s s2 ∧
        s2.g_led_control_registers_update_required = true ∧
        IS31FL3731_update_led_control_registers bus addr1 addr2 s2 = some s3 ∧
        s3.wire = s2.wire ++ control_frames addr1 addr2 c0 c1) ∧
    (∀ (c : Call) (s2 : State), run_call leds bus fuel c s = some s2 →
      s.g_led_control_registers_update_required = true →
      s2.g_led_control_registers_update_required = true) ∧
    (∀ (index : Nat) (red green blue : Bool) (s1 : State) (calls : List Call) (s2 : State),
      IS31FL3731_set_led_control_register leds index red green blue s = some s1 →
      run_calls leds bus fuel calls s1 = some s2 →
      s2.g_led_control_registers_update_required = true ∧
      ∃ c0 c1 s3 s4, s2.g_led_control_registers = [c0, c1] ∧
        IS31FL3731_update_led_control_registers bus addr1 addr2 s2 = some s3 ∧
        s3.wire = s2.wire ++ control_frames addr1 addr2 c0 c1 ∧
        IS31FL3731_update_led_control_registers bus addr1 addr2 s3 = some s4 ∧
        s4.wire = s3.wire ++ control_frames addr1 addr2 c0 c1) := by
  have hinv := reachable_invariant hl hreach
  have twice : ∀ (t : State), t.WF → t.g_led_control_registers_update_required = true →
      ∃ c0 c1 s2 s3, t.g_led_control_registers = [c0, c1] ∧
        IS31FL3731_update_led_control_registers bus addr1 addr2 t = some s2 ∧
        s2.wire = t.wire ++ control_frames addr1 addr2 c0 c1 ∧
        same_shadow t s2 ∧
        s2.g_led_control_registers_update_required = true ∧
        IS31FL3731_update_led_control_registers bus addr1 addr2 s2 = some s3 ∧
        s3.wire = s2.wire ++ control_frames addr1 addr2 c0 c1 := by
    intro t ht hf
    obtain ⟨c0, c1, s2, hregs, e2, w2, sh2, wf2⟩ :=
      update_led_control_registers_dirty bus addr1 addr2 ht hf
    have hf2 : s2.g_led_control_registers_update_required = true := sh2.2.2.2.trans hf
    obtain ⟨d0, d1, s3, hregs3, e3, w3, _, _⟩ :=
      update_led_control_registers_dirty bus addr1 addr2 wf2 hf2
    rw [sh2.2.2.1, hregs] at hregs3
    simp only [List.cons.injEq, and_true] at hregs3
    obtain ⟨rfl, rfl⟩ := hregs3
    exact ⟨c0, c1, s2, s3, hregs, e2, w2, sh2, hf2, e3, w3⟩
  refine ⟨update_led_control_registers_clean bus addr1 addr2, ?_, ?_, ?_⟩
  · intro hf
    obtain ⟨c0, c1, s2, s3, hregs, e2, w2, sh2, hf2, e3, w3⟩ := twice s hinv.1 hf
    exact ⟨c0, c1, s2, s3, hregs, e2, w2, (control_frames_length addr1 addr2 c0 c1).1,
      (control_frames_length addr1 addr2 c0 c1).2, sh2, hf2, e3, w3⟩
  · intro c s2 h hf
    exact run_call_flag_stays h hf
  · intro index red green blue s1 calls s2 h1 h2
    have hf1 := set_led_control_register_sets_flag h1
    have hf2 := run_calls_flag_stays calls s1 s2 h2 hf1
    have hinv2 := run_calls_invariant hl calls s1 s2 h2
      (set_led_control_register_invariant hl h1 hinv)
    obtain ⟨c0, c1, s3, s4, hregs, e3, w3, _, _, e4, w4⟩ := twice s2 hinv2.1 hf2
    exact ⟨hf2, c0, c1, s3, s4, hregs, e3, w3, e4, w4⟩

/-- Witness of C13: on the example board, from the state at program start, the red bit of
LED 0 is enabled, then both kinds of flush are called; the control flush that follows
still sends 36 frames. -/
theorem C13_control_flush_never_clears_witness :
    leds_valid example_leds ∧ Reachable example_leds dead_bus 0 initial_state ∧
    ∃ s1 s2 s3,
      IS31FL3731_set_led_control_register example_leds 0 true false false initial_state
        = some s1 ∧
      run_calls example_leds dead_bus 0
        [Call.update_led_control_registers DRIVER_ADDR_1 DRIVER_ADDR_2] s1 = some s2 ∧
      s2.g_led_control_registers_update_required = true ∧
      IS31FL3731_update_led_control_registers dead_bus DRIVER_ADDR_1 DRIVER_ADDR_2 s2
        = some s3 ∧
      s3.wire.length = s2.wire.length + 36 := by
  have hr : Reachable example_leds dead_bus 0 initial_state := ⟨[], rfl⟩
  obtain ⟨regs, h1, sh, _, _⟩ := set_led_control_register_spec
    (show example_leds[0]? = some ⟨0, 0, 0, 0, 0, ⟨0, 0⟩⟩ by decide)
    (show is31_led.valid ⟨0, 0, 0, 0, 0, ⟨0, 0⟩⟩ by decide) true false false
    initial_state_WF.2.2
  obtain ⟨_, _, s2, _, e2, _, _, _⟩ :=
    update_led_control_registers_dirty dead_bus DRIVER_ADDR_1 DRIVER_ADDR_2
      (s := { initial_state with
        g_led_control_registers := regs, g_led_control_registers_update_required := true })
      ⟨initial_state_WF.1, initial_state_WF.2.1, sh⟩ rfl
  have h2 : run_calls example_leds dead_bus 0
      [Call.update_led_control_registers DRIVER_ADDR_1 DRIVER_ADDR_2]
      { initial_state with
        g_led_control_registers := regs, g_led_control_registers_update_required := true }
      = some s2 := by
    simp only [run_calls, run_call, e2]
  obtain ⟨hf, c0, c1, s3, _, _, e3, w3, _⟩ :=
    (C13_control_flush_never_clears example_leds dead_bus 0 DRIVER_ADDR_1 DRIVER_ADDR_2
      initial_state example_leds_valid hr).2.2.2 0 true false false _
      [Call.update_led_control_registers DRIVER_ADDR_1 DRIVER_ADDR_2] s2 h1 h2
  refine ⟨example_leds_valid, hr, _, s2, s3, h1, h2, hf, e3, ?_⟩
  rw [w3, List.length_append, (control_frames_length DRIVER_ADDR_1 DRIVER_ADDR_2 c0 c1).1]

/-! ## Theorems: indices outside the table -/

/-- C12, the code at the failing input: with the 49-entry example table, index 49 is one
past the end of `g_is31_leds`; `IS31FL3731_set_led_control_register` has no bounds check
and reads the descriptor there, an access outside the array (no result, instead of the
unchanged state the claim asks for), whereas `IS31FL3731_set_color` checks the index
and returns the state unchanged. -/
theorem C12_set_led_control_register_reads_outside_table :
    example_leds.length = DRIVER_LED_TOTAL ∧ DRIVER_LED_TOTAL = 49 ∧
    example_leds[49]? = none ∧
    IS31FL3731_set_led_control_register example_leds 49 true true true initial_state = none ∧
    IS31FL3731_set_led_control_register example_leds 49 true true true initial_state
      ≠ some initial_state ∧
    IS31FL3731_set_color example_leds 49 255 255 255 initial_state = some initial_state := by
  have h49 : example_leds[49]? = none := by decide
  have hnone : IS31FL3731_set_led_control_register example_leds 49 true true true
      initial_state = none := by
    simp only [IS31FL3731_set_led_control_register, h49]
  refine ⟨by decide, by decide, h49, hnone, ?_, ?_⟩
  · rw [hnone]
    exact fun h => Option.noConfusion h
  · have hg : ¬ ((0 : Int) ≤ 49 ∧ (49 : Int) < (DRIVER_LED_TOTAL : Int)) := by decide
    simp only [IS31FL3731_set_color, hg, if_false]

/-! ## Theorems: the retry policy of the single-register writes -/

/-- C16, as amended: the retry loop is disabled in both drivers. On a state whose arrays
have their declared sizes and on any bus, whatever status it reports,
`IS31FL3731_write_register` and `IS31FL3733_write_register` each return after handing
the primitive exactly one frame, and leave in `TWIInfo.errorCode` the status of that
single attempt. -/
theorem C16_write_register_single_shot (bus : Bus) (addr reg data : Nat) (s : State)
    (hs : s.WF) :
    (∃ s2, IS31FL3731_write_register bus addr reg data s = some s2 ∧
      s2.wire.length = s.wire.length + 1 ∧ s2.errorCode = bus s2.wire) ∧
    (∃ s3, IS31FL3733_write_register bus addr reg data s = some s3 ∧
      s3.wire.length = s.wire.length + 1 ∧ s3.errorCode = bus s3.wire) := by
  obtain ⟨t, e, _, _⟩ := fill_register_frame_spec addr reg data hs.1
  have h1 : IS31FL3731_write_register bus addr reg data s = some (TWITransmitData bus 3
      { s with g_twi_transfer_buffer := t, errorCode := TWI_NO_RELEVANT_INFO }) := by
    simp only [IS31FL3731_write_register, e]
  have hlen : (TWITransmitData bus 3
      { s with g_twi_transfer_buffer := t, errorCode := TWI_NO_RELEVANT_INFO }).wire.length
      = s.wire.length + 1 := by
    simp [TWITransmitData]
  exact ⟨⟨_, h1, hlen, rfl⟩, ⟨_, by rw [write_register_3733_eq]; exact h1, hlen, rfl⟩⟩

/-- Witness of C16 as amended: a bus that never reports completion. -/
theorem C16_write_register_single_shot_witness :
    initial_state.WF ∧
    (∃ s2, IS31FL3731_write_register dead_bus DRIVER_ADDR_1 0x0A 0x01 initial_state = some s2 ∧
      s2.wire.length = initial_state.wire.length + 1 ∧ s2.errorCode = dead_bus s2.wire) ∧
    (∃ s3, IS31FL3733_write_register dead_bus DRIVER_ADDR_1 0x0A 0x01 initial_state = some s3 ∧
      s3.wire.length = initial_state.wire.length + 1 ∧ s3.errorCode = dead_bus s3.wire) :=
  ⟨initial_state_WF,
    C16_write_register_single_shot dead_bus DRIVER_ADDR_1 0x0A 0x01 initial_state
      initial_state_WF⟩

/-- C16, counterexample to the claim as stated: on a bus that never reports completion
(every status is 0x00, never 0xFF) both `IS31FL3731_write_register` and
`IS31FL3733_write_register` return, each after a single frame and with a status that is
not the completion status: neither of them retries. -/
theorem C16_counterexample :
    (∀ t, dead_bus t ≠ 0xFF) ∧
    (∃ s2, IS31FL3731_write_register dead_bus DRIVER_ADDR_1 0x0A 0x01 initial_state = some s2 ∧
      s2.wire.length = 1 ∧ s2.errorCode ≠ 0xFF) ∧
    (∃ s3, IS31FL3733_write_register dead_bus DRIVER_ADDR_1 0x0A 0x01 initial_state = some s3 ∧
      s3.wire.length = 1 ∧ s3.errorCode ≠ 0xFF) := by
  obtain ⟨s2, e, w, _, _⟩ :=
    write_register_spec dead_bus DRIVER_ADDR_1 0x0A 0x01 initial_state_WF.1
  have hlen : s2.wire.length = 1 := by rw [w]; rfl
  have herr : s2.errorCode ≠ 0xFF := by
    unfold IS31FL3731_write_register at e
    cases hf : fill_register_frame DRIVER_ADDR_1 0x0A 0x01 initial_state with
    | none => rw [hf] at e; cases e
    | some s1 =>
      rw [hf] at e
      simp only [Option.some.injEq] at e
      subst e
      exact (by decide : (0x00 : Nat) ≠ 0xFF)
  exact ⟨fun _ => (by decide : (0x00 : Nat) ≠ 0xFF), ⟨s2, e, hlen, herr⟩,
    ⟨s2, by rw [write_register_3733_eq]; exact e, hlen, herr⟩⟩

/-! ## Theorems: the second chip variant -/

theorem init_3733_writes_length : IS31FL3733_init_writes.length = 224 := by
  decide

theorem init_3733_clears_control : ∀ r < 0x18,
    IS31FL3733_init_writes[4 + r]? = some (r, 0x00) ∧
    selected_page (IS31FL3733_init_writes.take (4 + r)) = some ISSI_CONTROL_REGISTER := by
  have key : (List.range 0x18).all (fun r =>
      decide (IS31FL3733_init_writes[4 + r]? = some (r, 0x00)) &&
      decide (selected_page (IS31FL3733_init_writes.take (4 + r))
        = some ISSI_CONTROL_REGISTER)) = true := by
    decide
  intro r hr
  have := all_range key r hr
  simpa using this

theorem init_3733_clears_pwm : ∀ r < 0xC0,
    IS31FL3733_init_writes[29 + r]? = some (r, 0x00) ∧
    selected_page (IS31FL3733_init_writes.take (29 + r)) = some ISSI_PWM_REGISTER := by
  have key : (List.range 0xC0).all (fun r =>
      decide (IS31FL3733_init_writes[29 + r]? = some (r, 0x00)) &&
      decide (selected_page (IS31FL3733_init_writes.take (29 + r))
        = some ISSI_PWM_REGISTER)) = true := by
    decide
  intro r hr
  have := all_range key r hr
  simpa using this

theorem init_3733_never_abm_page : ∀ k,
    selected_page (IS31FL3733_init_writes.take k) ≠ some ISSI_ABM_REGISTER := by
  have key : (List.range 225).all (fun k =>
      !decide (selected_page (IS31FL3733_init_writes.take k) = some ISSI_ABM_REGISTER))
      = true := by
    decide
  intro k
  by_cases hk : k < 225
  · have := all_range key k hk
    simpa using this
  · have h224 := all_range key 224 (by decide)
    have htake : IS31FL3733_init_writes.take k = IS31FL3733_init_writes.take 224 := by
      rw [List.take_of_length_le (by rw [init_3733_writes_length]; omega),
        List.take_of_length_le (by rw [init_3733_writes_length])]
    rw [htake]
    simpa using h224

theorem write_pwm_buffer_3733_eq :
    IS31FL3733_write_pwm_buffer = IS31FL3731_write_pwm_buffer := rfl

/-- C15, as amended: on a state whose arrays have their declared sizes and on any bus,
`IS31FL3733_init(addr)` returns and emits the 224 single-register frames of the writes
`IS31FL3733_init_writes`. Before write 222, the write of `ISSI_NORMAL_OP | ISSI_PWM_MODE` to
the configuration register, it writes zero to every LED control-register byte (registers
0x00..0x17, as write 4 + r, page 0x00 being the page last written to the command
register) and to every PWM register byte (registers 0x00..0xBF, as write 29 + r, page
0x01 being the page last written to the command register). It never writes the ABM
page 0x02 to the command register, so it writes no ABM-mode register. Its final write
selects the PWM page (0xFD <- 0x01). -/
theorem C15_init_3733_clears_control_and_pwm (bus : Bus) (addr : Nat) (s : State)
    (hs : s.WF) :
    ∃ s2,
      IS31FL3733_init bus addr s = some s2 ∧
      s2.wire = s.wire ++
        IS31FL3733_init_writes.map (fun w => [(addr <<< 1) % 256, w.1, w.2]) ∧
      same_shadow s s2 ∧
      IS31FL3733_init_writes.length = 224 ∧
      IS31FL3733_init_writes[222]?
        = some (ISSI_CONFIGURATION_REGISTER, ISSI_NORMAL_OP ||| ISSI_PWM_MODE) ∧
      selected_page (IS31FL3733_init_writes.take 222) = some ISSI_FUNCTION_REGISTER ∧
      (∀ r < 0x18, IS31FL3733_init_writes[4 + r]? = some (r, 0x00) ∧
        selected_page (IS31FL3733_init_writes.take (4 + r)) = some ISSI_CONTROL_REGISTER ∧
        4 + r < 222) ∧
      (∀ r < 0xC0, IS31FL3733_init_writes[29 + r]? = some (r, 0x00) ∧
        selected_page (IS31FL3733_init_writes.take (29 + r)) = some ISSI_PWM_REGISTER ∧
        29 + r < 222) ∧
      (∀ k, selected_page (IS31FL3733_init_writes.take k) ≠ some ISSI_ABM_REGISTER) ∧
      IS31FL3733_init_writes.getLast? = some (ISSI_COMMAND_REGISTER, ISSI_PWM_REGISTER) := by
  obtain ⟨s2, e, w, sh, _⟩ := init_3733_emits bus addr s hs.1
  refine ⟨s2, e, w, sh, init_3733_writes_length, by decide, by decide, ?_, ?_,
    init_3733_never_abm_page, by decide⟩
  · intro r hr
    obtain ⟨h1, h2⟩ := init_3733_clears_control r hr
    exact ⟨h1, h2, by omega⟩
  · intro r hr
    obtain ⟨h1, h2⟩ := init_3733_clears_pwm r hr
    exact ⟨h1, h2, by omega⟩

/-- Witness of C15 as amended: the chip at address 0x50, from the state at program
start. -/
theorem C15_init_3733_clears_control_and_pwm_witness :
    initial_state.WF ∧
    ∃ s2, IS31FL3733_init good_bus 0x50 initial_state = some s2 ∧
      s2.wire.length = 224 ∧ s2.wire[29]? = some [0xA0, 0x00, 0x00] ∧
      s2.wire[223]? = some [0xA0, 0xFD, 0x01] := by
  obtain ⟨s2, e, w, _⟩ :=
    C15_init_3733_clears_control_and_pwm good_bus 0x50 initial_state initial_state_WF
  refine ⟨initial_state_WF, s2, e, ?_, ?_, ?_⟩
  · rw [w]
    simp [initial_state, init_3733_writes_length]
  · rw [w]
    decide
  · rw [w]
    decide

/-- C15, counterexample to the claim as stated: the 224 writes of `IS31FL3733_init` to
the chip at address 0x50 contain five writes to the command register, selecting the
pages 0x03, 0x00, 0x01, 0x03, 0x01 in this order; the ABM page 0x02 is never selected, so
no ABM-mode register byte is written while the ABM page is selected. -/
theorem C15_counterexample :
    ∃ s2, IS31FL3733_init good_bus 0x50 initial_state = some s2 ∧
      s2.wire = IS31FL3733_init_writes.map (register_frame 0x50) ∧
      (IS31FL3733_init_writes.filter (fun w => w.1 = ISSI_COMMAND_REGISTER)).map Prod.snd
        = [0x03, 0x00, 0x01, 0x03, 0x01] ∧
      (ISSI_COMMAND_REGISTER, ISSI_ABM_REGISTER) ∉ IS31FL3733_init_writes ∧
      ¬ ∃ k, selected_page (IS31FL3733_init_writes.take k) = some ISSI_ABM_REGISTER := by
  obtain ⟨s2, e, w, _, _⟩ := init_3733_emits good_bus 0x50 initial_state initial_state_WF.1
  refine ⟨s2, e, w, by decide, by decide, ?_⟩
  rintro ⟨k, hk⟩
  exact init_3733_never_abm_page k hk

/-- C17, the code at the failing input: `IS31FL3733_init` selects the PWM page (write 28,
0xFD <- 0x01) and its PWM-clearing loop zeroes register 0x00 first (write 29), but the
nine chunks of `IS31FL3733_write_pwm_buffer` start at the registers 0x24, 0x34, ..., 0xA4:
chunk 0 starts at 0x24, not at the base 0x00 of the PWM page. For the IS31FL3731 the
first PWM register zeroed by the initialisation (write 42) and the start of chunk 0
are both 0x24. -/
theorem C17_pwm_base_3733_is_0x24 :
    ∃ s2 s3 s4 s5,
      IS31FL3733_init good_bus 0x50 initial_state = some s2 ∧
      s2.wire[28]? = some [0xA0, 0xFD, 0x01] ∧
      s2.wire[29]? = some [0xA0, 0x00, 0x00] ∧
      IS31FL3733_write_pwm_buffer good_bus 1 0x50 (List.replicate 144 0) initial_state
        = some s3 ∧
      s3.wire.map (fun f => f.take 2) =
        [[0xA0, 0x24], [0xA0, 0x34], [0xA0, 0x44], [0xA0, 0x54], [0xA0, 0x64], [0xA0, 0x74],
          [0xA0, 0x84], [0xA0, 0x94], [0xA0, 0xA4]] ∧
      IS31FL3731_init good_bus 0x50 initial_state = some s4 ∧
      s4.wire[42]? = some [0xA0, 0x24, 0x00] ∧
      s4.wire[41]? = some [0xA0, 0x23, 0x00] ∧
      IS31FL3731_write_pwm_buffer good_bus 1 0x50 (List.replicate 144 0) initial_state
        = some s5 ∧
      s5.wire.map (fun f => f.take 2) = s3.wire.map (fun f => f.take 2) := by
  obtain ⟨s2, e2, w2, _, _⟩ := init_3733_emits good_bus 0x50 initial_state initial_state_WF.1
  obtain ⟨s4, e4, w4, _, _⟩ := init_3731_emits good_bus 0x50 initial_state initial_state_WF.1
  obtain ⟨s3, e3, w3, _, _⟩ := write_pwm_buffer_spec good_bus_succeeds (Nat.le_refl 1) 0x50
    (List.length_replicate 144 0) initial_state_WF.1
  have hw3 : s3.wire.map (fun f => f.take 2) =
      [[0xA0, 0x24], [0xA0, 0x34], [0xA0, 0x44], [0xA0, 0x54], [0xA0, 0x64], [0xA0, 0x74],
        [0xA0, 0x84], [0xA0, 0x94], [0xA0, 0xA4]] := by
    rw [w3]
    have hr : List.range 9 = [0, 1, 2, 3, 4, 5, 6, 7, 8] := by decide
    simp [initial_state, pwm_frames, pwm_frame, hr]
  refine ⟨s2, s3, s4, s3, e2, ?_, ?_, by rw [write_pwm_buffer_3733_eq]; exact e3, hw3, e4,
    ?_, ?_, e3, rfl⟩
  · rw [w2]; decide
  · rw [w2]; decide
  · rw [w4]; decide
  · rw [w4]; decide

/-- C18, the code at the failing input: the writes of `IS31FL3733_init` contain five
writes to the command register 0xFD, at the positions 1, 3, 28, 221 and 223, but a
single unlock write 0xFE <- 0xC5, at position 0. The page select at position 3 is
preceded by the write 0x00 <- 0x00 (position 2), those at 28, 221 and 223 by writes to
the registers 0x17, 0xBF and 0x00: four page selects out of five are not unlocked. -/
theorem C18_init_3733_unlocks_once :
    ∃ s2, IS31FL3733_init good_bus 0x50 initial_state = some s2 ∧
      s2.wire = IS31FL3733_init_writes.map (register_frame 0x50) ∧
      (List.range 224).filter (fun k =>
        IS31FL3733_init_writes[k]?.map Prod.fst = some ISSI_COMMAND_REGISTER)
        = [1, 3, 28, 221, 223] ∧
      (List.range 224).filter (fun k =>
        IS31FL3733_init_writes[k]?
          = some (ISSI_COMMAND_REGISTER_LOCK, ISSI_COMMAND_REGISTER_WRITE_ONCE)) = [0] ∧
      IS31FL3733_init_writes[2]? = some (0x00, 0x00) ∧
      IS31FL3733_init_writes[3]? = some (ISSI_COMMAND_REGISTER, ISSI_CONTROL_REGISTER) ∧
      IS31FL3733_init_writes[27]? = some (0x17, 0x00) ∧
      IS31FL3733_init_writes[28]? = some (ISSI_COMMAND_REGISTER, ISSI_PWM_REGISTER) ∧
      IS31FL3733_init_writes[220]? = some (0xBF, 0x00) ∧
      IS31FL3733_init_writes[221]? = some (ISSI_COMMAND_REGISTER, ISSI_FUNCTION_REGISTER) ∧
      IS31FL3733_init_writes[222]? = some (0x00, 0x02) ∧
      IS31FL3733_init_writes[223]? = some (ISSI_COMMAND_REGISTER, ISSI_PWM_REGISTER) := by
  obtain ⟨s2, e, w, _, _⟩ := init_3733_emits good_bus 0x50 initial_state initial_state_WF.1
  exact ⟨s2, e, w, by decide, by decide, by decide, by decide, by decide, by decide,
    by decide, by decide, by decide, by decide⟩

/-- C19, the code at the failing input: the value `IS31FL3733_init` writes to the
configuration register to leave shutdown (write 222, function page selected) is
`ISSI_NORMAL_OP | ISSI_PWM_MODE` = 0b10. It differs from `ISSI_SSD_MODE`, but it is equal
to `ISSI_ABM_MODE`: its `ISSI_ABM_MODE` bit is set, value & ISSI_ABM_MODE = 0b10, not 0. -/
theorem C19_config_value_has_abm_bit :
    ∃ s2, IS31FL3733_init good_bus 0x50 initial_state = some s2 ∧
      s2.wire[222]? = some [0xA0, ISSI_CONFIGURATION_REGISTER,
        ISSI_NORMAL_OP ||| ISSI_PWM_MODE] ∧
      selected_page (IS31FL3733_init_writes.take 222) = some ISSI_FUNCTION_REGISTER ∧
      IS31FL3733_init_writes[2]? = some (ISSI_CONFIGURATION_REGISTER, ISSI_SSD_MODE) ∧
      ISSI_NORMAL_OP ||| ISSI_PWM_MODE ≠ ISSI_SSD_MODE ∧
      ISSI_NORMAL_OP ||| ISSI_PWM_MODE = ISSI_ABM_MODE ∧
      (ISSI_NORMAL_OP ||| ISSI_PWM_MODE) &&& ISSI_ABM_MODE = 0b10 ∧
      (ISSI_NORMAL_OP ||| ISSI_PWM_MODE) &&& ISSI_ABM_MODE ≠ 0 := by
  obtain ⟨s2, e, w, _, _⟩ := init_3733_emits good_bus 0x50 initial_state initial_state_WF.1
  refine ⟨s2, e, ?_, by decide, by decide, by decide, by decide, by decide, by decide⟩
  rw [w]
  decide

/-! ## Theorems: consistency of the two tables -/

theorem map_reg_eq_control_pos : ∀ m < 2, ∀ ci < 18, ∀ ch < 3,
    map_reg m ci ch = 0x24 + 8 * (control_pos m ci ch).1 + (control_pos m ci ch).2 := by
  decide

theorem map_reg_matrix_b : ∀ ci < 18, ∀ ch < 3, map_reg 1 ci ch = map_reg 0 ci ch + 8 := by
  decide

/-- C20: for every matrix `m` below 2 and control index `i` below 18, the entry of
`g_led_control_bitmask[i]` exists and, for each channel, the register read from
`g_map_control_index_to_register[m][i]` is 0x24 + 8 * (register of the channel + m)
+ bit of the channel; and for each channel the address of matrix B is the address of
matrix A plus 8. -/
theorem C20_tables_consistent (m i : Nat) (hm : m < 2) (hi : i < 18) :
    ∃ bm, g_led_control_bitmask[i]? = some bm ∧
      pgm_read_map m i 0 = some (0x24 + 8 * (bm.red_register + m) + bm.red_bit) ∧
      pgm_read_map m i 1 = some (0x24 + 8 * (bm.green_register + m) + bm.green_bit) ∧
      pgm_read_map m i 2 = some (0x24 + 8 * (bm.blue_register + m) + bm.blue_bit) ∧
      ∀ ch < 3, ∃ a, pgm_read_map 0 i ch = some a ∧ pgm_read_map 1 i ch = some (a + 8) := by
  obtain ⟨bm, hbm, p0, p1, p2⟩ := bitmask_entry hi m
  have e0 := map_reg_eq_control_pos m hm i hi 0 (by decide)
  have e1 := map_reg_eq_control_pos m hm i hi 1 (by decide)
  have e2 := map_reg_eq_control_pos m hm i hi 2 (by decide)
  rw [p0] at e0
  rw [p1] at e1
  rw [p2] at e2
  have r0 := (map_reg_range m hm i hi 0 (by decide)).1
  have r1 := (map_reg_range m hm i hi 1 (by decide)).1
  have r2 := (map_reg_range m hm i hi 2 (by decide)).1
  rw [e0] at r0
  rw [e1] at r1
  rw [e2] at r2
  refine ⟨bm, hbm, r0, r1, r2, ?_⟩
  intro ch hch
  have a0 := (map_reg_range 0 (by decide) i hi ch hch).1
  have a1 := (map_reg_range 1 (by decide) i hi ch hch).1
  rw [map_reg_matrix_b i hi ch hch] at a1
  exact ⟨_, a0, a1⟩

/-- Witness of C20: matrix B, cell 15, whose blue bit lies in register 0x0A. -/
theorem C20_tables_consistent_witness :
    1 < 2 ∧ 15 < 18 ∧
    ∃ bm, g_led_control_bitmask[15]? = some bm ∧
      pgm_read_map 1 15 0 = some (0x24 + 8 * (bm.red_register + 1) + bm.red_bit) ∧
      pgm_read_map 1 15 1 = some (0x24 + 8 * (bm.green_register + 1) + bm.green_bit) ∧
      pgm_read_map 1 15 2 = some (0x24 + 8 * (bm.blue_register + 1) + bm.blue_bit) ∧
      ∀ ch < 3, ∃ a, pgm_read_map 0 15 ch = some a ∧ pgm_read_map 1 15 ch = some (a + 8) :=
  ⟨by decide, by decide, C20_tables_consistent 1 15 (by decide) (by decide)⟩

/-! ## Theorems: no interference between LEDs -/

theorem map_reg_injective {m ci ch m2 ci2 ch2 : Nat} (hm : m < 2) (hci : ci < 18)
    (hch : ch < 3) (hm2 : m2 < 2) (hci2 : ci2 < 18) (hch2 : ch2 < 3)
    (h : map_reg m ci ch = map_reg m2 ci2 ch2) : m = m2 ∧ ci = ci2 ∧ ch = ch2 := by
  have e1 := map_reg_eq_control_pos m hm ci hci ch hch
  have e2 := map_reg_eq_control_pos m2 hm2 ci2 hci2 ch2 hch2
  have b1 := (control_pos_range m hm ci hci ch hch).2
  have b2 := (control_pos_range m2 hm2 ci2 hci2 ch2 hch2).2
  apply control_pos_injective hm hci hch hm2 hci2 hch2
  apply Prod.ext
  · omega
  · omega

theorem all_map_registers_distinct :
    all_map_registers.length = 108 ∧ all_map_registers.Nodup := by
  decide

theorem cells_apart {li lj : is31_led} (hvi : li.valid) (hvj : lj.valid)
    (hne : lj.cell ≠ li.cell) {ch ch2 : Nat} (hch : ch < 3) (hch2 : ch2 < 3) :
    ¬ (li.driver = lj.driver ∧ pwm_offset li ch = pwm_offset lj ch2) := by
  rintro ⟨hd, hoff⟩
  obtain ⟨_, hmi, hcii⟩ := hvi
  obtain ⟨_, hmj, hcij⟩ := hvj
  have r1 := (map_reg_range li.matrix hmi li.control_index hcii ch hch).2.1
  have r2 := (map_reg_range lj.matrix hmj lj.control_index hcij ch2 hch2).2.1
  unfold pwm_offset at hoff
  have heq : map_reg li.matrix li.control_index ch = map_reg lj.matrix lj.control_index ch2 := by
    omega
  obtain ⟨h1, h2, _⟩ := map_reg_injective hmi hcii hch hmj hcij hch2 heq
  apply hne
  unfold is31_led.cell
  rw [hd, h1, h2]

theorem set_color_out_of_range_eq {leds : List is31_led} {index : Int}
    (h : ¬ (0 ≤ index ∧ index < (DRIVER_LED_TOTAL : Int))) (r g b : Nat) (s : State) :
    IS31FL3731_set_color leds index r g b s = some s := by
  simp only [IS31FL3731_set_color, h, if_false]

theorem set_color_total {leds : List is31_led} (hl : leds_valid leds) (index : Int)
    (r g b : Nat) {s : State} (hs : s.WF) :
    ∃ s2, IS31FL3731_set_color leds index r g b s = some s2 ∧ s2.WF := by
  by_cases hin : 0 ≤ index ∧ index < (DRIVER_LED_TOTAL : Int)
  · obtain ⟨led, hled, hv⟩ := leds_valid_get hl hin.1 hin.2
    obtain ⟨buf, e, sh, _⟩ := set_color_spec hin.1 hin.2 hled hv r g b hs.2.1
    exact ⟨_, e, ⟨hs.1, sh, hs.2.2⟩⟩
  · exact ⟨s, set_color_out_of_range_eq hin r g b s, hs⟩

theorem set_color_other_cell {leds : List is31_led} (hl : leds_valid leds) {li : is31_led}
    (hvi : li.valid) {call : Int × Nat × Nat × Nat} (ho : other_cell leds li call)
    {s : State} (hs : s.WF) :
    ∃ s2, IS31FL3731_set_color leds call.1 call.2.1 call.2.2.1 call.2.2.2 s = some s2 ∧
      s2.WF ∧
      ∀ ch < 3, pwm_byte s2 li.driver (pwm_offset li ch)
        = pwm_byte s li.driver (pwm_offset li ch) := by
  by_cases hin : 0 ≤ call.1 ∧ call.1 < (DRIVER_LED_TOTAL : Int)
  · rcases ho with ho | ⟨lj, hlj, hne⟩
    · exact absurd hin ho
    · have hvj : lj.valid := hl.2 lj (List.getElem?_mem hlj)
      obtain ⟨buf, e, sh, hget⟩ :=
        set_color_spec hin.1 hin.2 hlj hvj call.2.1 call.2.2.1 call.2.2.2 hs.2.1
      refine ⟨_, e, ⟨hs.1, sh, hs.2.2⟩, ?_⟩
      intro ch hch
      show arr2_get buf li.driver (pwm_offset li ch) = _
      rw [hget]
      have n2 := cells_apart hvi hvj hne hch (show 2 < 3 by decide)
      have n1 := cells_apart hvi hvj hne hch (show 1 < 3 by decide)
      have n0 := cells_apart hvi hvj hne hch (show 0 < 3 by decide)
      rw [if_neg n2, if_neg n1, if_neg n0]
  · exact ⟨s, set_color_out_of_range_eq hin _ _ _ s, hs, fun _ _ => rfl⟩

theorem set_color_seq_total {leds : List is31_led} (hl : leds_valid leds) :
    ∀ (calls : List (Int × Nat × Nat × Nat)) (s : State), s.WF →
      ∃ s2, set_color_seq leds calls s = some s2 ∧ s2.WF := by
  intro calls
  induction calls with
  | nil => exact fun s hs => ⟨s, rfl, hs⟩
  | cons call rest ih =>
    intro s hs
    obtain ⟨s1, e1, wf1⟩ := set_color_total hl call.1 call.2.1 call.2.2.1 call.2.2.2 hs
    obtain ⟨s2, e2, wf2⟩ := ih s1 wf1
    exact ⟨s2, by simp only [set_color_seq, e1]; exact e2, wf2⟩

theorem set_color_seq_other_cells {leds : List is31_led} (hl : leds_valid leds)
    {li : is31_led} (hvi : li.valid) :
    ∀ (calls : List (Int × Nat × Nat × Nat)), (∀ call ∈ calls, other_cell leds li call) →
      ∀ (s : State), s.WF →
      ∃ s2, set_color_seq leds calls s = some s2 ∧ s2.WF ∧
        ∀ ch < 3, pwm_byte s2 li.driver (pwm_offset li ch)
          = pwm_byte s li.driver (pwm_offset li ch) := by
  intro calls
  induction calls with
  | nil => exact fun _ s hs => ⟨s, rfl, hs, fun _ _ => rfl⟩
  | cons call rest ih =>
    intro ho s hs
    obtain ⟨s1, e1, wf1, k1⟩ :=
      set_color_other_cell hl hvi (ho call (List.mem_cons_self _ _)) hs
    obtain ⟨s2, e2, wf2, k2⟩ := ih (fun x hx => ho x (List.mem_cons_of_mem _ hx)) s1 wf1
    refine ⟨s2, by simp only [set_color_seq, e1]; exact e2, wf2, ?_⟩
    intro ch hch
    rw [k2 ch hch, k1 ch hch]

theorem set_color_seq_append (leds : List is31_led) :
    ∀ (l1 l2 : List (Int × Nat × Nat × Nat)) (s : State),
      set_color_seq leds (l1 ++ l2) s = (set_color_seq leds l1 s).bind (set_color_seq leds l2) := by
  intro l1
  induction l1 with
  | nil => intro l2 s; rfl
  | cons call rest ih =>
    intro l2 s
    simp only [List.cons_append, set_color_seq]
    cases IS31FL3731_set_color leds call.1 call.2.1 call.2.2.1 call.2.2.2 s with
    | none => rfl
    | some s1 => exact ih l2 s1

theorem set_color_own_bytes {leds : List is31_led} {index : Int} {led : is31_led}
    (h0 : 0 ≤ index) (h1 : index < (DRIVER_LED_TOTAL : Int))
    (hled : leds[index.toNat]? = some led) (hv : led.valid) (r g b : Nat)
    {s : State} (hs : s.WF) :
    ∃ s2, IS31FL3731_set_color leds index r g b s = some s2 ∧ s2.WF ∧
      s2.g_pwm_buffer_update_required = true ∧ s2.wire = s.wire ∧
      pwm_byte s2 led.driver (pwm_offset led 0) = some r ∧
      pwm_byte s2 led.driver (pwm_offset led 1) = some g ∧
      pwm_byte s2 led.driver (pwm_offset led 2) = some b := by
  obtain ⟨buf, e, sh, hget⟩ := set_color_spec h0 h1 hled hv r g b hs.2.1
  obtain ⟨d01, d02, d12⟩ := pwm_offset_distinct hv
  refine ⟨_, e, ⟨hs.1, sh, hs.2.2⟩, rfl, rfl, ?_, ?_, ?_⟩
  · show arr2_get buf _ _ = _
    rw [hget]
    simp [d01, d02]
  · show arr2_get buf _ _ = _
    rw [hget]
    simp [d12]
  · show arr2_get buf _ _ = _
    rw [hget]
    simp

/-- C21: the map (matrix, control index, channel) -> PWM register read from
`g_map_control_index_to_register` is injective on matrix below 2, control index below
18, channel below 3, and the table holds 108 pairwise distinct addresses. Hence, on a
board with a valid table and a state whose arrays have their declared sizes:
* for a valid descriptor of LED `i` and an in-range index `j` whose descriptor differs in
  (driver, matrix, control index), `IS31FL3731_set_color(j, ...)` returns and leaves the
  three PWM shadow bytes of LED `i` (offsets register - 0x24) unchanged;
* after any sequence of `set_color` calls (out-of-range calls included), the three bytes
  of LED `i` hold the colour of the last call addressed to it, every call after that one
  being out of range or addressed to an LED whose descriptor differs in
  (driver, matrix, control index). -/
theorem C21_no_colour_interference (leds : List is31_led) (s : State)
    (hl : leds_valid leds) (hs : s.WF) :
    (∀ m ci ch m2 ci2 ch2, m < 2 → ci < 18 → ch < 3 → m2 < 2 → ci2 < 18 → ch2 < 3 →
      pgm_read_map m ci ch = pgm_read_map m2 ci2 ch2 → m = m2 ∧ ci = ci2 ∧ ch = ch2) ∧
    all_map_registers.length = 108 ∧ all_map_registers.Nodup ∧
    (∀ (led : is31_led) (ch : Nat), led.valid → ch < 3 →
      pgm_read_map led.matrix led.control_index ch = some (pwm_offset led ch + 0x24)) ∧
    (∀ (i : Nat) (j : Int) (li lj : is31_led) (r g b : Nat),
      leds[i]? = some li → 0 ≤ j → j < (DRIVER_LED_TOTAL : Int) →
      leds[j.toNat]? = some lj →
      (lj.driver, lj.matrix, lj.control_index) ≠ (li.driver, li.matrix, li.control_index) →
      ∃ s2, IS31FL3731_set_color leds j r g b s = some s2 ∧
        ∀ ch < 3, pwm_byte s2 li.driver (pwm_offset li ch)
          = pwm_byte s li.driver (pwm_offset li ch)) ∧
    (∀ (before after : List (Int × Nat × Nat × Nat)) (i : Int) (li : is31_led) (r g b : Nat),
      0 ≤ i → i < (DRIVER_LED_TOTAL : Int) → leds[i.toNat]? = some li →
      (∀ call ∈ after, other_cell leds li call) →
      ∃ s2, set_color_seq leds (before ++ (i, r, g, b) :: after) s = some s2 ∧
        pwm_byte s2 li.driver (pwm_offset li 0) = some r ∧
        pwm_byte s2 li.driver (pwm_offset li 1) = some g ∧
        pwm_byte s2 li.driver (pwm_offset li 2) = some b) := by
  refine ⟨?_, all_map_registers_distinct.1, all_map_registers_distinct.2, ?_, ?_, ?_⟩
  · intro m ci ch m2 ci2 ch2 hm hci hch hm2 hci2 hch2 h
    rw [(map_reg_range m hm ci hci ch hch).1, (map_reg_range m2 hm2 ci2 hci2 ch2 hch2).1] at h
    exact map_reg_injective hm hci hch hm2 hci2 hch2 (Option.some.inj h)
  · intro led ch hv hch
    obtain ⟨h1, h2, _⟩ := map_reg_range led.matrix hv.2.1 led.control_index hv.2.2 ch hch
    rw [h1]
    unfold pwm_offset
    congr 1
    omega
  · intro i j li lj r g b hli h0 h1 hlj hne
    have hvi : li.valid := hl.2 li (List.getElem?_mem hli)
    obtain ⟨s2, e, _, k⟩ := set_color_other_cell hl hvi
      (show other_cell leds li (j, r, g, b) from Or.inr ⟨lj, hlj, hne⟩) hs
    exact ⟨s2, e, k⟩
  · intro before after i li r g b h0 h1 hli hafter
    have hvi : li.valid := hl.2 li (List.getElem?_mem hli)
    obtain ⟨s1, e1, wf1⟩ := set_color_seq_total hl before s hs
    obtain ⟨s2, e2, wf2, _, _, hr, hg, hb⟩ := set_color_own_bytes h0 h1 hli hvi r g b wf1
    obtain ⟨s3, e3, _, k3⟩ := set_color_seq_other_cells hl hvi after hafter s2 wf2
    refine ⟨s3, ?_, ?_, ?_, ?_⟩
    · rw [set_color_seq_append, e1]
      simp only [Option.some_bind, set_color_seq, e2]
      exact e3
    · rw [k3 0 (by decide), hr]
    · rw [k3 1 (by decide), hg]
    · rw [k3 2 (by decide), hb]

/-- Witness of C21: on the example board, from the state at program start, LED 0 is set
twice, with calls to LED 1, LED 30 and the out-of-range index -1 in between and after;
its three bytes (offsets 0x10, 0x20, 0x30 of chip 0) hold the colour of its last call. -/
theorem C21_no_colour_interference_witness :
    leds_valid example_leds ∧ initial_state.WF ∧
    ∃ s2, set_color_seq example_leds
        [(0, 1, 2, 3), (1, 4, 5, 6), (0, 7, 8, 9), (30, 1, 1, 1), (-1, 0, 0, 0)] initial_state
        = some s2 ∧
      pwm_byte s2 0 0x10 = some 7 ∧ pwm_byte s2 0 0x20 = some 8 ∧
      pwm_byte s2 0 0x30 = some 9 := by
  have hafter : ∀ call ∈ [((30 : Int), 1, 1, 1), (-1, 0, 0, 0)],
      other_cell example_leds ⟨0, 0, 0, 0, 0, ⟨0, 0⟩⟩ call := by
    intro call hc
    simp only [List.mem_cons, List.mem_singleton, List.not_mem_nil, or_false] at hc
    rcases hc with rfl | rfl
    · exact Or.inr ⟨⟨1, 0, 0, 5, 0, ⟨0, 0⟩⟩, by decide, by decide⟩
    · exact Or.inl (by decide)
  obtain ⟨s2, e, hr, hg, hb⟩ :=
    (C21_no_colour_interference example_leds initial_state example_leds_valid
      initial_state_WF).2.2.2.2.2 [(0, 1, 2, 3), (1, 4, 5, 6)]
      [(30, 1, 1, 1), (-1, 0, 0, 0)] 0 ⟨0, 0, 0, 0, 0, ⟨0, 0⟩⟩ 7 8 9
      (by decide) (by decide) (by decide) hafter
  exact ⟨example_leds_valid, initial_state_WF, s2, e, hr, hg, hb⟩

/-! ## Theorems: the registers a chip receives -/

theorem range_blocks_flatten {α : Type} (f : Nat → α) (b : Nat) :
    ∀ a, ((List.range a).map (fun n => (List.range b).map (fun k => f (b * n + k)))).flatten
      = (List.range (a * b)).map f := by
  intro a
  induction a with
  | zero => simp
  | succ a ih =>
    rw [List.range_succ, List.map_append, List.flatten_append, ih, Nat.succ_mul,
      List.range_add, List.map_append, List.map_map]
    simp [Function.comp_def, Nat.mul_comm]

theorem pwm_frame_getD (addr : Nat) (buf : List Nat) (n : Nat) {k : Nat} (hk : k < 16) :
    (pwm_frame addr buf n).getD (2 + k) 0 = buf.getD (16 * n + k) 0 := by
  unfold pwm_frame
  rw [List.getD_eq_getElem?_getD, List.getD_eq_getElem?_getD,
    List.getElem?_append_right (by simp)]
  simp only [List.length_cons, List.length_nil]
  have h2 : 2 + k - (0 + 1 + 1) = k := by omega
  rw [h2, List.getElem?_take, if_pos hk, List.getElem?_drop]

theorem pwm_frame_register_writes (addr : Nat) {buf : List Nat} (hbuf : buf.length = 144)
    {n : Nat} (hn : n < 9) :
    frame_register_writes (pwm_frame addr buf n)
      = (List.range 16).map (fun k => (0x24 + (16 * n + k), buf.getD (16 * n + k) 0)) := by
  have hlen : (pwm_frame addr buf n).length = 18 :=
    pwm_frame_length addr hbuf _ (List.mem_map.mpr ⟨n, List.mem_range.mpr hn, rfl⟩)
  unfold frame_register_writes
  rw [hlen]
  apply List.map_congr_left
  intro k hk
  have hk16 : k < 16 := List.mem_range.mp hk
  rw [pwm_frame_getD addr buf n hk16]
  have h1 : (pwm_frame addr buf n).getD 1 0 = 0x24 + 16 * n := rfl
  rw [h1, Nat.add_assoc]

theorem pwm_frames_register_writes (addr : Nat) {buf : List Nat} (hbuf : buf.length = 144) :
    ((pwm_frames addr buf).map frame_register_writes).flatten
      = (List.range 144).map (fun j => (0x24 + j, buf.getD j 0)) := by
  have h : (pwm_frames addr buf).map frame_register_writes
      = (List.range 9).map (fun n =>
          (List.range 16).map (fun k => (0x24 + (16 * n + k), buf.getD (16 * n + k) 0))) := by
    unfold pwm_frames
    rw [List.map_map]
    apply List.map_congr_left
    intro n hn
    exact pwm_frame_register_writes addr hbuf (List.mem_range.mp hn)
  rw [h]
  exact range_blocks_flatten (fun j => (0x24 + j, buf.getD j 0)) 16 9

theorem chip_register_writes_frames (addr1 addr2 : Nat) {b0 b1 : List Nat}
    (h0 : b0.length = 144) (h1 : b1.length = 144) :
    chip_register_writes (pwm_frames addr1 b0 ++ pwm_frames addr2 b1) 0
      = (List.range 144).map (fun j => (0x24 + j, b0.getD j 0)) ∧
    chip_register_writes (pwm_frames addr1 b0 ++ pwm_frames addr2 b1) 1
      = (List.range 144).map (fun j => (0x24 + j, b1.getD j 0)) := by
  constructor
  · unfold chip_register_writes
    rw [Nat.mul_zero, List.drop_zero,
      List.take_append_of_le_length (by rw [pwm_frames_length]),
      List.take_of_length_le (by rw [pwm_frames_length])]
    exact pwm_frames_register_writes addr1 h0
  · unfold chip_register_writes
    rw [Nat.mul_one, List.drop_append_of_le_length (by rw [pwm_frames_length]),
      List.drop_of_length_le (by rw [pwm_frames_length]), List.nil_append,
      List.take_of_length_le (by rw [pwm_frames_length])]
    exact pwm_frames_register_writes addr2 h1

theorem register_writes_mem {buf : List Nat} {a v x : Nat} (ha : 0x24 ≤ a)
    (hlt : a - 0x24 < 144) (hv : buf[a - 0x24]? = some v) :
    (a, x) ∈ (List.range 144).map (fun j => (0x24 + j, buf.getD j 0)) ↔ x = v := by
  have hget : buf.getD (a - 0x24) 0 = v := by
    rw [List.getD_eq_getElem?_getD, hv]
    rfl
  simp only [List.mem_map, List.mem_range, Prod.mk.injEq]
  constructor
  · rintro ⟨j, _, hj, hx⟩
    have : j = a - 0x24 := by omega
    rw [this, hget] at hx
    exact hx.symm
  · intro hx
    exact ⟨a - 0x24, hlt, by omega, by rw [hget, hx]⟩

theorem register_writes_fst (buf : List Nat) :
    ((List.range 144).map (fun j => (0x24 + j, buf.getD j 0))).map Prod.fst
      = List.range' 0x24 144 := by
  rw [List.map_map, List.range'_eq_map_range]
  rfl

/-- C22: for an in-range index whose descriptor has driver `d` below 2, matrix `m` below 2
and control index `i` below 18, on a state whose arrays have their declared sizes and
with a bus that reports completion at the first attempt,
`IS31FL3731_set_color(index, r, g, b)` followed by
`IS31FL3731_update_pwm_buffers(addr1, addr2)` returns and emits 18 frames: the nine of chip
0 carry the address byte of `addr1`, the nine of chip 1 that of `addr2`. Read with the
auto-increment rule (data byte k of a chunk goes to register start register + k), the
frames of each chip write every register 0x24..0xB3 exactly once, in ascending order, and
the chip `d` receives at the registers `g_map_control_index_to_register[m][i][0]`, `[1]`,
`[2]` the values `r`, `g`, `b` and no other value. -/
theorem C22_end_to_end_register_targeting (leds : List is31_led) (bus : Bus)
    (fuel addr1 addr2 : Nat) (index : Int) (led : is31_led) (r g b : Nat) (s : State)
    (hs : s.WF) (h0 : 0 ≤ index) (h1 : index < (DRIVER_LED_TOTAL : Int))
    (hled : leds[index.toNat]? = some led)
    (hd : led.driver < 2) (hm : led.matrix < 2) (hci : led.control_index < 18)
    (hbus : bus.succeeds) (hfuel : 1 ≤ fuel) :
    ∃ a0 a1 a2 s1 s2,
      pgm_read_map led.matrix led.control_index 0 = some a0 ∧
      pgm_read_map led.matrix led.control_index 1 = some a1 ∧
      pgm_read_map led.matrix led.control_index 2 = some a2 ∧
      IS31FL3731_set_color leds index r g b s = some s1 ∧
      IS31FL3731_update_pwm_buffers bus fuel addr1 addr2 s1 = some s2 ∧
      (s2.wire.drop s.wire.length).length = 18 ∧
      (∀ f ∈ (s2.wire.drop s.wire.length).take 9, f[0]? = some ((addr1 <<< 1) % 256)) ∧
      (∀ f ∈ (s2.wire.drop s.wire.length).drop 9, f[0]? = some ((addr2 <<< 1) % 256)) ∧
      (∀ chip < 2, (chip_register_writes (s2.wire.drop s.wire.length) chip).map Prod.fst
        = List.range' 0x24 144) ∧
      (∀ v, (a0, v) ∈ chip_register_writes (s2.wire.drop s.wire.length) led.driver ↔ v = r) ∧
      (∀ v, (a1, v) ∈ chip_register_writes (s2.wire.drop s.wire.length) led.driver ↔ v = g) ∧
      (∀ v, (a2, v) ∈ chip_register_writes (s2.wire.drop s.wire.length) led.driver ↔ v = b) := by
  have hv : led.valid := ⟨hd, hm, hci⟩
  obtain ⟨s1, e1, wf1, f1, w1, hr, hg, hb⟩ := set_color_own_bytes h0 h1 hled hv r g b hs
  obtain ⟨b0, b1, s2, hrows, l0, l1, e2, w2, _⟩ :=
    update_pwm_buffers_dirty hbus hfuel addr1 addr2 wf1 f1
  have hnew : s2.wire.drop s.wire.length = pwm_frames addr1 b0 ++ pwm_frames addr2 b1 := by
    rw [w2, w1, List.append_assoc, List.drop_left]
  obtain ⟨c0, c1⟩ := chip_register_writes_frames addr1 addr2 l0 l1
  have q0 := map_reg_range led.matrix hm led.control_index hci 0 (by decide)
  have q1 := map_reg_range led.matrix hm led.control_index hci 1 (by decide)
  have q2 := map_reg_range led.matrix hm led.control_index hci 2 (by decide)
  have o0 : map_reg led.matrix led.control_index 0 - 0x24 < 144 := pwm_offset_lt hv (by decide)
  have o1 : map_reg led.matrix led.control_index 1 - 0x24 < 144 := pwm_offset_lt hv (by decide)
  have o2 : map_reg led.matrix led.control_index 2 - 0x24 < 144 := pwm_offset_lt hv (by decide)
  unfold pwm_byte pwm_offset at hr hg hb
  rw [hrows] at hr hg hb
  refine ⟨_, _, _, s1, s2, q0.1, q1.1, q2.1, e1, e2, ?_, ?_, ?_, ?_, ?_, ?_, ?_⟩ <;>
    rw [hnew]
  · rw [List.length_append, pwm_frames_length, pwm_frames_length]
  · rw [List.take_append_of_le_length (by rw [pwm_frames_length]),
      List.take_of_length_le (by rw [pwm_frames_length])]
    exact pwm_frames_head addr1 b0
  · rw [List.drop_append_of_le_length (by rw [pwm_frames_length]),
      List.drop_of_length_le (by rw [pwm_frames_length]), List.nil_append]
    exact pwm_frames_head addr2 b1
  · intro chip hchip
    interval_cases chip
    · rw [c0]; exact register_writes_fst b0
    · rw [c1]; exact register_writes_fst b1
  · intro v
    have hdd : led.driver = 0 ∨ led.driver = 1 := by omega
    rcases hdd with h | h
    · rw [h] at hr ⊢
      rw [c0]
      exact register_writes_mem q0.2.1 o0 ((arr2_get_rows b0 b1 _).1.symm.trans hr)
    · rw [h] at hr ⊢
      rw [c1]
      exact register_writes_mem q0.2.1 o0 ((arr2_get_rows b0 b1 _).2.symm.trans hr)
  · intro v
    have hdd : led.driver = 0 ∨ led.driver = 1 := by omega
    rcases hdd with h | h
    · rw [h] at hg ⊢
      rw [c0]
      exact register_writes_mem q1.2.1 o1 ((arr2_get_rows b0 b1 _).1.symm.trans hg)
    · rw [h] at hg ⊢
      rw [c1]
      exact register_writes_mem q1.2.1 o1 ((arr2_get_rows b0 b1 _).2.symm.trans hg)
  · intro v
    have hdd : led.driver = 0 ∨ led.driver = 1 := by omega
    rcases hdd with h | h
    · rw [h] at hb ⊢
      rw [c0]
      exact register_writes_mem q2.2.1 o2 ((arr2_get_rows b0 b1 _).1.symm.trans hb)
    · rw [h] at hb ⊢
      rw [c1]
      exact register_writes_mem q2.2.1 o2 ((arr2_get_rows b0 b1 _).2.symm.trans hb)

/-- Witness of C22: LED 30 of the example board (chip 1, matrix A, cell 5, registers 0x28,
0x38, 0x48), from the state at program start, with the addresses of the Planck rev5. -/
theorem C22_end_to_end_register_targeting_witness :
    initial_state.WF ∧ (0 : Int) ≤ 30 ∧ (30 : Int) < (DRIVER_LED_TOTAL : Int) ∧
    example_leds[(30 : Int).toNat]? = some ⟨1, 0, 0, 5, 0, ⟨0, 0⟩⟩ ∧
    good_bus.succeeds ∧ 1 ≤ 1 ∧
    ∃ s1 s2,
      IS31FL3731_set_color example_leds 30 10 20 30 initial_state = some s1 ∧
      IS31FL3731_update_pwm_buffers good_bus 1 DRIVER_ADDR_1 DRIVER_ADDR_2 s1 = some s2 ∧
      s2.wire.length = 18 ∧
      (0x28, 10) ∈ chip_register_writes s2.wire 1 ∧
      (0x38, 20) ∈ chip_register_writes s2.wire 1 ∧
      (0x48, 30) ∈ chip_register_writes s2.wire 1 ∧
      (chip_register_writes s2.wire 0).map Prod.fst = List.range' 0x24 144 ∧
      (chip_register_writes s2.wire 1).map Prod.fst = List.range' 0x24 144 := by
  have hl : example_leds[(30 : Int).toNat]? = some ⟨1, 0, 0, 5, 0, ⟨0, 0⟩⟩ := by decide
  obtain ⟨a0, a1, a2, s1, s2, e0, e1, e2, hs1, hs2, hlen, _, _, hregs, hr, hg, hb⟩ :=
    C22_end_to_end_register_targeting example_leds good_bus 1 DRIVER_ADDR_1 DRIVER_ADDR_2 30
      ⟨1, 0, 0, 5, 0, ⟨0, 0⟩⟩ 10 20 30 initial_state initial_state_WF (by decide) (by decide)
      hl (by decide) (by decide) (by decide) good_bus_succeeds (Nat.le_refl 1)
  have f0 : a0 = 0x28 := by
    have : pgm_read_map 0 5 0 = some 0x28 := by decide
    exact Option.some.inj (e0.symm.trans this)
  have f1 : a1 = 0x38 := by
    have : pgm_read_map 0 5 1 = some 0x38 := by decide
    exact Option.some.inj (e1.symm.trans this)
  have f2 : a2 = 0x48 := by
    have : pgm_read_map 0 5 2 = some 0x48 := by decide
    exact Option.some.inj (e2.symm.trans this)
  subst f0 f1 f2
  have hw : s2.wire.drop initial_state.wire.length = s2.wire := rfl
  rw [hw] at hlen hregs hr hg hb
  exact ⟨initial_state_WF, by decide, by decide, hl, good_bus_succeeds, Nat.le_refl 1, s1, s2,
    hs1, hs2, hlen, (hr 10).mpr rfl, (hg 20).mpr rfl, (hb 30).mpr rfl,
    hregs 0 (by decide), hregs 1 (by decide)⟩

end IS31FL
